import Mathlib

/-!
Verification of the aero-data waypoint/airspace core.

This file gives a shallow embedding, in Lean 4, of the parts of the
aero-data repository that the verified claims are about:

* the unit / coordinate helper library
  (`aero_data/utils/naviter/helpers.py`, `aero_data/utils/units.py`);
* the `CupWaypoint` entity and its setters
  (`aero_data/utils/naviter/waypoint.py`);
* the CUP file codec (`aero_data/utils/naviter/cup.py`);
* the OpenAir to GeoJSON converter (`aero_data/utils/units.py`);
* the airport reconciliation engine
  (`aero_data/src/update_airports_in_cup.py`).

Modelling conventions:

* Python `float` values are modelled by `ℚ`.  All the numeric paths the
  theorems below exercise stay inside decimal fractions, where `ℚ` and
  IEEE doubles agree; places where the two can diverge (bit-level
  rounding inside `format_distance`) are kept out of theorem scope and
  flagged in comments.
* Python exceptions are modelled by `Except String`; the carried string
  loosely corresponds to the exception message.
* Python truthiness of the dynamically typed setter inputs is modelled
  explicitly on an `Inp` sum type.
* The external country table (a process-wide singleton populated from a
  remote database) is modelled as an explicit `String → Bool` lookup
  argument, as is the remote airport directory used by the
  reconciliation engine.
-/

namespace AeroData

/-! ## Python-style string helpers -/

/-- ASCII whitespace stripped by Python `str.strip()`. -/
def pyIsSpace (c : Char) : Bool :=
  c == ' ' || c == '\t' || c == '\n' || c == '\r' || c == '\x0b' || c == '\x0c'

/-- Drop the longest suffix satisfying `p`. -/
def dropTrailing (p : Char → Bool) (cs : List Char) : List Char :=
  (cs.reverse.dropWhile p).reverse

/-- Strip characters satisfying `p` from both ends (Python `str.strip`). -/
def stripBoth (p : Char → Bool) (cs : List Char) : List Char :=
  dropTrailing p (cs.dropWhile p)

/-- Python `str.strip()` (whitespace). -/
def pyStrip (s : String) : String :=
  ⟨stripBoth pyIsSpace s.data⟩

/-- Python `str.strip('"')`: strip double quotes from both ends. -/
def stripQuotes (s : String) : String :=
  ⟨stripBoth (fun c => c == '"') s.data⟩

/-- Python `str.splitlines()` restricted to the `\n`, `\r\n` and `\r`
terminators (the CUP and OpenAir inputs under consideration contain no
other line terminators). -/
def splitlinesAux : List Char → List Char → List String
  | [], acc => if acc.isEmpty then [] else [⟨acc.reverse⟩]
  | '\r' :: '\n' :: rest, acc => ⟨acc.reverse⟩ :: splitlinesAux rest []
  | '\r' :: rest, acc => ⟨acc.reverse⟩ :: splitlinesAux rest []
  | '\n' :: rest, acc => ⟨acc.reverse⟩ :: splitlinesAux rest []
  | c :: rest, acc => splitlinesAux rest (c :: acc)

def splitlines (s : String) : List String :=
  splitlinesAux s.data []

/-- ASCII lower-casing, as applied by Python `str.lower()` on the inputs
in scope. -/
def pyLower (s : String) : String :=
  ⟨s.data.map Char.toLower⟩

def pyUpper (s : String) : String :=
  ⟨s.data.map Char.toUpper⟩

/-- `",".join(fields)` -/
def joinComma : List String → String
  | [] => ""
  | [f] => f
  | f :: rest => f ++ "," ++ joinComma rest

/-- Python `needle in haystack` on strings. -/
def strContains (haystack needle : String) : Bool :=
  decide (needle.data <:+: haystack.data)

/-! ## Digits and decimal numerals -/

def digitChar : ℕ → Char
  | 0 => '0' | 1 => '1' | 2 => '2' | 3 => '3' | 4 => '4'
  | 5 => '5' | 6 => '6' | 7 => '7' | 8 => '8' | 9 => '9'
  | _ => '?'

def digitVal (c : Char) : ℕ := c.toNat - 48

/-- Decimal digit list of `n`, most significant first; structurally
recursive on a fuel argument (`n` itself bounds the number of digit
steps) so that concrete numerals evaluate by plain reduction. -/
def natDigitsF : ℕ → ℕ → List Char
  | 0, n => [digitChar n]
  | fuel + 1, n =>
    if n < 10 then [digitChar n]
    else natDigitsF fuel (n / 10) ++ [digitChar (n % 10)]

def natDigits (n : ℕ) : List Char := natDigitsF n n

/-- The fuel argument of `natDigitsF` is irrelevant once it bounds the
value. -/
theorem natDigitsF_congr : ∀ (f1 f2 n : ℕ), n ≤ f1 → n ≤ f2 →
    natDigitsF f1 n = natDigitsF f2 n := by
  intro f1
  induction f1 with
  | zero =>
    intro f2 n h1 h2
    have hn : n = 0 := by omega
    subst hn
    cases f2 with
    | zero => rfl
    | succ f2 =>
      show [digitChar 0] = if 0 < 10 then [digitChar 0] else _
      rw [if_pos (by omega)]
  | succ f1 ih =>
    intro f2 n h1 h2
    cases f2 with
    | zero =>
      have hn : n = 0 := by omega
      subst hn
      show (if 0 < 10 then [digitChar 0] else _) = [digitChar 0]
      rw [if_pos (by omega)]
    | succ f2 =>
      show (if n < 10 then [digitChar n] else natDigitsF f1 (n / 10) ++ [digitChar (n % 10)]) =
        (if n < 10 then [digitChar n] else natDigitsF f2 (n / 10) ++ [digitChar (n % 10)])
      by_cases hn : n < 10
      · rw [if_pos hn, if_pos hn]
      · rw [if_neg hn, if_neg hn]
        have hdiv : n / 10 < n := Nat.div_lt_self (by omega) (by omega)
        congr 1
        exact ih f2 (n / 10) (by omega) (by omega)

/-- The original well-founded recurrence of the decimal printer, as an
unfolding equation. -/
theorem natDigits_eq (n : ℕ) : natDigits n =
    if _h : n < 10 then [digitChar n]
    else natDigits (n / 10) ++ [digitChar (n % 10)] := by
  by_cases hn : n < 10
  · rw [dif_pos hn]
    unfold natDigits
    cases n with
    | zero => rfl
    | succ m =>
      show (if m + 1 < 10 then [digitChar (m + 1)] else _) = [digitChar (m + 1)]
      rw [if_pos hn]
  · rw [dif_neg hn]
    unfold natDigits
    obtain ⟨m, rfl⟩ : ∃ m, n = m + 1 := ⟨n - 1, by omega⟩
    show (if m + 1 < 10 then [digitChar (m + 1)]
      else natDigitsF m ((m + 1) / 10) ++ [digitChar ((m + 1) % 10)]) = _
    rw [if_neg hn]
    have hdiv : (m + 1) / 10 < m + 1 := Nat.div_lt_self (by omega) (by omega)
    rw [natDigitsF_congr m ((m + 1) / 10) ((m + 1) / 10) (by omega) (by omega)]

attribute [irreducible] natDigitsF

def natStr (n : ℕ) : String := ⟨natDigits n⟩

/-- Python `str` of an `int`. -/
def intStr (z : ℤ) : String :=
  if z < 0 then "-" ++ natStr z.natAbs else natStr z.natAbs

/-- Value of a decimal digit string (assumes digits). -/
def digitsToNat (cs : List Char) : ℕ :=
  cs.foldl (fun a c => a * 10 + digitVal c) 0

/-- Left-pad with zeros to width `w` (Python `{:0wd}` on a nonnegative
value). -/
def padZeros (w : ℕ) (cs : List Char) : List Char :=
  List.replicate (w - cs.length) '0' ++ cs

/-! ## Rational decimal formatting (Python `format` idealised over `ℚ`) -/

/-- Round to the nearest integer, ties to even (the rounding used by
Python `format` on floats, idealised to exact rationals). -/
def roundHalfEven (q : ℚ) : ℤ :=
  let n := ⌊q⌋
  let r := q - n
  if r < 1/2 then n
  else if 1/2 < r then n + 1
  else if n % 2 = 0 then n else n + 1

/-- Python `"{:.pf}".format(q)` idealised over `ℚ`: fixed-point with `p`
decimals, round half to even.  (A negative value that rounds to zero is
rendered `-0...` by Python; `ℚ` has no negative zero, so the sign is
taken from the input value.) -/
def formatFixed (q : ℚ) (p : ℕ) : String :=
  let m : ℤ := roundHalfEven (q * (10 : ℚ) ^ p)
  let a : ℕ := m.natAbs
  let ds := padZeros (p + 1) (natDigits a)
  let body :=
    if p = 0 then ds
    else ds.take (ds.length - p) ++ ('.' :: ds.drop (ds.length - p))
  if q < 0 then ⟨'-' :: body⟩ else ⟨body⟩

/-- Python `"{:06.3f}".format(q)` for the nonnegative values it is
applied to here: three decimals, zero-padded to width 6. -/
def format063 (q : ℚ) : String :=
  ⟨padZeros 6 (formatFixed q 3).data⟩

/-! ## Coordinate helpers (`aero_data/utils/naviter/helpers.py`) -/

/-- Exactly `k` decimal digits from the front. -/
def takeNDigits : ℕ → List Char → Option (ℕ × List Char)
  | 0, cs => some (0, cs)
  | k + 1, [] => none
  | k + 1, c :: cs =>
    if c.isDigit then
      (takeNDigits k cs).map (fun res => (digitVal c * 10 ^ k + res.1, res.2))
    else none

/-- One alternative of the greedy `\d{1,3}` of `CUP_LAT_REGEX` /
`CUP_LON_REGEX`: exactly `k` fraction digits followed by one of the
direction letters `dirs` (the regex is compiled `IGNORECASE`, so both
cases appear in `dirs`).  Any remaining characters are ignored, matching
`re.match`, which anchors only at the start. -/
def fracThenDir (dirs : List Char) (k : ℕ) (cs : List Char) : Option (ℕ × ℕ × Char) :=
  match takeNDigits k cs with
  | none => none
  | some (v, rest) =>
    match rest with
    | [] => none
    | d :: _ => if dirs.contains d then some (v, k, d) else none

/-- The greedy fraction-and-direction tail `\.\d{1,3}(n|s)` (resp.
`(e|w)`): try three digits, then two, then one, exactly as the regex
backtracks. -/
def fracDir (dirs : List Char) : List Char → Option (ℕ × ℕ × Char)
  | '.' :: cs =>
    (fracThenDir dirs 3 cs).orElse fun _ =>
      (fracThenDir dirs 2 cs).orElse fun _ => fracThenDir dirs 1 cs
  | _ => none

/-- `CUP_LAT_REGEX = (\d{2})(\d{2}\.\d{1,3})(n|s)` (IGNORECASE), matched
at the start of the string; returns `(degrees, minutes, direction)`. -/
def matchCupLat (cs : List Char) : Option (ℕ × ℚ × Char) :=
  match takeNDigits 2 cs with
  | none => none
  | some (deg, rest) =>
    match takeNDigits 2 rest with
    | none => none
    | some (mint, rest2) =>
      match fracDir ['n', 's', 'N', 'S'] rest2 with
      | none => none
      | some (fv, fk, d) => some (deg, (mint : ℚ) + (fv : ℚ) / 10 ^ fk, d)

/-- `CUP_LON_REGEX = (\d{3})(\d{2}\.\d{1,3})(e|w)` (IGNORECASE). -/
def matchCupLon (cs : List Char) : Option (ℕ × ℚ × Char) :=
  match takeNDigits 3 cs with
  | none => none
  | some (deg, rest) =>
    match takeNDigits 2 rest with
    | none => none
    | some (mint, rest2) =>
      match fracDir ['e', 'w', 'E', 'W'] rest2 with
      | none => none
      | some (fv, fk, d) => some (deg, (mint : ℚ) + (fv : ℚ) / 10 ^ fk, d)

/-- `helpers.convert_lat_lon_to_dd`: try the latitude pattern, then the
longitude pattern, on the stripped string; `S`/`W` (upper case only, as
in the source) negate.  Raises (`Except.error`) when neither pattern
matches. -/
def convert_lat_lon_to_dd (coord : String) : Except String ℚ :=
  let cs := (pyStrip coord).data
  let m := (matchCupLat cs).orElse fun _ => matchCupLon cs
  match m with
  | none => .error ("Invalid coordinate format: " ++ coord)
  | some (deg, minutes, dir) =>
    let mult : ℚ := if dir = 'N' || dir = 'E' then 1 else -1
    .ok (mult * ((deg : ℚ) + minutes / 60))

/-- `helpers.format_decimal_degrees_to_cup`. -/
def format_decimal_degrees_to_cup (q : ℚ) (is_lat : Bool) : String :=
  let dir : Char :=
    if is_lat then (if 0 ≤ q then 'N' else 'S')
    else (if 0 ≤ q then 'E' else 'W')
  let degrees : ℕ := ⌊|q|⌋.toNat
  let dec_min : ℚ := (|q| - (degrees : ℚ)) * 60
  let degStr := padZeros (if is_lat then 2 else 3) (natDigits degrees)
  ⟨degStr⟩ ++ format063 dec_min ++ ⟨[dir]⟩

/-! ## Distance helpers (`helpers.py`, `utils/constants.py`) -/

/-- `FT_2_M = 0.3048` -/
def FT_2_M : ℚ := 3048 / 10000

/-- `NM_2_M = 1852` -/
def NM_2_M : ℚ := 1852

/-- `ML_2_M = 1609.344` -/
def ML_2_M : ℚ := 1609344 / 1000

/-- A stored distance value: a finite number of meters, or the
`float("-inf")` sentinel produced for an all-whitespace distance
string. -/
inductive DistVal
  | fin (q : ℚ)
  | ninf
  deriving DecidableEq, Repr

/-- The numeric part of `CUP_DISTANCE_REGEX`:
`[-+]?(\d+(\.\d*)?|\.\d+)([eE][-+]?\d+)?`, parsed from the front of an
already lower-cased character list.  Greedy matching never needs to
backtrack here because every shorter alternative leaves a digit or a
lone `e`/`.` in front of the unit letters. -/
def parseDecNumber (cs : List Char) : Option (ℚ × List Char) :=
  let (sgn, cs1) : ℚ × List Char :=
    match cs with
    | '+' :: r => (1, r)
    | '-' :: r => (-1, r)
    | _ => (1, cs)
  let ipart := cs1.takeWhile Char.isDigit
  let rest1 := cs1.dropWhile Char.isDigit
  let core : Option (ℚ × List Char) :=
    if ipart.isEmpty then
      -- alternative `\.\d+`
      match rest1 with
      | '.' :: r2 =>
        let fpart := r2.takeWhile Char.isDigit
        if fpart.isEmpty then none
        else some ((digitsToNat fpart : ℚ) / 10 ^ fpart.length, r2.dropWhile Char.isDigit)
      | _ => none
    else
      -- alternative `\d+(\.\d*)?`
      match rest1 with
      | '.' :: r2 =>
        let fpart := r2.takeWhile Char.isDigit
        some ((digitsToNat ipart : ℚ) + (digitsToNat fpart : ℚ) / 10 ^ fpart.length,
          r2.dropWhile Char.isDigit)
      | _ => some ((digitsToNat ipart : ℚ), rest1)
  match core with
  | none => none
  | some (v, rest2) =>
    -- optional exponent `[eE][-+]?\d+` (input is lower-cased)
    let noExp : ℚ × List Char := (sgn * v, rest2)
    match rest2 with
    | 'e' :: r3 =>
      let (esgn, r4) : ℤ × List Char :=
        match r3 with
        | '+' :: r => (1, r)
        | '-' :: r => (-1, r)
        | _ => (1, r3)
      let edigits := r4.takeWhile Char.isDigit
      if edigits.isEmpty then some noExp
      else
        let e : ℤ := esgn * (digitsToNat edigits : ℤ)
        some (sgn * v * (10 : ℚ) ^ e, r4.dropWhile Char.isDigit)
    | _ => some noExp

/-- The unit part `(ft|m|nm|ml)` of `CUP_DISTANCE_REGEX`: ordered
alternation, first alternative that matches a prefix wins (so `ml` is
unreachable, `m` shadows it). -/
def matchDistUnit (cs : List Char) : Option String :=
  (["ft", "m", "nm", "ml"].find? fun u => u.data.isPrefixOf cs)

/-- `helpers.convert_distance_to_m_and_og_unit`. -/
def convert_distance_to_m_and_og_unit (dist : String) : Except String (DistVal × String) :=
  if pyStrip dist = "" then .ok (.ninf, "m")
  else
    let cs := (pyLower (pyStrip dist)).data
    match parseDecNumber cs with
    | none => .error ("Invalid distance format: " ++ dist)
    | some (v, rest) =>
      match matchDistUnit rest with
      | none => .error ("Invalid distance format: " ++ dist)
      | some u =>
        let factor : ℚ :=
          if u = "ft" then FT_2_M
          else if u = "nm" then NM_2_M
          else if u = "ml" then ML_2_M
          else 1
        .ok (.fin (v * factor), u)

/-- `helpers.format_distance`.

Caveat: the special zero-decimal rule for meters tests
`(distance * 10) % 1 == 0` on IEEE floats; the test below idealises it
to exactness over `ℚ`.  The two agree on the integer and half-integer
values exercised by the theorems in this file, but not bit-for-bit on
every decimal (e.g. the float product `3.2 * 10` is exactly `32.0`
while `10.1 * 10` is not exactly `101.0`); theorems about
serialisation therefore restrict to waypoints whose distance fields are
absent. -/
def format_distance (v : Option DistVal) (unit : String) : String :=
  match v with
  | none => ""
  | some .ninf => ""
  | some (.fin q) =>
    let u := pyLower unit
    let (factor, prec, suffix) : ℚ × ℕ × String :=
      if u = "ft" then (FT_2_M, 0, "ft")
      else if u = "nm" then (NM_2_M, 2, "nm")
      else if u = "ml" then (ML_2_M, 2, "ml")
      else if u = "m" then (1, 1, "m")
      else (1, 1, "m")
    let distance := q / factor
    let precFinal := if u = "m" ∧ (10 * distance).den = 1 then 0 else prec
    formatFixed distance precFinal ++ suffix

/-! ## Frequency and style validation (`helpers.py`, `constants.py`) -/

/-- The intended band alternative of `CUP_FREQ_REGEX`:
`^(118|119|12[0-9]|13[0-6])\.(?:\d{2}[05]|\d{2}|\d)$`. -/
def cupFreqBandMatch (s : String) : Bool :=
  match s.data with
  | a :: b :: c :: '.' :: rest =>
    let headOk : Bool :=
      (a == '1' && b == '1' && (c == '8' || c == '9')) ||
      (a == '1' && b == '2' && c.isDigit) ||
      (a == '1' && b == '3' && '0' ≤ c && c ≤ '6')
    let tailOk : Bool :=
      match rest with
      | [x, y, z] => x.isDigit && y.isDigit && (z == '0' || z == '5')
      | [x, y] => x.isDigit && y.isDigit
      | [x] => x.isDigit
      | _ => false
    headOk && tailOk
  | _ => false

/-- `helpers.is_valid_cup_freq`.  The source pattern
`CUP_FREQ_REGEX = r"^(118|119|...)\.(...)$|"` ends with `|`: a trailing
empty alternative, which matches (with zero width) at the start of
every string.  `re.match` therefore always returns a match object and
the function returns `True` for every input. -/
def is_valid_cup_freq (freq : String) : Bool :=
  cupFreqBandMatch freq || true

/-- The keys of `CUP_SYTLE_MAPPING` in `constants.py`. -/
def styleKeys : List ℤ :=
  [0, 1, 2, 3, 4, 5, 6, 7, 8, 9, 10, 11, 12, 13, 14, 15, 16, 17, 18, 19, 20, 21]

/-- Python `str.isdigit` (ASCII fragment). -/
def pyIsDigitStr (s : String) : Bool :=
  !s.data.isEmpty && s.data.all Char.isDigit

/-- `helpers.is_valid_style` on an `int` argument. -/
def is_valid_style_int (z : ℤ) : Bool := styleKeys.contains z

/-- `helpers.is_valid_style` on a `str` argument. -/
def is_valid_style_str (s : String) : Bool :=
  pyIsDigitStr s && styleKeys.contains (digitsToNat s.data : ℤ)

/-! ## AIP coordinate parsing (`aero_data/utils/units.py`) -/

/-- `units.dms_to_dd`. -/
def dms_to_dd (d m s : ℚ) : ℚ := d + m / 60 + s / 3600

/-- The seconds group `(\d{2}(?:\.\d+)?)` followed by a direction letter
from `dirs`: greedy, so the fractional part is taken when present and
followed by a valid direction letter. -/
def aipSecondsDir (dirs : List Char) (cs : List Char) : Option (ℚ × Char × List Char) :=
  match takeNDigits 2 cs with
  | none => none
  | some (s2, rest) =>
    let withFrac : Option (ℚ × Char × List Char) :=
      match rest with
      | '.' :: r2 =>
        let fpart := r2.takeWhile Char.isDigit
        if fpart.isEmpty then none
        else
          match r2.dropWhile Char.isDigit with
          | d :: r3 =>
            if dirs.contains d then
              some ((s2 : ℚ) + (digitsToNat fpart : ℚ) / 10 ^ fpart.length, d, r3)
            else none
          | [] => none
      | _ => none
    withFrac.orElse fun _ =>
      match rest with
      | d :: r3 => if dirs.contains d then some ((s2 : ℚ), d, r3) else none
      | [] => none

/-- One coordinate half of the AIP pattern
`(\d{2,3})(\d{2})(\d{2}(?:\.\d+)?)([NS])` (resp. `[EW]`): greedy on the
degree group, so three digits are tried before two. -/
def aipHalf (dirs : List Char) (cs : List Char) : Option (ℚ × Char × List Char) :=
  let tryK : ℕ → Option (ℚ × Char × List Char) := fun k =>
    match takeNDigits k cs with
    | none => none
    | some (d, rest) =>
      match takeNDigits 2 rest with
      | none => none
      | some (m, rest2) =>
        match aipSecondsDir dirs rest2 with
        | none => none
        | some (s, dir, rest3) => some (dms_to_dd (d : ℚ) (m : ℚ) s, dir, rest3)
  (tryK 3).orElse fun _ => tryK 2

/-- The full AIP pattern, anchored at the start: latitude half, `\s+`,
longitude half. -/
def aipMatch (cs : List Char) : Option (ℚ × Char × ℚ × Char) :=
  match aipHalf ['N', 'S'] cs with
  | none => none
  | some (latv, lath, rest) =>
    let sps := rest.takeWhile pyIsSpace
    if sps.isEmpty then none
    else
      match aipHalf ['E', 'W'] (rest.dropWhile pyIsSpace) with
      | none => none
      | some (lonv, lonh, _) => some (latv, lath, lonv, lonh)

/-- Remove the degree/minute/second symbols as
`aip_str.replace("°", "").replace("'", "").replace('"', "")`. -/
def stripAipSymbols (s : String) : List Char :=
  s.data.filter fun c => !(c = '°' ∨ c = '\x27' ∨ c = '"')

/-- `units.parse_aip_point`: first try the pattern on the string with
all symbols *and spaces* removed (the mandatory `\s+` then fails), then
fall back to the string with only the symbols removed. -/
def parse_aip_point (aip_str : String) : Except String (ℚ × ℚ) :=
  let collapsed := (stripAipSymbols aip_str).filter (fun c => c ≠ ' ')
  let m := (aipMatch collapsed).orElse fun _ => aipMatch (stripAipSymbols aip_str)
  match m with
  | none => .error ("Invalid AIP coordinate format. Example: 455404.3N 0153113.7E")
  | some (latv, lath, lonv, lonh) =>
    let lat := if lath = 'S' then -latv else latv
    let lon := if lonh = 'W' then -lonv else lonv
    .ok (lat, lon)

/-! ## Python `int()` (`_set_integer_attr` calls `int(value)` on strings) -/

/-- Digit run with single underscores allowed between digits, as
accepted by Python `int()`. -/
def parseUDigitsGo : List Char → ℕ → Option ℕ
  | [], acc => some acc
  | '_' :: c :: rest, acc =>
    if c.isDigit then parseUDigitsGo rest (acc * 10 + digitVal c) else none
  | c :: rest, acc =>
    if c.isDigit then parseUDigitsGo rest (acc * 10 + digitVal c) else none

/-- Python `int(s)`: optional surrounding whitespace, optional sign,
then a digit run (with optional single underscores between digits).
`none` models the `ValueError` raised on anything else. -/
def pyInt (s : String) : Option ℤ :=
  let cs := stripBoth pyIsSpace s.data
  let (sgn, cs1) : ℤ × List Char :=
    match cs with
    | '+' :: r => (1, r)
    | '-' :: r => (-1, r)
    | _ => (1, cs)
  match cs1 with
  | [] => none
  | c :: rest =>
    if c.isDigit then (parseUDigitsGo rest (digitVal c)).map fun n => sgn * n
    else none

/-! ## The `CupWaypoint` entity (`aero_data/utils/naviter/waypoint.py`) -/

/-- Setter inputs are dynamically typed in the source
(`str | float | int | None`); modelled as an explicit sum. -/
inductive Inp
  | none
  | str (s : String)
  | intv (z : ℤ)
  | fl (q : ℚ)
  deriving DecidableEq, Repr

/-- Python truthiness of an `Inp`. -/
def Inp.truthy : Inp → Bool
  | .none => false
  | .str s => s ≠ ""
  | .intv z => z ≠ 0
  | .fl q => q ≠ 0

/-- Stored state of a `CupWaypoint`.  All values are held in the
SI-normalised form the setters store (`ℚ` for the float fields,
meters plus remembered original unit for distances).  The process-local
`_id` (a fresh CUID per construction) is not modelled: it never takes
part in validation or serialization. -/
structure CupWaypoint where
  name : Option String
  code : Option String
  country : Option String
  lat : ℚ
  lon : ℚ
  /-- `self.coordinates = Point(self._lon, self._lat)`, assigned only
  after both range checks pass. -/
  coordinates : ℚ × ℚ
  elev : Option DistVal
  og_elev_unit : String
  style : Option ℤ
  rwdir : Option ℤ
  rwlen : Option DistVal
  og_rwlen_unit : String
  rwwidth : Option DistVal
  og_rwwidth_unit : String
  freq : Option String
  desc : Option String
  userdata : Option String
  pics : Option String
  deriving DecidableEq, Repr

/-- A fresh Python object before `__init__` runs its setters. -/
def emptyWaypoint : CupWaypoint :=
  { name := .none, code := .none, country := .none
    lat := 0, lon := 0, coordinates := (0, 0)
    elev := .none, og_elev_unit := "m"
    style := .none, rwdir := .none
    rwlen := .none, og_rwlen_unit := "m"
    rwwidth := .none, og_rwwidth_unit := "m"
    freq := .none, desc := .none, userdata := .none, pics := .none }

/-- `CupWaypoint._set_string_attr`. -/
def set_string_attr (value : Inp) (vali : Option (String → Bool)) (attr : String) :
    Except String (Option String) :=
  if !value.truthy then .ok .none
  else
    match value with
    | .str s =>
      match vali with
      | .none => .ok (some (pyStrip s))
      | some f =>
        if f s then .ok (some (pyStrip s))
        else .error ("Value " ++ s ++ " is invalid for " ++ attr ++ " attribute.")
    | _ => .error ("Invalid value type for " ++ attr ++ " attribute.")

/-- `CupWaypoint._set_integer_attr`.  The optional validator carries
both overloads of `is_valid_style` (the only validator passed in the
source). -/
def set_integer_attr (value : Inp) (vali : Option ((ℤ → Bool) × (String → Bool)))
    (attr : String) : Except String (Option ℤ) :=
  if !value.truthy then .ok .none
  else
    match value with
    | .intv z =>
      match vali with
      | .none => .ok (some z)
      | some fs =>
        if fs.1 z then .ok (some z)
        else .error ("Value is invalid for " ++ attr ++ " attribute")
    | .str s =>
      match vali with
      | .none =>
        -- `int(value)` raises `ValueError` on a malformed string
        match pyInt s with
        | some z => .ok (some z)
        | .none => .error ("invalid literal for int(): " ++ s)
      | some fs =>
        if fs.2 s then
          match pyInt s with
          | some z => .ok (some z)
          | .none => .error ("invalid literal for int(): " ++ s)
        else .error ("Value " ++ s ++ " is invalid for " ++ attr ++ " attribute")
    | _ => .error ("Invalid value type for " ++ attr ++ " attribute.")

/-- `CupWaypoint._set_distance_attr`. -/
def set_distance_attr (value : Inp) (attr : String) :
    Except String (Option DistVal × String) :=
  if !value.truthy then .ok (.none, "m")
  else
    match value with
    | .str s =>
      match convert_distance_to_m_and_og_unit s with
      | .ok (v, u) => .ok (some v, u)
      | .error e => .error ("Invalid value for " ++ attr ++ ": " ++ s ++ ". " ++ e)
    | .intv z => .ok (some (.fin (z : ℚ)), "m")
    | .fl q => .ok (some (.fin q), "m")
    | .none => .error ("Invalid value type for " ++ attr ++ " attribute.")

/-- `CupWaypoint.country` setter.  `countries` models the external
ISO-3166 lookup (`models.Countries.get_by_iso2` over the remote table);
an unknown code raises either way. -/
def set_country (countries : String → Bool) (value : Inp) :
    Except String (Option String) :=
  if !value.truthy then .ok .none
  else
    match value with
    | .str s =>
      if s.length = 2 then
        if s = "--" then .ok .none
        else if countries (pyUpper s) then set_string_attr (.str (pyUpper s)) .none ("country")
        else .error ("Invalid ISO 3166-a alpha-2 country code: " ++ s)
      else .error ("Country code must be a two-letter string.")
    | _ => .error ("Country code must be a two-letter string.")

/-- The `isinstance(x, (str, float, int))` guard of
`_update_coordinates`. -/
def isCoordType : Inp → Bool
  | .none => false
  | _ => true

/-- The value each assignment inside `_update_coordinates` computes:
`convert_lat_lon_to_dd(x) if isinstance(x, str) else x`. -/
def coordValue : Inp → Except String ℚ
  | .str s => convert_lat_lon_to_dd s
  | .intv z => .ok (z : ℚ)
  | .fl q => .ok q
  | .none => .error ("Latitude and longitude must be valid numeric or cup string types.")

/-- `CupWaypoint._update_coordinates`, modelled with Python's mutation
order: `self._lat` is assigned, then `self._lon`, and only then are the
two range checks run; a check failure raises *after* the assignments,
so the returned state keeps the freshly assigned values while
`self.coordinates` (assigned last) keeps its old value.  The function
returns the post-call state together with the raised message, if
any. -/
def update_coordinates (w : CupWaypoint) (latA lonA : Inp) :
    CupWaypoint × Option String :=
  if isCoordType latA && isCoordType lonA then
    match coordValue latA with
    | .error e => (w, some e)
    | .ok latv =>
      let w1 := { w with lat := latv }
      match coordValue lonA with
      | .error e => (w1, some e)
      | .ok lonv =>
        let w2 := { w1 with lon := lonv }
        if !(decide (-90 ≤ latv) && decide (latv ≤ 90)) then
          (w2, some ("Lattitude must be between -90 and 90 degrees"))
        else if !(decide (-180 ≤ lonv) && decide (lonv ≤ 180)) then
          (w2, some ("Longitude must be between -1880 and 180 deg."))
        else
          ({ w2 with coordinates := (lonv, latv) }, .none)
  else
    (w, some ("Latitude and longitude must be valid numeric or cup string types."))

/-- The `lat` property setter: `self._update_coordinates(value, self.lon)`. -/
def set_lat (w : CupWaypoint) (value : Inp) : CupWaypoint × Option String :=
  update_coordinates w value (.fl w.lon)

/-- The `lon` property setter: `self._update_coordinates(self.lat, value)`. -/
def set_lon (w : CupWaypoint) (value : Inp) : CupWaypoint × Option String :=
  update_coordinates w (.fl w.lat) value

/-- The style validator pair handed to `_set_integer_attr` by the
`style` setter. -/
def styleVali : (ℤ → Bool) × (String → Bool) :=
  (is_valid_style_int, is_valid_style_str)

/-- `CupWaypoint.__init__`: the guards, then `_update_coordinates`,
then every field setter, in source order.  Any raise aborts the whole
construction (no partially built object escapes `__init__`). -/
def mkCupWaypoint (countries : String → Bool)
    (name lat lon : Inp)
    (code country elev style rwdir rwlen rwwidth freq userdata desc pics : Inp) :
    Except String CupWaypoint :=
  if !name.truthy then .error ("Waypoint requires a name")
  else if !lat.truthy || !lon.truthy then .error ("Both lat. and lon. must be specified.")
  else
    match update_coordinates emptyWaypoint lat lon with
    | (_, some e) => .error e
    | (w0, .none) => do
      let nm ← set_string_attr name .none ("name")
      let cd ← set_string_attr code .none ("code")
      let ct ← set_country countries country
      let (ev, eu) ← set_distance_attr elev ("elev")
      let st ← set_integer_attr style (some styleVali) ("style")
      let rd ← set_integer_attr rwdir .none ("rwdir")
      let (rl, ru) ← set_distance_attr rwlen ("rwlen")
      let (rw, wu) ← set_distance_attr rwwidth ("rwwidth")
      let fq ← set_string_attr freq (some is_valid_cup_freq) ("freq")
      let dc ← set_string_attr desc .none ("desc")
      let ud ← set_string_attr userdata .none ("userdata")
      let pc ← set_string_attr pics .none ("pics")
      pure { w0 with
        name := nm, code := cd, country := ct
        elev := ev, og_elev_unit := eu
        style := st, rwdir := rd
        rwlen := rl, og_rwlen_unit := ru
        rwwidth := rw, og_rwwidth_unit := wu
        freq := fq, desc := dc, userdata := ud, pics := pc }

/-! ## Derived waypoint queries and serialization -/

/-- `CupWaypoint.is_landable`: `self.style in [2, 3, 4, 5]`. -/
def is_landable (w : CupWaypoint) : Bool :=
  match w.style with
  | some z => [(2 : ℤ), 3, 4, 5].contains z
  | .none => false

/-- `CupWaypoint.is_airport`: `self.style in [2, 4, 5]`. -/
def is_airport (w : CupWaypoint) : Bool :=
  match w.style with
  | some z => [(2 : ℤ), 4, 5].contains z
  | .none => false

/-- `CupWaypoint.is_outlanding`: `self.style in [3]`. -/
def is_outlanding (w : CupWaypoint) : Bool :=
  match w.style with
  | some z => [(3 : ℤ)].contains z
  | .none => false

/-- The fourteen canonical CUP columns (`constants.CUP_FIELDS`). -/
inductive CupField
  | name | code | country | lat | lon | elev | style
  | rwdir | rwlen | rwwidth | freq | desc | userdata | pics
  deriving DecidableEq, Repr

def CupField.fieldName : CupField → String
  | .name => "name" | .code => "code" | .country => "country"
  | .lat => "lat" | .lon => "lon" | .elev => "elev" | .style => "style"
  | .rwdir => "rwdir" | .rwlen => "rwlen" | .rwwidth => "rwwidth"
  | .freq => "freq" | .desc => "desc" | .userdata => "userdata" | .pics => "pics"

/-- `constants.CUP_FIELDS`, in serialization order. -/
def CUP_FIELDS : List CupField :=
  [.name, .code, .country, .lat, .lon, .elev, .style,
   .rwdir, .rwlen, .rwwidth, .freq, .desc, .userdata, .pics]

/-- `constants.CUP_FIELDS_MAPPING`: accepted header aliases, in source
order. -/
def CUP_FIELDS_MAPPING : List (CupField × List String) :=
  [(.name, ["name", "waypoint", "wpname"]),
   (.code, ["code", "shortname", "short_name"]),
   (.country, ["country", "cntry"]),
   (.lat, ["lat", "la", "latitude"]),
   (.lon, ["lon", "lo", "long", "longitude"]),
   (.elev, ["elev", "elevation", "alt", "altitude"]),
   (.style, ["style", "type"]),
   (.rwdir, ["rwdir", "rw_dir", "rwy_dir", "runway_direction"]),
   (.rwlen, ["rwlen", "rw_len", "rwy_len", "runway_length"]),
   (.rwwidth, ["rwwidth", "rw_width", "rwy_width", "runway_width"]),
   (.freq, ["freq", "frequency"]),
   (.desc, ["desc", "description"]),
   (.userdata, ["userdata", "user_data"]),
   (.pics, ["pics", "pictures", "user_pictures"])]

/-- `CupWaypoint._format_attr`. -/
def format_attr (w : CupWaypoint) : CupField → String
  | .lat => format_decimal_degrees_to_cup w.lat true
  | .lon => format_decimal_degrees_to_cup w.lon false
  | .elev => format_distance w.elev w.og_elev_unit
  | .rwlen => format_distance w.rwlen w.og_rwlen_unit
  | .rwwidth => format_distance w.rwwidth w.og_rwwidth_unit
  | .name => (w.name.map id).getD ""
  | .code => w.code.getD ""
  | .country => w.country.getD ""
  | .style => (w.style.map intStr).getD ""
  | .rwdir => (w.rwdir.map intStr).getD ""
  | .freq => w.freq.getD ""
  | .desc => w.desc.getD ""
  | .userdata => w.userdata.getD ""
  | .pics => w.pics.getD ""

/-! ### CSV codec (Python `csv` module, default dialect)

The `csv.reader` is modelled line by line: the CUP inputs in scope are
pre-split on line terminators, so the continuation of an unterminated
quoted field onto the next physical line never occurs. -/

/-- Does QUOTE_MINIMAL need to quote this field? -/
def csvNeedsQuote (f : String) : Bool :=
  f.data.any fun c => c == ',' || c == '"' || c == '\r' || c == '\n'

/-- Quote a field: wrap in `"` doubling inner `"`. -/
def csvQuote (f : String) : String :=
  ⟨'"' :: (f.data.foldr (fun c acc => if c == '"' then '"' :: '"' :: acc else c :: acc) ['"'])⟩

def csvWriteField (f : String) : String :=
  if csvNeedsQuote f then csvQuote f else f

/-- `csv.writer(...).writerow(fields)` with QUOTE_MINIMAL, without the
line terminator (a lone empty field would be written `""`; the rows
in scope always carry fourteen fields). -/
def csvWriteRow (fields : List String) : String :=
  match fields with
  | [f] => if f = "" then "\"\"" else csvWriteField f
  | _ => joinComma (fields.map csvWriteField)

/-- `CupWaypoint.__str__`: format every `CUP_FIELDS` attribute, write
one CSV row, and strip the `\r\n` line terminator. -/
def wpt_str (w : CupWaypoint) : String :=
  ⟨stripBoth (fun c => c == '\r' || c == '\n')
    (csvWriteRow (CUP_FIELDS.map (format_attr w))).data⟩

/-- Parser states of the `csv.reader` field machine. -/
inductive CsvSt
  | startField | inField | inQuoted | quoteInQuoted
  deriving DecidableEq, Repr

/-- One line through Python's `csv.reader` state machine
(`delimiter=','`, `quotechar='"'`, `doublequote=True`, non-strict). -/
def csvReadAux : List Char → CsvSt → List Char → List String → List String
  | [], st, curr, fields =>
    (match st, fields with
     | .startField, [] => []
     | _, _ => (fields ++ [⟨curr.reverse⟩]))
  | c :: rest, .startField, curr, fields =>
    if c == '"' then csvReadAux rest .inQuoted curr fields
    else if c == ',' then csvReadAux rest .startField [] (fields ++ [""])
    else csvReadAux rest .inField (c :: curr) fields
  | c :: rest, .inField, curr, fields =>
    if c == ',' then csvReadAux rest .startField [] (fields ++ [⟨curr.reverse⟩])
    else csvReadAux rest .inField (c :: curr) fields
  | c :: rest, .inQuoted, curr, fields =>
    if c == '"' then csvReadAux rest .quoteInQuoted curr fields
    else csvReadAux rest .inQuoted (c :: curr) fields
  | c :: rest, .quoteInQuoted, curr, fields =>
    if c == '"' then csvReadAux rest .inQuoted (c :: curr) fields
    else if c == ',' then csvReadAux rest .startField [] (fields ++ [⟨curr.reverse⟩])
    else csvReadAux rest .inField (c :: curr) fields

def csvRead (line : String) : List String :=
  csvReadAux line.data .startField [] []

/-! ### The CUP file codec (`aero_data/utils/naviter/cup.py`) -/

/-- A `CupFile`: ordered waypoints plus the opaque task block.  The
stored display name takes no part in parsing or serialization and is
not modelled. -/
structure CupFile where
  waypoints : List CupWaypoint
  tasks : List String
  deriving DecidableEq, Repr

/-- `CupFile._find_column_indices`: map each header column to a
canonical field via the alias table; a later duplicate column
overwrites the recorded index. -/
def find_column_indices (header : List String) : CupField → Option ℕ :=
  header.enum.foldl
    (fun m p =>
      let nn := pyLower (pyStrip p.2)
      match CUP_FIELDS_MAPPING.find? (fun e => e.2.contains nn) with
      | some e => fun f => if f = e.1 then some p.1 else m f
      | .none => m)
    (fun _ => .none)

def optInp : Option String → Inp
  | some s => .str s
  | .none => .none

/-- `CupFile._parse_waypoint_line`: look up each mapped column
(an out-of-range index raises `IndexError`), strip quotes and
whitespace, and hand the tokens to the `CupWaypoint` constructor.  A
header without name/lat/lon columns leaves the corresponding required
argument missing (`TypeError`). -/
def parse_waypoint_line (countries : String → Bool)
    (line : List String) (cols : CupField → Option ℕ) : Except String CupWaypoint := do
  let tok : CupField → Except String (Option String) := fun f =>
    match cols f with
    | some i =>
      match line.get? i with
      | some s => .ok (some (pyStrip (stripQuotes s)))
      | .none => .error ("IndexError: list index out of range")
    | .none => .ok .none
  let nm ← tok .name
  let la ← tok .lat
  let lo ← tok .lon
  let cd ← tok .code
  let ct ← tok .country
  let ev ← tok .elev
  let st ← tok .style
  let rd ← tok .rwdir
  let rl ← tok .rwlen
  let rw ← tok .rwwidth
  let fq ← tok .freq
  let dc ← tok .desc
  let ud ← tok .userdata
  let pc ← tok .pics
  match nm, la, lo with
  | some n, some latTok, some lonTok =>
    mkCupWaypoint countries (.str n) (.str latTok) (.str lonTok)
      (optInp cd) (optInp ct) (optInp ev) (optInp st) (optInp rd)
      (optInp rl) (optInp rw) (optInp fq) (optInp ud) (optInp dc) (optInp pc)
  | _, _, _ => .error ("TypeError: missing required argument")

/-- The data-line loop of `CupFile.loads`: `line_nr` enumerates the
reader rows after the header; `fullLines` is the complete `splitlines`
result (the tasks slice `lines[line_nr + 2:]` indexes into it). -/
def loadsGo (countries : String → Bool) (fullLines : List String)
    (cols : CupField → Option ℕ) :
    List String → ℕ → List String → List CupWaypoint →
    Except String (List CupWaypoint × List String)
  | [], _, _, acc => .ok (acc.reverse, [])
  | line :: rest, line_nr, seen, acc =>
    let fields := csvRead line
    let line_str := joinComma fields
    if strContains (pyLower line_str) ("--related tasks--") then
      .ok (acc.reverse, fullLines.drop (line_nr + 2))
    else if fields.isEmpty then
      loadsGo countries fullLines cols rest (line_nr + 1) seen acc
    else if (fields.headD "").startsWith ("#") then
      loadsGo countries fullLines cols rest (line_nr + 1) seen acc
    else if seen.contains line_str then
      loadsGo countries fullLines cols rest (line_nr + 1) seen acc
    else do
      let w ← parse_waypoint_line countries fields cols
      loadsGo countries fullLines cols rest (line_nr + 1) (line_str :: seen) (w :: acc)

/-- The body of `CupFile.loads` once the content is split into lines:
an empty file returns the untouched empty collection; otherwise the
first line is the header and the rest feed the data-line loop. -/
def loadsLines (countries : String → Bool) : List String → Except String CupFile
  | [] => .ok ⟨[], []⟩
  | headerLine :: rest =>
    (loadsGo countries (headerLine :: rest) (find_column_indices (csvRead headerLine))
      rest 0 [] []).map fun r => ⟨r.1, r.2⟩

/-- `CupFile.loads` on already decoded text (the `str` branch of the
source; byte inputs go through the external `charset_normalizer`
detector first, which is outside this model). -/
def loads (countries : String → Bool) (content : String) : Except String CupFile :=
  loadsLines countries (splitlines content)

def intercalateNL : List String → String
  | [] => ""
  | [x] => x
  | x :: rest => x ++ "\n" ++ intercalateNL rest

def concatRows : List CupWaypoint → String
  | [] => ""
  | w :: rest => wpt_str w ++ "\n" ++ concatRows rest

/-- `CupFile._serialize` / `dumps`. -/
def serialize (cf : CupFile) : String :=
  joinComma (CUP_FIELDS.map CupField.fieldName) ++ "\n" ++
  concatRows cf.waypoints ++
  "-----Related Tasks-----\n" ++
  (if cf.tasks.isEmpty then "" else intercalateNL cf.tasks)

/-- `CupFile.airports()`. -/
def airports (cf : CupFile) : List CupWaypoint :=
  cf.waypoints.filter is_airport

/-- `CupFile.landables()`. -/
def landables (cf : CupFile) : List CupWaypoint :=
  cf.waypoints.filter is_landable

/-- `CupFile.outlandings()`. -/
def outlandings (cf : CupFile) : List CupWaypoint :=
  cf.waypoints.filter is_outlanding

/-! ## Waypoints, the type-checked list subclass (`cup.py`) -/

/-- An arbitrary Python object handed to a `Waypoints` method: either a
`CupWaypoint` or something else (carrying its type name for the
error message). -/
inductive PyItem
  | wpt (w : CupWaypoint)
  | other (typeName : String)
  deriving DecidableEq, Repr

def PyItem.isWpt : PyItem → Bool
  | .wpt _ => true
  | .other _ => false

/-- `Waypoints.append`. -/
def wptsAppend (l : List PyItem) (item : PyItem) : Except String (List PyItem) :=
  match item with
  | .wpt _ => .ok (l ++ [item])
  | .other t => .error ("Item must be a CupWaypoint, got " ++ t)

/-- `Waypoints.insert`; Python `list.insert` clamps the index. -/
def wptsInsert (l : List PyItem) (i : ℕ) (item : PyItem) : Except String (List PyItem) :=
  match item with
  | .wpt _ => .ok (l.take i ++ item :: l.drop i)
  | .other t => .error ("Item must be a CupWaypoint, got " ++ t)

/-- `Waypoints.extend`: the loop checks every item before
`super().extend` adds any, so a failure leaves the list untouched. -/
def wptsExtend (l : List PyItem) (items : List PyItem) : Except String (List PyItem) :=
  if items.all PyItem.isWpt then .ok (l ++ items)
  else .error ("All items must be CupWaypoint")

/-- One mutating operation on a `Waypoints` collection. -/
inductive WOp
  | app (item : PyItem)
  | ins (i : ℕ) (item : PyItem)
  | ext (items : List PyItem)

def applyWOp (l : List PyItem) : WOp → Except String (List PyItem)
  | .app item => wptsAppend l item
  | .ins i item => wptsInsert l i item
  | .ext items => wptsExtend l items

/-- Run one operation; a raised `TypeError` leaves the collection as it
was. -/
def applyWOpKeep (l : List PyItem) (op : WOp) : List PyItem :=
  match applyWOp l op with
  | .ok l2 => l2
  | .error _ => l

def runWOps (l : List PyItem) (ops : List WOp) : List PyItem :=
  ops.foldl applyWOpKeep l

/-- Every element of the collection is a `CupWaypoint`. -/
def allWpts (l : List PyItem) : Prop :=
  ∀ it ∈ l, it.isWpt = true

/-! ## Claim theorems: helper library -/

/-- Claim C8: parsing the AIP coordinate string `455404.3N 0153113.7E`
with `parse_aip_point` succeeds and returns a (latitude, longitude)
pair within `1e-3` degrees of `(45.9012, 15.5204)`.  The exact values
are `45°54'04.3" = 1652443/36000` and `15°31'13.7" = 558737/36000`. -/
theorem claim_C8_aip_parse :
    parse_aip_point ("455404.3N 0153113.7E") = .ok (1652443/36000, 558737/36000) ∧
    |(1652443 : ℚ)/36000 - 459012/10000| ≤ 1/1000 ∧
    |(558737 : ℚ)/36000 - 155204/10000| ≤ 1/1000 := by
  refine ⟨by with_unfolding_all rfl, ?_, ?_⟩ <;>
    (rw [abs_le]; constructor <;> norm_num)

/-- Claim C4 (code bug): `is_valid_cup_freq` accepts *every* string,
not just the civil VHF band: `CUP_FREQ_REGEX` ends with `|`, a trailing
empty alternative that matches at the start of any string, so
`re.match` never fails.  In particular the out-of-band `999.99` is
accepted (and the `freq` setter stores it), even though the band
alternative itself does not match it. -/
theorem claim_C4_freq_vacuous :
    (∀ s, is_valid_cup_freq s = true) ∧
    is_valid_cup_freq ("999.99") = true ∧
    cupFreqBandMatch ("999.99") = false ∧
    set_string_attr (.str "999.99") (some is_valid_cup_freq) ("freq") =
      .ok (some ("999.99")) := by
  refine ⟨fun s => ?_, ?_, by with_unfolding_all rfl, by with_unfolding_all rfl⟩ <;>
    simp [is_valid_cup_freq]

/-- Claim C9: constructing a `CupWaypoint` with numeric latitude `0.0`
or numeric longitude `0.0` always fails with
`Both lat. and lon. must be specified.` (the `if not lat or not lon`
truthiness guard), although `0.0` is inside the documented valid
ranges.  (`name` must itself be truthy, otherwise the name guard fires
first.) -/
theorem claim_C9_zero_coordinate_unconstructible
    (countries : String → Bool)
    (name lat lon code country elev style rwdir rwlen rwwidth freq userdata desc pics : Inp)
    (hname : name.truthy = true)
    (h : lat = .fl 0 ∨ lat = .intv 0 ∨ lon = .fl 0 ∨ lon = .intv 0) :
    mkCupWaypoint countries name lat lon code country elev style rwdir rwlen rwwidth
      freq userdata desc pics = .error ("Both lat. and lon. must be specified.") := by
  have hlatlon : (!lat.truthy || !lon.truthy) = true := by
    rcases h with h | h | h | h <;> subst h <;> simp [Inp.truthy]
  unfold mkCupWaypoint
  rw [hname]
  simp only [Bool.not_true, Bool.false_eq_true, if_false]
  rw [hlatlon]
  simp

/-- Witness for C9 at concrete inputs: a waypoint named `A` on the
equator (`lat = 0.0`) cannot be constructed. -/
theorem claim_C9_witness :
    (Inp.str ("A")).truthy = true ∧
    mkCupWaypoint (fun _ => false) (.str ("A")) (.fl 0) (.fl 46)
      .none .none .none .none .none .none .none .none .none .none .none =
      .error ("Both lat. and lon. must be specified.") :=
  ⟨by decide,
   claim_C9_zero_coordinate_unconstructible (fun _ => false) (.str ("A")) (.fl 0) (.fl 46)
     .none .none .none .none .none .none .none .none .none .none .none
     (by decide) (Or.inl rfl)⟩

/-! ## Claim theorems: waypoint setters -/

/-- The state `CupWaypoint(name="Initial", lat=46, lon=13)` constructs
(compare `test_getters_setters`). -/
def sampleWaypoint : CupWaypoint :=
  { name := some ("Initial"), code := .none, country := .none
    lat := 46, lon := 13, coordinates := (13, 46)
    elev := .none, og_elev_unit := "m"
    style := .none, rwdir := .none
    rwlen := .none, og_rwlen_unit := "m"
    rwwidth := .none, og_rwwidth_unit := "m"
    freq := .none, desc := .none, userdata := .none, pics := .none }

/-- Counterexample to claim C3: `_update_coordinates` assigns
`self._lat` and `self._lon` *before* running the range checks, so a
failed `lat = 91` assignment raises but leaves the stored latitude at
`91`: the object is observably changed by the failed setter. -/
theorem claim_C3_counterexample :
    mkCupWaypoint (fun _ => false) (.str ("Initial")) (.intv 46) (.intv 13)
      .none .none .none .none .none .none .none .none .none .none .none =
      .ok sampleWaypoint ∧
    (set_lat sampleWaypoint (.intv 91)).2 =
      some ("Lattitude must be between -90 and 90 degrees") ∧
    (set_lat sampleWaypoint (.intv 91)).1.lat = 91 ∧
    (set_lat sampleWaypoint (.intv 91)).1 ≠ sampleWaypoint := by
  refine ⟨by with_unfolding_all rfl, by with_unfolding_all rfl, by with_unfolding_all rfl, ?_⟩
  intro he
  have h1 : (set_lat sampleWaypoint (.intv 91)).1.lat = 91 := by with_unfolding_all rfl
  rw [he] at h1
  have h2 : sampleWaypoint.lat = 46 := rfl
  rw [h2] at h1
  norm_num at h1

/-- Claim C3, amended: only the latitude/longitude pair is
non-atomic.  A failed numeric out-of-range `lat` (or `lon`) assignment
raises the range `ValueError` but leaves the stored coordinates already
overwritten with the rejected values, while `coordinates` and every
other field keep their prior contents; the remaining setters validate
before assigning and so leave the object unchanged on failure. -/
theorem claim_C3_amended (w : CupWaypoint) (q p : ℚ)
    (hq : ¬ (-90 ≤ q ∧ q ≤ 90))
    (hlat : -90 ≤ w.lat ∧ w.lat ≤ 90)
    (hp : ¬ (-180 ≤ p ∧ p ≤ 180)) :
    set_lat w (.fl q) =
      ({ w with lat := q }, some ("Lattitude must be between -90 and 90 degrees")) ∧
    set_lon w (.fl p) =
      ({ w with lon := p }, some ("Longitude must be between -1880 and 180 deg.")) := by
  constructor
  · unfold set_lat update_coordinates
    simp only [isCoordType, coordValue, Bool.and_self]
    have : (decide (-90 ≤ q) && decide (q ≤ 90)) = false := by
      rcases not_and_or.mp hq with h | h <;> simp [h]
    simp [this]
  · unfold set_lon update_coordinates
    simp only [isCoordType, coordValue, Bool.and_self]
    have h1 : (decide (-90 ≤ w.lat) && decide (w.lat ≤ 90)) = true := by
      simp [hlat.1, hlat.2]
    have h2 : (decide (-180 ≤ p) && decide (p ≤ 180)) = false := by
      rcases not_and_or.mp hp with h | h <;> simp [h]
    simp [h1, h2]

/-- Witness for the amended C3 at concrete inputs. -/
theorem claim_C3_witness :
    set_lat sampleWaypoint (.fl 91) =
      ({ sampleWaypoint with lat := 91 },
        some ("Lattitude must be between -90 and 90 degrees")) ∧
    set_lon sampleWaypoint (.fl 181) =
      ({ sampleWaypoint with lon := 181 },
        some ("Longitude must be between -1880 and 180 deg.")) :=
  claim_C3_amended sampleWaypoint 91 181 (by norm_num)
    (by constructor <;> norm_num [sampleWaypoint]) (by norm_num)

/-! ## Claim theorems: the Waypoints collection invariant -/

/-- Claim C10: `Waypoints.append` / `insert` / `extend` raise a
`TypeError` on any non-`CupWaypoint` item and leave the collection
unchanged (`extend` validates every item before adding any), so any
sequence of these operations preserves the all-`CupWaypoint`
invariant. -/
theorem claim_C10_waypoints_invariant (l : List PyItem) (t : String) (i : ℕ)
    (ops : List WOp) (hl : allWpts l) :
    (∃ e, applyWOp l (.app (.other t)) = .error e) ∧
    applyWOpKeep l (.app (.other t)) = l ∧
    (∃ e, applyWOp l (.ins i (.other t)) = .error e) ∧
    applyWOpKeep l (.ins i (.other t)) = l ∧
    (∀ items : List PyItem, ¬ allWpts items →
      (∃ e, applyWOp l (.ext items) = .error e) ∧ applyWOpKeep l (.ext items) = l) ∧
    allWpts (runWOps l ops) := by
  refine ⟨⟨_, rfl⟩, rfl, ⟨_, rfl⟩, rfl, ?_, ?_⟩
  · intro items hbad
    have : items.all PyItem.isWpt = false := by
      by_contra hcon
      exact hbad fun it hin => (List.all_eq_true.mp (Bool.not_eq_false _ |>.mp hcon)) it hin
    constructor
    · exact ⟨("All items must be CupWaypoint"), by simp [applyWOp, wptsExtend, this]⟩
    · simp [applyWOpKeep, applyWOp, wptsExtend, this]
  · induction ops generalizing l with
    | nil => exact hl
    | cons op rest ih =>
      refine ih (applyWOpKeep l op) ?_
      cases op with
      | app item =>
        cases item with
        | wpt w =>
          intro it hin
          simp only [applyWOpKeep, applyWOp, wptsAppend] at hin
          rcases List.mem_append.mp hin with h | h
          · exact hl it h
          · simp only [List.mem_singleton] at h; subst h; rfl
        | other tn => intro it hin; exact hl it hin
      | ins j item =>
        cases item with
        | wpt w =>
          intro it hin
          simp only [applyWOpKeep, applyWOp, wptsInsert] at hin
          rcases List.mem_append.mp hin with h | h
          · exact hl it (List.mem_of_mem_take h)
          · rcases List.mem_cons.mp h with h | h
            · subst h; rfl
            · exact hl it (List.mem_of_mem_drop h)
          | other tn => intro it hin; exact hl it hin
      | ext items =>
        by_cases hall : items.all PyItem.isWpt
        · intro it hin
          simp only [applyWOpKeep, applyWOp, wptsExtend, hall, if_true] at hin
          rcases List.mem_append.mp hin with h | h
          · exact hl it h
          · exact List.all_eq_true.mp hall it h
        · intro it hin
          have hfalse : items.all PyItem.isWpt = false := by simpa using hall
          simp only [applyWOpKeep, applyWOp, wptsExtend, hfalse, Bool.false_eq_true,
            if_false] at hin
          exact hl it hin

/-- Witness for C10 at concrete inputs: starting from a singleton
collection, a mix of successful and failing operations preserves the
invariant. -/
theorem claim_C10_witness :
    allWpts (runWOps [.wpt sampleWaypoint]
      [.app (.other ("<class int>")), .app (.wpt sampleWaypoint),
       .ins 0 (.wpt sampleWaypoint), .ext [.wpt sampleWaypoint, .other ("<class str>")]]) :=
  (claim_C10_waypoints_invariant [.wpt sampleWaypoint] ("x") 0 _
    (fun it hin => by
      simp only [List.mem_singleton] at hin
      subst hin
      rfl)).2.2.2.2.2

/-! ## Claim theorems: CUP parse deduplication (C6) -/

/-- The deduplication key actually used by `CupFile.loads`:
`line_str = ",".join(csv_fields)`, i.e. the comma-join of the *parsed*
CSV fields, not the raw line text. -/
def rowKey (l : String) : String := joinComma (csvRead l)

/-- Is this row the related-tasks separator
(`"--related tasks--" in line_str.lower()`)? -/
def markerRow (l : String) : Bool :=
  strContains (pyLower (rowKey l)) ("--related tasks--")

/-- `line and not line[0].startswith("#")`. -/
def isDataRow (l : String) : Bool :=
  !(csvRead l).isEmpty && !((csvRead l).headD "").startsWith ("#")

/-- The data rows the loop of `loads` considers: rows after the header,
before the first separator row, that are non-empty and not comments. -/
def dataRows (rows : List String) : List String :=
  (rows.takeWhile (fun l => !markerRow l)).filter isDataRow

/-- Keep the first occurrence of each key, given an initial seen
set. -/
def dedupByKeyAux (key : String → String) (seen : List String) :
    List String → List String
  | [] => []
  | x :: rest =>
    if seen.contains (key x) then dedupByKeyAux key seen rest
    else x :: dedupByKeyAux key (key x :: seen) rest

/-- The rows of a CUP file that produce waypoints. -/
def keptDataRows (content : String) : List String :=
  dedupByKeyAux rowKey [] (dataRows ((splitlines content).drop 1))

/-- The column map of a CUP file. -/
def colsOf (content : String) : CupField → Option ℕ :=
  match splitlines content with
  | [] => fun _ => .none
  | h :: _ => find_column_indices (csvRead h)

/-- A two-row file whose rows are textually distinct but identical
after CSV parsing (the second quotes the latitude field). -/
def dupQuoteFile : String :=
  "name,lat,lon\nA,4612.300N,01234.500E\nA,\"4612.300N\",01234.500E\n"

/-- Counterexample to claim C6: the dedup key is the comma-join of the
parsed CSV fields, not the raw text, so two textually distinct lines
that differ only in quoting produce a single waypoint, not two. -/
theorem claim_C6_counterexample :
    (splitlines dupQuoteFile).get? 1 ≠ (splitlines dupQuoteFile).get? 2 ∧
    (loads (fun _ => false) dupQuoteFile).map (fun cf => cf.waypoints.length) =
      .ok 1 := by
  constructor
  · with_unfolding_all decide
  · with_unfolding_all rfl

theorem loadsGo_ok (countries : String → Bool) (full : List String)
    (cols : CupField → Option ℕ) :
    ∀ (rows : List String) (n : ℕ) (seen : List String) (acc : List CupWaypoint)
      (ws : List CupWaypoint) (ts : List String),
      loadsGo countries full cols rows n seen acc = .ok (ws, ts) →
      ∃ ws2, ws = acc.reverse ++ ws2 ∧
        (dedupByKeyAux rowKey seen (dataRows rows)).mapM
          (fun l => parse_waypoint_line countries (csvRead l) cols) = .ok ws2 := by
  intro rows
  induction rows with
  | nil =>
    intro n seen acc ws ts h
    simp only [loadsGo, Except.ok.injEq, Prod.mk.injEq] at h
    refine ⟨[], by simp [← h.1], ?_⟩
    show List.mapM _ [] = _
    rfl
  | cons line rest ih =>
    intro n seen acc ws ts h
    simp only [loadsGo] at h
    by_cases hmark : strContains (pyLower (joinComma (csvRead line))) ("--related tasks--")
    · rw [if_pos hmark] at h
      simp only [Except.ok.injEq, Prod.mk.injEq] at h
      refine ⟨[], by simp [← h.1], ?_⟩
      have hm : markerRow line = true := hmark
      have : dataRows (line :: rest) = [] := by
        simp [dataRows, List.takeWhile, hm]
      rw [this]
      show List.mapM _ [] = _
      rfl
    · rw [if_neg hmark] at h
      have hdr : dataRows (line :: rest) =
          if isDataRow line then line :: dataRows rest else dataRows rest := by
        have hm : markerRow line = false := by
          simpa [markerRow, rowKey] using hmark
        simp [dataRows, List.takeWhile_cons, hm, List.filter_cons]
      by_cases hemp : (csvRead line).isEmpty
      · rw [if_pos hemp] at h
        have hd : isDataRow line = false := by
          simp only [isDataRow, hemp, Bool.not_true, Bool.false_and]
        rw [hdr, hd, if_neg (by simp)]
        exact ih n.succ seen acc ws ts h
      · rw [if_neg hemp] at h
        by_cases hhash : ((csvRead line).headD "").startsWith ("#")
        · rw [if_pos hhash] at h
          have hd : isDataRow line = false := by
            simp only [isDataRow, hhash, Bool.not_true, Bool.and_false]
          rw [hdr, hd, if_neg (by simp)]
          exact ih n.succ seen acc ws ts h
        · rw [if_neg hhash] at h
          have hd : isDataRow line = true := by
            simp only [isDataRow, Bool.and_eq_true, Bool.not_eq_true]
            exact ⟨by simpa using hemp, by simpa using hhash⟩
          rw [hdr, hd, if_pos rfl]
          by_cases hseen : seen.contains (joinComma (csvRead line))
          · rw [if_pos hseen] at h
            have hk : seen.contains (rowKey line) = true := hseen
            have hded : dedupByKeyAux rowKey seen (line :: dataRows rest) =
                dedupByKeyAux rowKey seen (dataRows rest) := by
              rw [dedupByKeyAux, if_pos hk]
            rw [hded]
            exact ih n.succ seen acc ws ts h
          · rw [if_neg hseen] at h
            have hkey : ¬ seen.contains (rowKey line) = true := hseen
            cases hp : parse_waypoint_line countries (csvRead line) cols with
            | error e => rw [hp] at h; simp [Bind.bind, Except.bind] at h
            | ok w =>
              rw [hp] at h
              simp only [Bind.bind, Except.bind] at h
              obtain ⟨ws2, hws, hmap⟩ :=
                ih n.succ (joinComma (csvRead line) :: seen) (w :: acc) ws ts h
              refine ⟨w :: ws2, ?_, ?_⟩
              · simpa using hws
              · have hded : dedupByKeyAux rowKey seen (line :: dataRows rest) =
                    line :: dedupByKeyAux rowKey (rowKey line :: seen) (dataRows rest) := by
                  rw [dedupByKeyAux, if_neg hkey]
                rw [hded, List.mapM_cons, hp]
                have hseen2 : rowKey line :: seen = joinComma (csvRead line) :: seen := rfl
                rw [hseen2, hmap]
                rfl

/-- Claim C6, amended: during CUP parsing a data line is skipped
exactly when the comma-join of its parsed CSV fields equals that of an
already-seen line (deduplication is quoting-insensitive, applied to
`",".join(csv_fields)`, not to the raw text): the waypoints of a
successfully parsed file are exactly the parses of the
first-occurrence-per-key data rows, in order. -/
theorem claim_C6_amended (countries : String → Bool) (content : String)
    (cf : CupFile) (h : loads countries content = .ok cf) :
    (keptDataRows content).mapM
      (fun l => parse_waypoint_line countries (csvRead l) (colsOf content)) =
      .ok cf.waypoints := by
  unfold loads at h
  cases hsp : splitlines content with
  | nil =>
    rw [hsp] at h
    simp only [loadsLines, Except.ok.injEq] at h
    have hk : keptDataRows content = [] := by
      simp [keptDataRows, hsp, dataRows, dedupByKeyAux]
    rw [hk, ← h]
    rfl
  | cons headerLine rest =>
    rw [hsp] at h
    simp only [loadsLines] at h
    cases hgo : loadsGo countries (headerLine :: rest)
        (find_column_indices (csvRead headerLine)) rest 0 [] [] with
    | error e => rw [hgo] at h; simp [Except.map] at h
    | ok r =>
      rw [hgo] at h
      simp only [Except.map, Except.ok.injEq] at h
      obtain ⟨ws2, hws, hmap⟩ := loadsGo_ok countries (headerLine :: rest)
        (find_column_indices (csvRead headerLine)) rest 0 [] [] r.1 r.2 (by rw [hgo])
      have hcf : cf.waypoints = r.1 := by rw [← h]
      have hcols : colsOf content = find_column_indices (csvRead headerLine) := by
        simp [colsOf, hsp]
      have hkept : keptDataRows content = dedupByKeyAux rowKey [] (dataRows rest) := by
        simp [keptDataRows, hsp]
      rw [hcf, hws, hcols, hkept]
      simpa using hmap

/-- The single waypoint `dupQuoteFile` parses to:
`A, 4612.300N (46.205°), 01234.500E (12.575°)`. -/
def dupQuoteParsed : CupWaypoint :=
  { name := some ("A"), code := .none, country := .none
    lat := 9241/200, lon := 503/40, coordinates := (503/40, 9241/200)
    elev := .none, og_elev_unit := "m"
    style := .none, rwdir := .none
    rwlen := .none, og_rwlen_unit := "m"
    rwwidth := .none, og_rwwidth_unit := "m"
    freq := .none, desc := .none, userdata := .none, pics := .none }

/-- Witness for the amended C6: on `dupQuoteFile` the kept rows are
exactly the first data row, and its parse is the file's single
waypoint. -/
theorem claim_C6_witness :
    (keptDataRows dupQuoteFile).mapM
      (fun l => parse_waypoint_line (fun _ => false) (csvRead l) (colsOf dupQuoteFile)) =
      .ok (CupFile.mk [dupQuoteParsed] []).waypoints :=
  claim_C6_amended (fun _ => false) dupQuoteFile ⟨[dupQuoteParsed], []⟩
    (by with_unfolding_all rfl)

/-! ## OpenAir to GeoJSON (`aero_data/utils/units.py`) -/

/-- Python `float(s)` on the plain decimal strings in scope (optional
sign, digits with optional fraction or leading dot, optional exponent;
`inf`/`nan` spellings are out of scope).  The whole string must be
consumed. -/
def pyFloat (s : String) : Option ℚ :=
  let cs := (pyLower ⟨stripBoth pyIsSpace s.data⟩).data
  match parseDecNumber cs with
  | some (v, []) => some v
  | _ => .none

/-- A nonempty digit run (`\d+`). -/
def takeDigits1 (cs : List Char) : Option (ℕ × List Char) :=
  let run := cs.takeWhile Char.isDigit
  if run.isEmpty then .none else some (digitsToNat run, cs.dropWhile Char.isDigit)

/-- A nonempty digit-or-dot run (`[\d\.]+`). -/
def takeDigitDots (cs : List Char) : Option (List Char × List Char) :=
  let p : Char → Bool := fun c => c.isDigit || c == '.'
  let run := cs.takeWhile p
  if run.isEmpty then .none else some (run, cs.dropWhile p)

/-- The `([NS])?\s*([NS])?\s+` gap between the two coordinate halves of
the pattern in `units.parse_openair_latlon`, after the optional first
hemisphere letter has been consumed: collapse the regex backtracking
into the equivalent direct rule (a second letter counts only when
whitespace follows it; otherwise at least one whitespace character must
separate the halves). -/
def nsGap (dirs : List Char) (cs : List Char) : Option (Option Char × List Char) :=
  let w := cs.takeWhile pyIsSpace
  let afterW := cs.dropWhile pyIsSpace
  match afterW with
  | c :: r2 =>
    if dirs.contains c then
      let w2 := r2.takeWhile pyIsSpace
      if !w2.isEmpty then some (some c, r2.dropWhile pyIsSpace)
      else if !w.isEmpty then some (.none, afterW)
      else .none
    else if !w.isEmpty then some (.none, afterW)
    else .none
  | [] => .none

/-- One `(\d+):(\d+):([\d\.]+)` DMS triple. -/
def dmsTriple (cs : List Char) : Option (ℕ × ℕ × List Char × List Char) :=
  match takeDigits1 cs with
  | .none => .none
  | some (d, r1) =>
    match r1 with
    | ':' :: r2 =>
      match takeDigits1 r2 with
      | .none => .none
      | some (m, r3) =>
        match r3 with
        | ':' :: r4 =>
          match takeDigitDots r4 with
          | .none => .none
          | some (sec, r5) => some (d, m, sec, r5)
        | _ => .none
    | _ => .none

/-- The full match of `units.parse_openair_latlon`:
`(\d+):(\d+):([\d\.]+)([NS])?\s*([NS])?\s+(\d+):(\d+):([\d\.]+)([EW])?\s*([EW])?`,
anchored at the start (trailing input is ignored, as with
`re.match`). -/
def oaLatLonMatch (cs : List Char) :
    Option ((ℕ × ℕ × List Char × Option Char) × (ℕ × ℕ × List Char × Option Char)) :=
  match dmsTriple cs with
  | .none => .none
  | some (d1, m1, s1, r1) =>
    let (h1a, r2) : Option Char × List Char :=
      match r1 with
      | c :: r => if c = 'N' ∨ c = 'S' then (some c, r) else (.none, r1)
      | [] => (.none, r1)
    match nsGap ['N', 'S'] r2 with
    | .none => .none
    | some (h1b, r3) =>
      match dmsTriple r3 with
      | .none => .none
      | some (d2, m2, s2, r4) =>
        let (h2a, r5) : Option Char × List Char :=
          match r4 with
          | c :: r => if c = 'E' ∨ c = 'W' then (some c, r) else (.none, r4)
          | [] => (.none, r4)
        let h2b : Option Char :=
          match r5.dropWhile pyIsSpace with
          | c :: _ => if c = 'E' ∨ c = 'W' then some c else .none
          | [] => .none
        some ((d1, m1, s1, (h1a.orElse fun _ => h1b)),
              (d2, m2, s2, (h2a.orElse fun _ => h2b)))

/-- `units.parse_openair_latlon`: commas become spaces before matching;
`float` on the seconds group can still raise; `S`/`W` negate. -/
def parse_openair_latlon (latlon : String) : Except String (ℚ × ℚ) :=
  let cs := latlon.data.map fun c => if c == ',' then ' ' else c
  match oaLatLonMatch cs with
  | .none => .error ("Invalid coordinate: " ++ latlon)
  | some ((d1, m1, s1, h1), (d2, m2, s2, h2)) =>
    match pyFloat ⟨s1⟩, pyFloat ⟨s2⟩ with
    | some sv1, some sv2 =>
      let lat := dms_to_dd (d1 : ℚ) (m1 : ℚ) sv1
      let lon := dms_to_dd (d2 : ℚ) (m2 : ℚ) sv2
      let lat2 := if h1 = some 'S' then -lat else lat
      let lon2 := if h2 = some 'W' then -lon else lon
      .ok (lat2, lon2)
    | _, _ => .error ("could not convert string to float")

/-- The trigonometric environment: `math.cos`, `math.sin` and `math.pi`
are IEEE floats in the source; the embedding abstracts them as rational
functions, which the ring-closure property does not depend on. -/
structure TrigEnv where
  cosF : ℚ → ℚ
  sinF : ℚ → ℚ
  piQ : ℚ

/-- `units.interpolate_circle`: `n_points + 1` samples (the extra one
at angle `2π` intended to close the ring), equirectangular
approximation. -/
def interpolate_circle (env : TrigEnv) (center : ℚ × ℚ) (radius_nm : ℚ)
    (n_points : ℕ) : List (ℚ × ℚ) :=
  let lat0 := center.1 * env.piQ / 180
  let lon0 := center.2 * env.piQ / 180
  let radius_deg := radius_nm / 60
  (List.range (n_points + 1)).map fun (i : ℕ) =>
    let angle := 2 * env.piQ * (i : ℚ) / (n_points : ℚ)
    let d_lat := radius_deg * env.cosF angle
    let d_lon := radius_deg * env.sinF angle / env.cosF lat0
    let lat := (lat0 + d_lat * env.piQ / 180) * 180 / env.piQ
    let lon := (lon0 + d_lon * env.piQ / 180) * 180 / env.piQ
    (lon, lat)

/-- The free-text properties of one airspace feature. -/
structure AspProps where
  cls : Option String := .none
  aname : Option String := .none
  atype : Option String := .none
  frequency : Option String := .none
  station : Option String := .none
  lower_limit : Option String := .none
  upper_limit : Option String := .none
  activation_times : Option (List String) := .none
  deriving DecidableEq, Repr

/-- The geometry recorded on a saved airspace dict: a `geometry` vertex
list, a `circle` pair, or neither (the initial empty `geometry` when a
circle center was seen without a radius). -/
inductive AspGeom
  | poly (coords : List (ℚ × ℚ))
  | circle (center : ℚ × ℚ) (radius_nm : ℚ)
  | nogeom
  deriving DecidableEq, Repr

structure Airspace where
  props : AspProps
  geom : AspGeom
  deriving DecidableEq, Repr

/-- The mutable loop state of `units.parse_openair`.  `current = none`
models the initial empty dict `{}` (falsy, and raising `KeyError` on
property lines). -/
structure OAState where
  airspaces : List Airspace
  current : Option AspProps
  coords : List (ℚ × ℚ)
  aa_times : List String
  circle_center : Option (ℚ × ℚ)
  circle_radius_nm : Option ℚ

def oaInit : OAState :=
  { airspaces := [], current := .none, coords := [], aa_times := []
    circle_center := .none, circle_radius_nm := .none }

/-- The save-previous block run on an `AC` line and at end of input.
Note the resets happen *inside* the guard in the source, so an
unsaveable current (no geometry) leaves coords and times to leak into
the next airspace. -/
def oaSave (st : OAState) : OAState :=
  match st.current with
  | .none => st
  | some props =>
    if !st.coords.isEmpty || st.circle_center.isSome then
      let props2 :=
        if !st.aa_times.isEmpty then { props with activation_times := some st.aa_times }
        else props
      let geom : AspGeom :=
        if !st.coords.isEmpty then .poly st.coords
        else
          match st.circle_center, st.circle_radius_nm with
          | some c, some r => .circle c r
          | _, _ => .nogeom
      { st with airspaces := st.airspaces ++ [⟨props2, geom⟩],
                coords := [], aa_times := [],
                circle_center := .none, circle_radius_nm := .none }
    else st

/-- `line[k:].strip()`. -/
def dropStrip (l : String) (k : ℕ) : String :=
  pyStrip ⟨l.data.drop k⟩

/-- Set a property on the current dict
(`current["properties"][key] = value`); raises `KeyError` on the
initial empty dict. -/
def oaSetProp (st : OAState) (f : AspProps → AspProps) : Except String OAState :=
  match st.current with
  | .none => .error ("KeyError: properties")
  | some p => .ok { st with current := some (f p) }

/-- One iteration of the line loop of `units.parse_openair`
(if/elif chain in source order). -/
def processOALine (st : OAState) (raw : String) : Except String OAState :=
  let line := pyStrip raw
  if line = "" || line.startsWith ("*") then .ok st
  else if line.startsWith ("AC") then
    let st2 := oaSave st
    .ok { st2 with current := some { cls := some (dropStrip line 3) } }
  else if line.startsWith ("AN") then
    oaSetProp st fun p => { p with aname := some (dropStrip line 3) }
  else if line.startsWith ("AY") then
    oaSetProp st fun p => { p with atype := some (dropStrip line 3) }
  else if line.startsWith ("AF") then
    oaSetProp st fun p => { p with frequency := some (dropStrip line 3) }
  else if line.startsWith ("AG") then
    oaSetProp st fun p => { p with station := some (dropStrip line 3) }
  else if line.startsWith ("AL") then
    oaSetProp st fun p => { p with lower_limit := some (dropStrip line 3) }
  else if line.startsWith ("AH") then
    oaSetProp st fun p => { p with upper_limit := some (dropStrip line 3) }
  else if line.startsWith ("AA") then
    .ok { st with aa_times := st.aa_times ++ [dropStrip line 3] }
  else if line.startsWith ("V X=") then do
    let c ← parse_openair_latlon (dropStrip line 5)
    .ok { st with circle_center := some c }
  else if line.startsWith ("DP") then do
    let ll ← parse_openair_latlon (dropStrip line 3)
    .ok { st with coords := st.coords ++ [(ll.2, ll.1)] }
  else if line.startsWith ("DC") then
    match pyFloat (dropStrip line 3) with
    | some r =>
      if st.circle_center.isSome then .ok { st with circle_radius_nm := some r }
      else .ok st
    | .none => .ok st
  else .ok st

/-- `units.parse_openair`. -/
def parse_openair (input_str : String) : Except String (List Airspace) := do
  let st ← (splitlines input_str).foldlM processOALine oaInit
  pure (oaSave st).airspaces

/-- One emitted GeoJSON feature: its properties and the single exterior
polygon ring (the JSON rendering itself is not modelled). -/
structure GeoFeature where
  properties : AspProps
  ring : List (ℚ × ℚ)
  deriving DecidableEq, Repr

/-- `if coords and coords[0] != coords[-1]: coords = coords + [coords[0]]`. -/
def closeRing (coords : List (ℚ × ℚ)) : List (ℚ × ℚ) :=
  match coords.head?, coords.getLast? with
  | some h, some t => if h ≠ t then coords ++ [h] else coords
  | _, _ => coords

/-- The feature built from one airspace by `units.openair_to_geojson`,
if any. -/
def aspFeature (env : TrigEnv) (asp : Airspace) : Option GeoFeature :=
  match asp.geom with
  | .poly coords =>
    if !coords.isEmpty then some ⟨asp.props, closeRing coords⟩ else .none
  | .circle c r => some ⟨asp.props, closeRing (interpolate_circle env c r 64)⟩
  | .nogeom => .none

/-- `units.openair_to_geojson`: parse, then emit one closed polygon
feature per airspace with geometry. -/
def openair_to_geojson (env : TrigEnv) (openair_text : String) :
    Except String (List GeoFeature) := do
  let asps ← parse_openair openair_text
  pure (asps.foldl (fun acc asp =>
    match aspFeature env asp with
    | some f => acc ++ [f]
    | .none => acc) [])

/-! ## Claim theorems: polygon ring closure (C7) -/

theorem closeRing_spec (x : ℚ × ℚ) (xs : List (ℚ × ℚ)) :
    closeRing (x :: xs) ≠ [] ∧
    (closeRing (x :: xs)).head? = (closeRing (x :: xs)).getLast? := by
  unfold closeRing
  cases hgl : (x :: xs).getLast? with
  | none => simp at hgl
  | some t =>
    simp only [List.head?_cons]
    by_cases hxt : x = t
    · rw [if_neg (by simp [hxt])]
      refine ⟨by simp, ?_⟩
      rw [List.head?_cons, hgl, hxt]
    · rw [if_pos (by simpa using hxt)]
      refine ⟨by simp, ?_⟩
      have hcat : (x :: xs) ++ [x] = x :: (xs ++ [x]) := rfl
      rw [hcat, List.head?_cons, ← hcat, List.getLast?_concat]

theorem interpolate_circle_length (env : TrigEnv) (c : ℚ × ℚ) (r : ℚ) (n : ℕ) :
    (interpolate_circle env c r n).length = n + 1 := by
  unfold interpolate_circle
  rw [List.length_map, List.length_range]

theorem aspFeature_ring_closed (env : TrigEnv) (asp : Airspace) (f : GeoFeature)
    (h : aspFeature env asp = some f) :
    f.ring ≠ [] ∧ f.ring.head? = f.ring.getLast? := by
  unfold aspFeature at h
  split at h
  · rename_i coords heq
    split at h
    · rename_i hne
      simp only [Option.some.injEq] at h
      cases coords with
      | nil => simp at hne
      | cons x xs =>
        rw [← h]
        exact closeRing_spec x xs
    · exact absurd h (by simp)
  · rename_i c r heq
    simp only [Option.some.injEq] at h
    have hlen : (interpolate_circle env c r 64).length = 65 :=
      interpolate_circle_length env c r 64
    cases hic : interpolate_circle env c r 64 with
    | nil => rw [hic] at hlen; simp at hlen
    | cons x xs =>
      rw [hic] at h
      rw [← h]
      exact closeRing_spec x xs
  · exact absurd h (by simp)

theorem featFold_mem (env : TrigEnv) (asps : List Airspace) (acc : List GeoFeature) :
    ∀ f ∈ asps.foldl (fun acc asp =>
        match aspFeature env asp with
        | some g => acc ++ [g]
        | .none => acc) acc,
      f ∈ acc ∨ ∃ asp, aspFeature env asp = some f := by
  induction asps generalizing acc with
  | nil => intro f hf; exact Or.inl hf
  | cons asp rest ih =>
    intro f hf
    simp only [List.foldl_cons] at hf
    cases hfe : aspFeature env asp with
    | none =>
      rw [hfe] at hf
      exact ih acc f hf
    | some g =>
      rw [hfe] at hf
      rcases ih (acc ++ [g]) f hf with hin | hex
      · rcases List.mem_append.mp hin with hin | hin
        · exact Or.inl hin
        · simp only [List.mem_singleton] at hin
          subst hin
          exact Or.inr ⟨asp, hfe⟩
      · exact Or.inr hex

/-- Claim C7: every polygon feature emitted by the OpenAir-to-GeoJSON
converter — whether from an explicit `DP` vertex list or rasterized
from a `DC` circle with 64 sample points — has a ring whose first
coordinate equals its last coordinate (and the ring is nonempty). -/
theorem claim_C7_ring_closure (env : TrigEnv) (text : String) (fs : List GeoFeature)
    (h : openair_to_geojson env text = .ok fs) :
    ∀ f ∈ fs, f.ring ≠ [] ∧ f.ring.head? = f.ring.getLast? := by
  intro f hf
  unfold openair_to_geojson at h
  cases hp : parse_openair text with
  | error e => rw [hp] at h; simp [Bind.bind, Except.bind] at h
  | ok asps =>
    rw [hp] at h
    simp only [Bind.bind, Except.bind, pure, Except.pure, Except.ok.injEq] at h
    rw [← h] at hf
    rcases featFold_mem env asps [] f hf with hin | ⟨asp, hasp⟩
    · simp at hin
    · exact aspFeature_ring_closed env asp f hasp

/-- The single feature the C7 witness file converts to: a class-D
polygon through 46°19′13″N 14°22′12″E and 46°20′N 14°23′E, closed back
onto its first vertex. -/
def c7Feat : GeoFeature :=
  { properties := { cls := some ("D") }
    ring := [(1437/100, 166753/3600), (863/60, 139/3), (1437/100, 166753/3600)] }

set_option maxHeartbeats 2000000 in
/-- Witness for C7 at concrete inputs: a polygon file, with a concrete
(rational) stand-in for the trig environment; the emitted feature has a
nonempty ring whose first and last coordinates agree. -/
theorem claim_C7_witness :
    openair_to_geojson ⟨fun _ => 1/2, fun _ => 1/3, 31416/10000⟩
      ("AC D\nDP 46:19:13 N 014:22:12 E\nDP 46:20:00 N 014:23:00 E\n") = .ok [c7Feat] ∧
    (c7Feat.ring ≠ [] ∧ c7Feat.ring.head? = c7Feat.ring.getLast?) :=
  ⟨by with_unfolding_all rfl,
   claim_C7_ring_closure ⟨fun _ => 1/2, fun _ => 1/3, 31416/10000⟩
     ("AC D\nDP 46:19:13 N 014:22:12 E\nDP 46:20:00 N 014:23:00 E\n") [c7Feat]
     (by with_unfolding_all rfl) c7Feat (List.mem_singleton.mpr rfl)⟩

/-! ## The airport directory model
(`aero_data/models.py`, `aero_data/src/db.py`,
`aero_data/utils/openaip/constants.py`) -/

/-- `AirportType` (OpenAIP numeric airport classification). -/
inductive AirportType
  | AIRPORT | GLIDER_SITE | AIRPORT_CIVIL | AIRPORT_INTL | HELIPORT_MIL
  | AERODROME_MIL | UL_SITE | HELIPORT_CIVIL | CLOSED | AIRPORT_IFR
  | AIRPORT_WATER | LANDING_STRIP | LANDING_STRIP_AGRIC | ALTIPORT | UNKNOWN
  deriving DecidableEq, Repr

/-- `AirportType(value)`: raises `ValueError` on a number outside the
enumeration. -/
def airportTypeOfInt (z : ℤ) : Except String AirportType :=
  if z = 0 then .ok .AIRPORT else if z = 1 then .ok .GLIDER_SITE
  else if z = 2 then .ok .AIRPORT_CIVIL else if z = 3 then .ok .AIRPORT_INTL
  else if z = 4 then .ok .HELIPORT_MIL else if z = 5 then .ok .AERODROME_MIL
  else if z = 6 then .ok .UL_SITE else if z = 7 then .ok .HELIPORT_CIVIL
  else if z = 8 then .ok .CLOSED else if z = 9 then .ok .AIRPORT_IFR
  else if z = 10 then .ok .AIRPORT_WATER else if z = 11 then .ok .LANDING_STRIP
  else if z = 12 then .ok .LANDING_STRIP_AGRIC else if z = 13 then .ok .ALTIPORT
  else if z = 999 then .ok .UNKNOWN
  else .error ("ValueError: not a valid AirportType")

/-- The airport fields of a directory response record (the JSON dict
shape `Airport._deserialize` consumes; the WKB `location` is already
decoded to a lon/lat point, timestamps are not modelled). -/
structure AptJson where
  name : String
  code : Option String
  country : String
  lon : ℚ
  lat : ℚ
  elev : ℤ
  style : ℤ
  apt_type : ℤ
  rw_dir : Option ℤ
  rw_len : Option ℤ
  rw_width : Option ℤ
  freq : Option String
  source_id : String
  deriving DecidableEq, Repr

/-- `models.Airport` after deserialization. -/
structure Airport where
  name : String
  code : Option String
  country : String
  lon : ℚ
  lat : ℚ
  elev : ℤ
  style : ℤ
  apt_type : AirportType
  rw_dir : Option ℤ
  rw_len : Option ℤ
  rw_width : Option ℤ
  freq : Option String
  source_id : String
  deriving DecidableEq, Repr

/-- `Airport.deserialize_apt_json` (via `_deserialize`): the airport
type must be a member of the enumeration and the country code must
resolve in the countries table (`get_by_iso2` raises otherwise). -/
def deserialize_apt (countries : String → Bool) (j : AptJson) : Except String Airport := do
  let t ← airportTypeOfInt j.apt_type
  if countries (pyUpper j.country) then
    pure { name := j.name, code := j.code, country := j.country
           lon := j.lon, lat := j.lat, elev := j.elev, style := j.style
           apt_type := t, rw_dir := j.rw_dir, rw_len := j.rw_len
           rw_width := j.rw_width, freq := j.freq, source_id := j.source_id }
  else .error ("Country with ISO2 " ++ j.country ++ " not found")

/-- `Airport.to_cup`: constructs a fresh `CupWaypoint` through the
validating constructor (`lat = location.y`, `lon = location.x`). -/
def Airport.to_cup (countries : String → Bool) (a : Airport) : Except String CupWaypoint :=
  mkCupWaypoint countries (.str a.name) (.fl a.lat) (.fl a.lon)
    (optInp a.code) (.str a.country) (.intv a.elev) (.intv a.style)
    (match a.rw_dir with | some z => .intv z | .none => .none)
    (match a.rw_len with | some z => .intv z | .none => .none)
    (match a.rw_width with | some z => .intv z | .none => .none)
    (optInp a.freq) .none .none .none

/-- An `update_airports_in_cup.AirportDistance`: a directory airport
annotated with the distance from the queried point. -/
structure AirportDistance where
  airport : Airport
  distance : Option ℚ
  deriving DecidableEq, Repr

/-- One entry of the `get_nearby_airports_bulk` response
(`point_index` is 1-based; `id` is null when the query point had no
match inside the search radius). -/
structure BulkEntry where
  point_index : ℕ
  id : Option ℤ
  distance : Option ℚ
  apt : AptJson
  deriving DecidableEq, Repr

/-- One record of the bulk response turned into its dict entry:
deserialized (with its `distance` annotation) when `id` is non-null,
`None` otherwise. -/
def annotateRecord (countries : String → Bool) (record : BulkEntry) :
    Except String (ℕ × Option AirportDistance) :=
  match record.id with
  | some _ => do
    let a ← deserialize_apt countries record.apt
    pure (record.point_index, some ⟨a, record.distance⟩)
  | .none => pure (record.point_index, .none)

/-- `update_airports_in_cup.parse_annotated_airports`: deserialize the
records with a non-null `id`; keep the response order (a duplicated
`point_index` overwrites, i.e. the last record wins on lookup). -/
def parse_annotated_airports (countries : String → Bool) (results : List BulkEntry) :
    Except String (List (ℕ × Option AirportDistance)) :=
  results.mapM (annotateRecord countries)

/-- `dict(...).get(i)` over the entries, last duplicate winning. -/
def bulkGet (entries : List (ℕ × Option AirportDistance)) (i : ℕ) :
    Option AirportDistance :=
  match (entries.filter fun e => e.1 = i).getLast? with
  | some e => e.2
  | .none => .none

/-- The remote directory (the two §6 query operations, consumed as
blocking calls; an empty `nearest_bulk` result models the RPC
returning no rows, which the caller turns into `None`). -/
structure Directory where
  nearest_bulk : List (ℚ × ℚ) → ℚ → List BulkEntry
  apts_in_bbox : ℚ × ℚ × ℚ × ℚ → List String → List AirportType → List AptJson

/-! ## The reconciliation engine
(`aero_data/src/update_airports_in_cup.py`) -/

/-- One step of `update_cup_waypoint`: copy `attr` from `w2` onto `w1`
through the property setter, but only when the source value is truthy
(`if new_value:`).  Only the eight attributes of the `fields` tuples
occur; the stored values feed the setters exactly as Python passes
them (`lat`/`lon` as floats through `_update_coordinates`, distances
as meters through the numeric branch of `_set_distance_attr` — with
the original unit reset to `"m"` —, `style`/`rwdir` as ints, `freq` as
a string). -/
def updateAttr (w2 : CupWaypoint) (w1 : CupWaypoint) (f : CupField) :
    Except String CupWaypoint :=
  match f with
  | .lat =>
    if w2.lat ≠ 0 then
      match update_coordinates w1 (.fl w2.lat) (.fl w1.lon) with
      | (_, some e) => .error e
      | (w, .none) => .ok w
    else .ok w1
  | .lon =>
    if w2.lon ≠ 0 then
      match update_coordinates w1 (.fl w1.lat) (.fl w2.lon) with
      | (_, some e) => .error e
      | (w, .none) => .ok w
    else .ok w1
  | .elev =>
    match w2.elev with
    | some v =>
      if v ≠ .fin 0 then .ok { w1 with elev := some v, og_elev_unit := "m" }
      else .ok w1
    | .none => .ok w1
  | .style =>
    match w2.style with
    | some z =>
      if z ≠ 0 then
        if is_valid_style_int z then .ok { w1 with style := some z }
        else .error ("Value is invalid for style attribute")
      else .ok w1
    | .none => .ok w1
  | .rwdir =>
    match w2.rwdir with
    | some z => if z ≠ 0 then .ok { w1 with rwdir := some z } else .ok w1
    | .none => .ok w1
  | .rwlen =>
    match w2.rwlen with
    | some v =>
      if v ≠ .fin 0 then .ok { w1 with rwlen := some v, og_rwlen_unit := "m" }
      else .ok w1
    | .none => .ok w1
  | .rwwidth =>
    match w2.rwwidth with
    | some v =>
      if v ≠ .fin 0 then .ok { w1 with rwwidth := some v, og_rwwidth_unit := "m" }
      else .ok w1
    | .none => .ok w1
  | .freq =>
    match w2.freq with
    | some s =>
      if s ≠ "" then
        if is_valid_cup_freq s then .ok { w1 with freq := some (pyStrip s) }
        else .error ("Value is invalid for freq attribute")
      else .ok w1
    | .none => .ok w1
  | _ => .ok w1

/-- `update_cup_waypoint(waypoint1, waypoint2, attrs)`. -/
def update_cup_waypoint (w1 w2 : CupWaypoint) (attrs : List CupField) :
    Except String CupWaypoint :=
  attrs.foldlM (updateAttr w2) w1

/-- The outcome the classification step assigns to one airport
waypoint.  `closedSkipped` is the branch combination the source leaves
unrecorded: matched within the update radius, flagged closed, with the
remove-closed flag unset. -/
inductive Outcome
  | updated | deleted | notFound | notUpdated | closedSkipped
  deriving DecidableEq, Repr

/-- The outcome as a function of the matched record (mirrors the
branch structure of step 3 in `update_airports_in_cup`). -/
def classify (delete_closed : Bool) (update_r : ℚ) :
    Option AirportDistance → Outcome
  | .none => .notFound
  | some ⟨_, .none⟩ => .notFound
  | some ⟨arpt, some dist⟩ =>
    if dist ≤ update_r then
      if arpt.apt_type ≠ .CLOSED then .updated
      else if delete_closed then .deleted
      else .closedSkipped
    else .notUpdated

/-- The mutable state of one reconciliation run: the collection as an
association list from original position (a stand-in for Python object
identity) to current value, the cross-run `seen_ids`, and the
`data_report` lists. -/
structure RecState where
  coll : List (ℕ × CupWaypoint)
  nextIdx : ℕ
  seen_ids : List String
  updated : List (CupWaypoint × CupWaypoint × ℚ)
  added : List CupWaypoint
  deleted : List (CupWaypoint × CupWaypoint × ℚ)
  not_updated : List (CupWaypoint × CupWaypoint × ℚ)
  not_found : List CupWaypoint

/-- Replace the element at original position `idx`. -/
def collSet (coll : List (ℕ × CupWaypoint)) (idx : ℕ) (w : CupWaypoint) :
    List (ℕ × CupWaypoint) :=
  coll.map fun p => if p.1 = idx then (idx, w) else p

/-- `cup_file.waypoints.remove(...)` by identity. -/
def collRemove (coll : List (ℕ × CupWaypoint)) (idx : ℕ) : List (ℕ × CupWaypoint) :=
  coll.filter fun p => p.1 ≠ idx

/-- Step 3 of the algorithm for a single airport waypoint with its
matched record. -/
def processApt (countries : String → Bool) (delete_closed : Bool)
    (fields : List CupField) (update_r : ℚ) (st : RecState) :
    (ℕ × CupWaypoint) × Option AirportDistance → Except String RecState
  | ((_, apt), .none) => .ok { st with not_found := st.not_found ++ [apt] }
  | ((_, apt), some ⟨_, .none⟩) => .ok { st with not_found := st.not_found ++ [apt] }
  | ((idx, apt), some ⟨arpt, some dist⟩) =>
    if dist ≤ update_r then
      let st1 := { st with seen_ids := st.seen_ids ++ [arpt.source_id] }
      if arpt.apt_type ≠ .CLOSED then do
        let cw ← Airport.to_cup countries arpt
        let w2 ← update_cup_waypoint apt cw fields
        .ok { st1 with coll := collSet st1.coll idx w2,
                       updated := st1.updated ++ [(apt, w2, dist)] }
      else if delete_closed then do
        let cw ← Airport.to_cup countries arpt
        .ok { st1 with coll := collRemove st1.coll idx,
                       deleted := st1.deleted ++ [(apt, cw, dist)] }
      else .ok st1
    else do
      let cw ← Airport.to_cup countries arpt
      .ok { st with not_updated := st.not_updated ++ [(apt, cw, dist)] }

/-- `MultiPoint(point_chunk).bounds`: `(min x, min y, max x, max y)`. -/
def bboxOf (pts : List (ℚ × ℚ)) : ℚ × ℚ × ℚ × ℚ :=
  match pts with
  | [] => (0, 0, 0, 0)
  | p :: rest =>
    rest.foldl (fun b q =>
      (min b.1 q.1, min b.2.1 q.2, max b.2.2.1 q.1, max b.2.2.2 q.2))
      (p.1, p.2, p.1, p.2)

/-- The airport types excluded from the append-new bounding-box
query. -/
def excludedAptTypes : List AirportType :=
  [.AIRPORT_WATER, .CLOSED, .HELIPORT_CIVIL, .HELIPORT_MIL, .UNKNOWN]

/-- The append-new step run after one batch (step 4): deserialize each
returned airport, append its `to_cup` to the collection, remember its
id, and record a second `to_cup` in the report. -/
def addNewApts (countries : String → Bool) (st : RecState) (new_apts : List AptJson) :
    Except String RecState :=
  new_apts.foldlM
    (fun s aj => do
      let aobj ← deserialize_apt countries aj
      let cw ← Airport.to_cup countries aobj
      let cw2 ← Airport.to_cup countries aobj
      .ok { s with coll := s.coll ++ [(s.nextIdx, cw)],
                   nextIdx := s.nextIdx + 1,
                   seen_ids := s.seen_ids ++ [aobj.source_id],
                   added := s.added ++ [cw2] })
    st

/-- One batch: the bulk nearest-neighbour query, the per-waypoint
classification, and optionally the append-new step. -/
def processChunk (countries : String → Bool) (dir : Directory)
    (delete_closed add_new : Bool) (fields : List CupField)
    (search_r update_r : ℚ) (st : RecState) (chunk : List (ℕ × CupWaypoint)) :
    Except String RecState := do
  let point_chunk := chunk.map fun p => (p.2.lon, p.2.lat)
  let result := dir.nearest_bulk point_chunk search_r
  if result.isEmpty then
    -- `get_nearest_airport_bulk` returns `None` for an empty response
    -- and `parse_annotated_airports` then crashes iterating it.
    .error ("TypeError: NoneType object is not iterable")
  else do
    let entries ← parse_annotated_airports countries result
    let pairs := chunk.enum.map fun p => (p.2, bulkGet entries (p.1 + 1))
    let st2 ← pairs.foldlM (processApt countries delete_closed fields update_r) st
    if add_new then
      addNewApts countries st2
        (dir.apts_in_bbox (bboxOf point_chunk) st2.seen_ids excludedAptTypes)
    else .ok st2

/-- `more_itertools.chunked`. -/
def chunkList (n : ℕ) (l : List α) : List (List α) :=
  if _h : n = 0 then []
  else
    match l with
    | [] => []
    | x :: rest => (x :: rest).take n :: chunkList n ((x :: rest).drop n)
  termination_by l.length
  decreasing_by simp [List.length_drop]; omega

/-- The outcome lists of a finished run (`data_report`; the rendered
report text and the numeric `counts` are derived presentation data and
are not modelled). -/
structure RecReport where
  updated : List (CupWaypoint × CupWaypoint × ℚ)
  added : List CupWaypoint
  deleted : List (CupWaypoint × CupWaypoint × ℚ)
  not_updated : List (CupWaypoint × CupWaypoint × ℚ)
  not_found : List CupWaypoint

/-- `update_airports_in_cup`: load the file, select the airport
waypoints, process them in batches of 500 against the directory, and
return the mutated collection plus the outcome lists.  The
`zip(chunked(points), chunked(airports))` of the source pairs each
airport chunk with the points computed from that same chunk, which
`processChunk` reproduces by recomputing the chunk's points
(`chunkList_map` below justifies the equivalence). -/
def update_airports_in_cup (countries : String → Bool) (dir : Directory)
    (file : String) (search_r : ℚ) (update_r : ℚ)
    (fix_location delete_closed add_new : Bool) :
    Except String (CupFile × RecReport) := do
  let fields : List CupField :=
    if fix_location then
      [.lat, .lon, .elev, .style, .rwdir, .rwlen, .rwwidth, .freq]
    else
      [.elev, .style, .rwdir, .rwlen, .rwwidth, .freq]
  let cup_file ← loads countries file
  let coll := cup_file.waypoints.enum
  let airports_in_cup := coll.filter fun p => is_airport p.2
  let st0 : RecState :=
    { coll := coll, nextIdx := cup_file.waypoints.length, seen_ids := []
      updated := [], added := [], deleted := [], not_updated := [], not_found := [] }
  let stF ← (chunkList 500 airports_in_cup).foldlM
    (processChunk countries dir delete_closed add_new fields search_r update_r) st0
  pure (⟨stF.coll.map Prod.snd, cup_file.tasks⟩,
    ⟨stF.updated, stF.added, stF.deleted, stF.not_updated, stF.not_found⟩)

theorem chunkList_map_aux (n : ℕ) (f : α → β) :
    ∀ (k : ℕ) (l : List α), l.length ≤ k →
      chunkList n (l.map f) = (chunkList n l).map (List.map f) := by
  intro k
  induction k with
  | zero =>
    intro l hl
    have : l = [] := List.eq_nil_of_length_eq_zero (Nat.le_zero.mp hl)
    subst this
    rw [chunkList.eq_def, chunkList.eq_def]
    split <;> simp
  | succ k ih =>
    intro l hl
    by_cases hn : n = 0
    · rw [chunkList.eq_def, chunkList.eq_def, dif_pos hn, dif_pos hn]
      rfl
    · cases l with
      | nil =>
        rw [chunkList.eq_def, chunkList.eq_def]
        split <;> simp
      | cons x rest =>
        rw [chunkList.eq_def, chunkList.eq_def, dif_neg hn, dif_neg hn]
        simp only [List.map_cons]
        congr 1
        · rw [show (f x :: List.map f rest) = List.map f (x :: rest) from rfl]
          simp [List.map_take]
        · rw [show (f x :: List.map f rest) = List.map f (x :: rest) from rfl]
          rw [show List.drop n (List.map f (x :: rest)) =
              List.map f (List.drop n (x :: rest)) from by simp [List.map_drop]]
          exact ih ((x :: rest).drop n)
            (by simp only [List.length_drop, List.length_cons] at hl ⊢; omega)

theorem chunkList_map (n : ℕ) (f : α → β) (l : List α) :
    chunkList n (l.map f) = (chunkList n l).map (List.map f) :=
  chunkList_map_aux n f l.length l le_rfl

/-! ## Claim theorems: reconciliation classification (C1, C5) -/

/-- A matched distance traces back to a `nearest_bulk` response entry
issued with the given search radius. -/
def distFromDir (dir : Directory) (search_r : ℚ) (c : Option AirportDistance) : Prop :=
  ∀ ad, c = some ad → ∀ d, ad.distance = some d →
    ∃ pts e, e ∈ dir.nearest_bulk pts search_r ∧ e.distance = some d

theorem processApt_spec (countries : String → Bool) (dc : Bool)
    (fields : List CupField) (ur : ℚ) (st : RecState)
    (e : (ℕ × CupWaypoint) × Option AirportDistance) (st2 : RecState)
    (h : processApt countries dc fields ur st e = .ok st2) :
    st2.updated.map (fun t => t.1) = st.updated.map (fun t => t.1) ++
      (if classify dc ur e.2 = .updated then [e.1.2] else []) ∧
    st2.deleted.map (fun t => t.1) = st.deleted.map (fun t => t.1) ++
      (if classify dc ur e.2 = .deleted then [e.1.2] else []) ∧
    st2.not_updated.map (fun t => t.1) = st.not_updated.map (fun t => t.1) ++
      (if classify dc ur e.2 = .notUpdated then [e.1.2] else []) ∧
    st2.not_found = st.not_found ++
      (if classify dc ur e.2 = .notFound then [e.1.2] else []) ∧
    st2.added = st.added := by
  obtain ⟨⟨idx, apt⟩, c⟩ := e
  cases c with
  | none =>
    simp only [processApt, Except.ok.injEq] at h
    subst h
    simp [classify]
  | some ca =>
    obtain ⟨arpt, cd⟩ := ca
    cases cd with
    | none =>
      simp only [processApt, Except.ok.injEq] at h
      subst h
      simp [classify]
    | some dist =>
      simp only [processApt] at h
      simp only [classify]
      by_cases hle : dist ≤ ur
      · rw [if_pos hle] at h
        rw [if_pos hle]
        by_cases hcl : arpt.apt_type ≠ .CLOSED
        · rw [if_pos hcl] at h
          rw [if_pos hcl]
          cases hcw : Airport.to_cup countries arpt with
          | error er => rw [hcw] at h; simp [Bind.bind, Except.bind] at h
          | ok cw =>
            rw [hcw] at h
            simp only [Bind.bind, Except.bind] at h
            cases hup : update_cup_waypoint apt cw fields with
            | error er => rw [hup] at h; simp at h
            | ok w2 =>
              rw [hup] at h
              simp only [Except.ok.injEq] at h
              subst h
              simp
        · rw [if_neg hcl] at h
          rw [if_neg hcl]
          by_cases hdc : dc
          · rw [if_pos hdc] at h
            subst hdc
            rw [if_pos rfl]
            cases hcw : Airport.to_cup countries arpt with
            | error er => rw [hcw] at h; simp [Bind.bind, Except.bind] at h
            | ok cw =>
              rw [hcw] at h
              simp only [Bind.bind, Except.bind, Except.ok.injEq] at h
              subst h
              simp
          · rw [if_neg hdc] at h
            rw [if_neg hdc]
            simp only [Except.ok.injEq] at h
            subst h
            simp
      · rw [if_neg hle] at h
        rw [if_neg hle]
        cases hcw : Airport.to_cup countries arpt with
        | error er => rw [hcw] at h; simp [Bind.bind, Except.bind] at h
        | ok cw =>
          rw [hcw] at h
          simp only [Bind.bind, Except.bind, Except.ok.injEq] at h
          subst h
          simp

/-- The waypoints a list of classified pairs contributes to the
outcome list `o`. -/
def selectOutcome (dc : Bool) (ur : ℚ) (o : Outcome)
    (pairs : List ((ℕ × CupWaypoint) × Option AirportDistance)) : List CupWaypoint :=
  (pairs.filter fun p => classify dc ur p.2 = o).map fun p => p.1.2

theorem selectOutcome_nil (dc : Bool) (ur : ℚ) (o : Outcome) :
    selectOutcome dc ur o [] = [] := rfl

theorem selectOutcome_cons (dc : Bool) (ur : ℚ) (o : Outcome)
    (p : (ℕ × CupWaypoint) × Option AirportDistance)
    (rest : List ((ℕ × CupWaypoint) × Option AirportDistance)) :
    selectOutcome dc ur o (p :: rest) =
      (if classify dc ur p.2 = o then [p.1.2] else []) ++ selectOutcome dc ur o rest := by
  unfold selectOutcome
  rw [List.filter_cons]
  by_cases hcl : classify dc ur p.2 = o
  · rw [if_pos (by simpa using hcl), if_pos hcl]
    simp
  · rw [if_neg (by simpa using hcl), if_neg hcl]
    simp

theorem processApt_fold_spec (countries : String → Bool) (dc : Bool)
    (fields : List CupField) (ur : ℚ) :
    ∀ (pairs : List ((ℕ × CupWaypoint) × Option AirportDistance))
      (st st2 : RecState),
      pairs.foldlM (processApt countries dc fields ur) st = .ok st2 →
      st2.updated.map (fun t => t.1) =
        st.updated.map (fun t => t.1) ++ selectOutcome dc ur .updated pairs ∧
      st2.deleted.map (fun t => t.1) =
        st.deleted.map (fun t => t.1) ++ selectOutcome dc ur .deleted pairs ∧
      st2.not_updated.map (fun t => t.1) =
        st.not_updated.map (fun t => t.1) ++ selectOutcome dc ur .notUpdated pairs ∧
      st2.not_found = st.not_found ++ selectOutcome dc ur .notFound pairs ∧
      st2.added = st.added := by
  intro pairs
  induction pairs with
  | nil =>
    intro st st2 h
    simp only [List.foldlM_nil, pure, Except.pure, Except.ok.injEq] at h
    subst h
    simp [selectOutcome_nil]
  | cons p rest ih =>
    intro st st2 h
    rw [List.foldlM_cons] at h
    cases hp : processApt countries dc fields ur st p with
    | error er => rw [hp] at h; simp [Bind.bind, Except.bind] at h
    | ok st1 =>
      rw [hp] at h
      simp only [Bind.bind, Except.bind] at h
      obtain ⟨h1, h2, h3, h4, h5⟩ := processApt_spec countries dc fields ur st p st1 hp
      obtain ⟨g1, g2, g3, g4, g5⟩ := ih st1 st2 h
      refine ⟨?_, ?_, ?_, ?_, ?_⟩ <;>
        simp [g1, g2, g3, g4, g5, h1, h2, h3, h4, h5, selectOutcome_cons]

theorem addNewApts_spec (countries : String → Bool) :
    ∀ (l : List AptJson) (st st2 : RecState),
      addNewApts countries st l = .ok st2 →
      st2.updated = st.updated ∧ st2.deleted = st.deleted ∧
      st2.not_updated = st.not_updated ∧ st2.not_found = st.not_found ∧
      ∃ ws, st2.added = st.added ++ ws ∧
        ∀ w ∈ ws, ∃ aj a, deserialize_apt countries aj = .ok a ∧
          Airport.to_cup countries a = .ok w := by
  intro l
  induction l with
  | nil =>
    intro st st2 h
    simp only [addNewApts, List.foldlM_nil, pure, Except.pure, Except.ok.injEq] at h
    subst h
    exact ⟨rfl, rfl, rfl, rfl, [], by simp, by simp⟩
  | cons aj rest ih =>
    intro st st2 h
    unfold addNewApts at h
    rw [List.foldlM_cons] at h
    cases hde : deserialize_apt countries aj with
    | error er => rw [hde] at h; simp [Bind.bind, Except.bind] at h
    | ok a =>
      rw [hde] at h
      simp only [Bind.bind, Except.bind] at h
      cases hcw : Airport.to_cup countries a with
      | error er => rw [hcw] at h; simp at h
      | ok cw =>
        rw [hcw] at h
        simp only at h
        obtain ⟨g1, g2, g3, g4, ws, gws, gmem⟩ := ih _ st2 h
        refine ⟨g1, g2, g3, g4, cw :: ws, ?_, ?_⟩
        · rw [gws]
          simp
        · intro w hw
          rcases List.mem_cons.mp hw with hw | hw
          · subst hw
            exact ⟨aj, a, hde, hcw⟩
          · exact gmem w hw

theorem parse_annotated_mem (countries : String → Bool) :
    ∀ (results : List BulkEntry) (entries : List (ℕ × Option AirportDistance)),
      parse_annotated_airports countries results = .ok entries →
      ∀ x ∈ entries, ∀ ad, x.2 = some ad →
        ∃ rec, rec ∈ results ∧ ad.distance = rec.distance := by
  intro results
  induction results with
  | nil =>
    intro entries h x hx ad had
    simp only [parse_annotated_airports, List.mapM_nil, pure, Except.pure,
      Except.ok.injEq] at h
    subst h
    simp at hx
  | cons rec rest ih =>
    intro entries h x hx ad had
    unfold parse_annotated_airports at h
    rw [List.mapM_cons] at h
    cases han : annotateRecord countries rec with
    | error er => rw [han] at h; simp [Bind.bind, Except.bind] at h
    | ok y =>
      rw [han] at h
      simp only [Bind.bind, Except.bind] at h
      cases hrest : rest.mapM (annotateRecord countries) with
      | error er => rw [hrest] at h; simp at h
      | ok es =>
        rw [hrest] at h
        simp only [pure, Except.pure, Except.ok.injEq] at h
        subst h
        rcases List.mem_cons.mp hx with hx | hx
        · subst hx
          unfold annotateRecord at han
          cases hid : rec.id with
          | none =>
            rw [hid] at han
            simp only [pure, Except.pure, Except.ok.injEq] at han
            rw [← han] at had
            simp at had
          | some i =>
            rw [hid] at han
            simp only [Bind.bind, Except.bind] at han
            cases hde : deserialize_apt countries rec.apt with
            | error er => rw [hde] at han; simp at han
            | ok a =>
              rw [hde] at han
              simp only [pure, Except.pure, Except.ok.injEq] at han
              rw [← han] at had
              simp only [Option.some.injEq] at had
              exact ⟨rec, List.mem_cons_self .., by rw [← had]⟩
        · obtain ⟨r2, hr2, hr2d⟩ := ih es hrest x hx ad had
          exact ⟨r2, List.mem_cons_of_mem _ hr2, hr2d⟩

theorem bulkGet_from_results (countries : String → Bool)
    (results : List BulkEntry) (entries : List (ℕ × Option AirportDistance))
    (h : parse_annotated_airports countries results = .ok entries) (i : ℕ)
    (ad : AirportDistance) (hga : bulkGet entries i = some ad) :
    ∃ rec, rec ∈ results ∧ ad.distance = rec.distance := by
  unfold bulkGet at hga
  cases hgl : (entries.filter fun e => e.1 = i).getLast? with
  | none => rw [hgl] at hga; simp at hga
  | some x =>
    rw [hgl] at hga
    have hxmem : x ∈ entries :=
      List.mem_of_mem_filter (List.mem_of_mem_getLast? (by rw [hgl]; rfl))
    exact parse_annotated_mem countries results entries h x hxmem ad hga

theorem processChunk_spec (countries : String → Bool) (dir : Directory)
    (dc an : Bool) (fields : List CupField) (sr ur : ℚ)
    (st : RecState) (chunk : List (ℕ × CupWaypoint)) (st2 : RecState)
    (h : processChunk countries dir dc an fields sr ur st chunk = .ok st2) :
    ∃ pairs : List ((ℕ × CupWaypoint) × Option AirportDistance),
      pairs.map Prod.fst = chunk ∧
      (∀ p ∈ pairs, distFromDir dir sr p.2) ∧
      st2.updated.map (fun t => t.1) =
        st.updated.map (fun t => t.1) ++ selectOutcome dc ur .updated pairs ∧
      st2.deleted.map (fun t => t.1) =
        st.deleted.map (fun t => t.1) ++ selectOutcome dc ur .deleted pairs ∧
      st2.not_updated.map (fun t => t.1) =
        st.not_updated.map (fun t => t.1) ++ selectOutcome dc ur .notUpdated pairs ∧
      st2.not_found = st.not_found ++ selectOutcome dc ur .notFound pairs ∧
      ∃ ws, st2.added = st.added ++ ws ∧
        ∀ w ∈ ws, ∃ aj a, deserialize_apt countries aj = .ok a ∧
          Airport.to_cup countries a = .ok w := by
  unfold processChunk at h
  by_cases hres : (dir.nearest_bulk (chunk.map fun p => (p.2.lon, p.2.lat)) sr).isEmpty
  · rw [if_pos hres] at h
    simp at h
  · rw [if_neg hres] at h
    simp only [Bind.bind, Except.bind] at h
    cases hpa : parse_annotated_airports countries
        (dir.nearest_bulk (chunk.map fun p => (p.2.lon, p.2.lat)) sr) with
    | error er => rw [hpa] at h; simp at h
    | ok entries =>
      rw [hpa] at h
      simp only at h
      refine ⟨chunk.enum.map fun p => (p.2, bulkGet entries (p.1 + 1)), ?_, ?_, ?_⟩
      · rw [List.map_map]
        exact List.enum_map_snd chunk
      · intro p hp ad had d hd
        simp only [List.mem_map] at hp
        obtain ⟨q, _, hq⟩ := hp
        rw [← hq] at had
        obtain ⟨rec, hrec, hrecd⟩ :=
          bulkGet_from_results countries _ entries hpa (q.1 + 1) ad had
        exact ⟨chunk.map fun p => (p.2.lon, p.2.lat), rec, hrec, by rw [← hrecd, ← hd]⟩
      · cases hfold : (chunk.enum.map fun p => (p.2, bulkGet entries (p.1 + 1))).foldlM
            (processApt countries dc fields ur) st with
        | error er => rw [hfold] at h; simp at h
        | ok stMid =>
          rw [hfold] at h
          simp only at h
          obtain ⟨f1, f2, f3, f4, f5⟩ :=
            processApt_fold_spec countries dc fields ur _ st stMid hfold
          by_cases han : an
          · rw [if_pos han] at h
            obtain ⟨g1, g2, g3, g4, ws, gws, gmem⟩ := addNewApts_spec countries _ stMid st2 h
            exact ⟨by rw [g1, f1], by rw [g2, f2], by rw [g3, f3], by rw [g4, f4],
              ws, by rw [gws, f5], gmem⟩
          · rw [if_neg han] at h
            simp only [Except.ok.injEq] at h
            subst h
            exact ⟨f1, f2, f3, f4, [], by simp [f5], by simp⟩

theorem chunkList_join_aux (n : ℕ) (hn : ¬ n = 0) :
    ∀ (k : ℕ) (l : List α), l.length ≤ k → (chunkList n l).flatten = l := by
  intro k
  induction k with
  | zero =>
    intro l hl
    have : l = [] := List.eq_nil_of_length_eq_zero (Nat.le_zero.mp hl)
    subst this
    rw [chunkList.eq_def]
    split <;> simp
  | succ k ih =>
    intro l hl
    cases l with
    | nil =>
      rw [chunkList.eq_def]
      split <;> simp
    | cons x rest =>
      rw [chunkList.eq_def, dif_neg hn]
      rw [show (match x :: rest with
          | [] => ([] : List (List α))
          | x :: rest => (x :: rest).take n :: chunkList n ((x :: rest).drop n)) =
        (x :: rest).take n :: chunkList n ((x :: rest).drop n) from rfl]
      rw [List.flatten_cons]
      rw [ih ((x :: rest).drop n)
        (by simp only [List.length_drop, List.length_cons] at hl ⊢; omega)]
      exact List.take_append_drop n (x :: rest)

theorem chunkList_join (n : ℕ) (hn : ¬ n = 0) (l : List α) :
    (chunkList n l).flatten = l :=
  chunkList_join_aux n hn l.length l le_rfl

theorem selectOutcome_append (dc : Bool) (ur : ℚ) (o : Outcome)
    (a b : List ((ℕ × CupWaypoint) × Option AirportDistance)) :
    selectOutcome dc ur o (a ++ b) = selectOutcome dc ur o a ++ selectOutcome dc ur o b := by
  unfold selectOutcome
  rw [List.filter_append, List.map_append]

theorem processChunks_fold_spec (countries : String → Bool) (dir : Directory)
    (dc an : Bool) (fields : List CupField) (sr ur : ℚ) :
    ∀ (chunks : List (List (ℕ × CupWaypoint))) (st st2 : RecState),
      chunks.foldlM (processChunk countries dir dc an fields sr ur) st = .ok st2 →
      ∃ pairs : List ((ℕ × CupWaypoint) × Option AirportDistance),
        pairs.map Prod.fst = chunks.flatten ∧
        (∀ p ∈ pairs, distFromDir dir sr p.2) ∧
        st2.updated.map (fun t => t.1) =
          st.updated.map (fun t => t.1) ++ selectOutcome dc ur .updated pairs ∧
        st2.deleted.map (fun t => t.1) =
          st.deleted.map (fun t => t.1) ++ selectOutcome dc ur .deleted pairs ∧
        st2.not_updated.map (fun t => t.1) =
          st.not_updated.map (fun t => t.1) ++ selectOutcome dc ur .notUpdated pairs ∧
        st2.not_found = st.not_found ++ selectOutcome dc ur .notFound pairs ∧
        ∃ ws, st2.added = st.added ++ ws ∧
          ∀ w ∈ ws, ∃ aj a, deserialize_apt countries aj = .ok a ∧
            Airport.to_cup countries a = .ok w := by
  intro chunks
  induction chunks with
  | nil =>
    intro st st2 h
    simp only [List.foldlM_nil, pure, Except.pure, Except.ok.injEq] at h
    subst h
    exact ⟨[], by simp, by simp, by simp [selectOutcome_nil], by simp [selectOutcome_nil],
      by simp [selectOutcome_nil], by simp [selectOutcome_nil], [], by simp, by simp⟩
  | cons chunk rest ih =>
    intro st st2 h
    rw [List.foldlM_cons] at h
    cases hc : processChunk countries dir dc an fields sr ur st chunk with
    | error er => rw [hc] at h; simp [Bind.bind, Except.bind] at h
    | ok st1 =>
      rw [hc] at h
      simp only [Bind.bind, Except.bind] at h
      obtain ⟨pairs1, hp1, hd1, u1, d1, nu1, nf1, ws1, ha1, hm1⟩ :=
        processChunk_spec countries dir dc an fields sr ur st chunk st1 hc
      obtain ⟨pairs2, hp2, hd2, u2, d2, nu2, nf2, ws2, ha2, hm2⟩ := ih st1 st2 h
      refine ⟨pairs1 ++ pairs2, ?_, ?_, ?_, ?_, ?_, ?_, ws1 ++ ws2, ?_, ?_⟩
      · rw [List.map_append, hp1, hp2, List.flatten_cons]
      · intro p hp
        rcases List.mem_append.mp hp with hp | hp
        · exact hd1 p hp
        · exact hd2 p hp
      · rw [u2, u1, selectOutcome_append, List.append_assoc]
      · rw [d2, d1, selectOutcome_append, List.append_assoc]
      · rw [nu2, nu1, selectOutcome_append, List.append_assoc]
      · rw [nf2, nf1, selectOutcome_append, List.append_assoc]
      · rw [ha2, ha1, List.append_assoc]
      · intro w hw
        rcases List.mem_append.mp hw with hw | hw
        · exact hm1 w hw
        · exact hm2 w hw

/-- The run-level characterization of a successful reconciliation.
Shared by the C1 and C5 theorems. -/
theorem update_airports_run_spec (countries : String → Bool) (dir : Directory)
    (file : String) (sr ur : ℚ) (fl dc an : Bool) (cfOut : CupFile) (rep : RecReport)
    (h : update_airports_in_cup countries dir file sr ur fl dc an = .ok (cfOut, rep)) :
    ∃ (cup : CupFile) (pairs : List ((ℕ × CupWaypoint) × Option AirportDistance)),
      loads countries file = .ok cup ∧
      pairs.map Prod.fst = cup.waypoints.enum.filter (fun p => is_airport p.2) ∧
      (∀ p ∈ pairs, distFromDir dir sr p.2) ∧
      rep.updated.map (fun t => t.1) = selectOutcome dc ur .updated pairs ∧
      rep.deleted.map (fun t => t.1) = selectOutcome dc ur .deleted pairs ∧
      rep.not_updated.map (fun t => t.1) = selectOutcome dc ur .notUpdated pairs ∧
      rep.not_found = selectOutcome dc ur .notFound pairs ∧
      ∀ w ∈ rep.added, ∃ aj a, deserialize_apt countries aj = .ok a ∧
        Airport.to_cup countries a = .ok w := by
  unfold update_airports_in_cup at h
  cases hld : loads countries file with
  | error er => rw [hld] at h; simp [Bind.bind, Except.bind] at h
  | ok cup =>
    rw [hld] at h
    simp only [Bind.bind, Except.bind] at h
    cases hfold : (chunkList 500 (cup.waypoints.enum.filter fun p => is_airport p.2)).foldlM
        (processChunk countries dir dc an
          (if fl then [.lat, .lon, .elev, .style, .rwdir, .rwlen, .rwwidth, .freq]
           else [.elev, .style, .rwdir, .rwlen, .rwwidth, .freq]) sr ur)
        { coll := cup.waypoints.enum, nextIdx := cup.waypoints.length, seen_ids := []
          updated := [], added := [], deleted := [], not_updated := [], not_found := [] } with
    | error er => rw [hfold] at h; simp at h
    | ok stF =>
      rw [hfold] at h
      simp only [pure, Except.pure, Except.ok.injEq, Prod.mk.injEq] at h
      obtain ⟨pairs, hmap, hdist, u1, d1, nu1, nf1, ws, ha, hm⟩ :=
        processChunks_fold_spec countries dir dc an _ sr ur _ _ stF hfold
      refine ⟨cup, pairs, rfl, ?_, hdist, ?_, ?_, ?_, ?_, ?_⟩
      · rw [hmap, chunkList_join 500 (by omega)]
      · rw [← h.2, u1]; rfl
      · rw [← h.2, d1]; rfl
      · rw [← h.2, nu1]; rfl
      · rw [← h.2, nf1]; rfl
      · intro w hw
        rw [← h.2] at hw
        simp only at hw
        rw [ha] at hw
        exact hm w (by simpa using hw)

/-- Claim C1, amended.  For every successful reconciliation run there
is one classification assignment over the input airport waypoints
(`pairs` pairs each airport, in file order, with its matched directory
record): each of the four outcome lists collects, in order, exactly the
waypoints whose classification is that outcome — so no waypoint is
double-classified — and a waypoint is in *no* list exactly when its
classification is `closedSkipped`: matched within the update radius to
a record flagged closed while the remove-closed flag is unset (the
branch the source code leaves unrecorded, contrary to the original
claim).  Every waypoint of the `added` list is a freshly constructed
`to_cup` of a deserialized bounding-box directory record, not an
element taken from the input. -/
theorem claim_C1_classification (countries : String → Bool) (dir : Directory)
    (file : String) (sr ur : ℚ) (fl dc an : Bool) (cfOut : CupFile) (rep : RecReport)
    (h : update_airports_in_cup countries dir file sr ur fl dc an = .ok (cfOut, rep)) :
    ∃ (cup : CupFile) (pairs : List ((ℕ × CupWaypoint) × Option AirportDistance)),
      loads countries file = .ok cup ∧
      pairs.map Prod.fst = cup.waypoints.enum.filter (fun p => is_airport p.2) ∧
      rep.updated.map (fun t => t.1) = selectOutcome dc ur .updated pairs ∧
      rep.deleted.map (fun t => t.1) = selectOutcome dc ur .deleted pairs ∧
      rep.not_updated.map (fun t => t.1) = selectOutcome dc ur .notUpdated pairs ∧
      rep.not_found = selectOutcome dc ur .notFound pairs ∧
      ∀ w ∈ rep.added, ∃ aj a, deserialize_apt countries aj = .ok a ∧
        Airport.to_cup countries a = .ok w := by
  obtain ⟨cup, pairs, h1, h2, _, h4, h5, h6, h7, h8⟩ :=
    update_airports_run_spec countries dir file sr ur fl dc an cfOut rep h
  exact ⟨cup, pairs, h1, h2, h4, h5, h6, h7, h8⟩

/-- The country table, directory stubs and two-waypoint file used by
the concrete reconciliation scenarios. -/
def ctSI : String → Bool := fun s => s = "SI"

def recFile : String :=
  "name,lat,lon,style\nA,4636.000N,01417.000E,2\nB,4637.000N,01418.000E,1\n"

/-- The directory record used by the closed-airport scenario
(`apt_type = 8` is `CLOSED`). -/
def ajClosed : AptJson :=
  { name := "Lesce", code := some ("LJBL"), country := "SI"
    lon := 1417/100, lat := 4636/100, elev := 504, style := 5, apt_type := 8
    rw_dir := some 140, rw_len := some 1130, rw_width := some 30
    freq := some ("123.500"), source_id := "src1" }

def ajOpen : AptJson := { ajClosed with apt_type := 0 }

/-- A directory whose nearest-neighbour query matches every point to
`ajClosed` at distance 100. -/
def dirClosed : Directory :=
  { nearest_bulk := fun pts _ => pts.enum.map fun p => ⟨p.1 + 1, some 7, some 100, ajClosed⟩
    apts_in_bbox := fun _ _ _ => [] }

def dirOpen : Directory :=
  { nearest_bulk := fun pts _ => pts.enum.map fun p => ⟨p.1 + 1, some 7, some 100, ajOpen⟩
    apts_in_bbox := fun _ _ _ => [] }

/-- A directory returning no match for any point (`id` null). -/
def dirNone : Directory :=
  { nearest_bulk := fun pts _ => pts.enum.map fun p => ⟨p.1 + 1, .none, .none, ajOpen⟩
    apts_in_bbox := fun _ _ _ => [] }

/-- The two waypoints `recFile` parses to. -/
def wptA : CupWaypoint :=
  { name := some ("A"), code := .none, country := .none
    lat := 233/5, lon := 857/60, coordinates := (857/60, 233/5)
    elev := .none, og_elev_unit := "m", style := some 2, rwdir := .none
    rwlen := .none, og_rwlen_unit := "m", rwwidth := .none, og_rwwidth_unit := "m"
    freq := .none, desc := .none, userdata := .none, pics := .none }

def wptB : CupWaypoint :=
  { name := some ("B"), code := .none, country := .none
    lat := 2797/60, lon := 143/10, coordinates := (143/10, 2797/60)
    elev := .none, og_elev_unit := "m", style := some 1, rwdir := .none
    rwlen := .none, og_rwlen_unit := "m", rwwidth := .none, og_rwwidth_unit := "m"
    freq := .none, desc := .none, userdata := .none, pics := .none }

/-- Counterexample to claim C1 as stated: in a successful run whose
single input airport is matched within the update radius to a record
flagged closed while the remove-closed flag is unset, the waypoint
appears in *none* of the four outcome lists. -/
theorem claim_C1_counterexample :
    (loads ctSI recFile).map (fun cf => (airports cf).length) = .ok 1 ∧
    (update_airports_in_cup ctSI dirClosed recFile 5000 2000 true false false).map
      (fun r => (r.2.updated.length, r.2.deleted.length, r.2.not_found.length,
        r.2.not_updated.length)) = .ok (0, 0, 0, 0) := by
  constructor
  · with_unfolding_all rfl
  · with_unfolding_all rfl

set_option maxHeartbeats 2000000 in
/-- Witness for the amended C1 at a concrete no-match run: the single
airport classifies `not_found`, the other lists are empty. -/
theorem claim_C1_witness :
    ∃ (cup : CupFile) (pairs : List ((ℕ × CupWaypoint) × Option AirportDistance)),
      loads ctSI recFile = .ok cup ∧
      pairs.map Prod.fst = cup.waypoints.enum.filter (fun p => is_airport p.2) ∧
      (RecReport.mk [] [] [] [] [wptA]).updated.map (fun t => t.1) =
        selectOutcome false 2000 .updated pairs ∧
      (RecReport.mk [] [] [] [] [wptA]).deleted.map (fun t => t.1) =
        selectOutcome false 2000 .deleted pairs ∧
      (RecReport.mk [] [] [] [] [wptA]).not_updated.map (fun t => t.1) =
        selectOutcome false 2000 .notUpdated pairs ∧
      (RecReport.mk [] [] [] [] [wptA]).not_found =
        selectOutcome false 2000 .notFound pairs ∧
      ∀ w ∈ (RecReport.mk [] [] [] [] [wptA]).added,
        ∃ aj a, deserialize_apt ctSI aj = .ok a ∧ Airport.to_cup ctSI a = .ok w :=
  claim_C1_classification ctSI dirNone recFile 5000 2000 true false false
    ⟨[wptA, wptB], []⟩ ⟨[], [], [], [], [wptA]⟩ (by with_unfolding_all rfl)

theorem classify_notUpdated (dc : Bool) (ur : ℚ) (c : Option AirportDistance)
    (h : classify dc ur c = .notUpdated) :
    ∃ arpt dist, c = some ⟨arpt, some dist⟩ ∧ ¬ dist ≤ ur := by
  match c with
  | .none => simp [classify] at h
  | some ⟨arpt, .none⟩ => simp [classify] at h
  | some ⟨arpt, some dist⟩ =>
    refine ⟨arpt, dist, rfl, ?_⟩
    intro hle
    rw [classify, if_pos hle] at h
    by_cases hcl : arpt.apt_type ≠ .CLOSED
    · rw [if_pos hcl] at h; cases h
    · rw [if_neg hcl] at h
      by_cases hdc : dc = true
      · rw [if_pos hdc] at h; cases h
      · rw [if_neg hdc] at h; cases h

/-- Claim C5, amended.  The source performs no radius-ordering check
and raises no `ApplicationError`: a run whose update radius exceeds the
search radius proceeds normally and issues its directory queries (the
counterexample shows a successful, collection-mutating run).  Moreover,
under the query contract — every matched distance is at most the search
radius — such a run classifies no waypoint `not_updated`, since every
match automatically falls within the update radius. -/
theorem claim_C5_amended (countries : String → Bool) (dir : Directory)
    (file : String) (sr ur : ℚ) (fl dc an : Bool) (cfOut : CupFile) (rep : RecReport)
    (hr : sr < ur)
    (hcontract : ∀ pts r (e : BulkEntry), e ∈ dir.nearest_bulk pts r →
      ∀ d, e.distance = some d → d ≤ r)
    (h : update_airports_in_cup countries dir file sr ur fl dc an = .ok (cfOut, rep)) :
    rep.not_updated = [] := by
  obtain ⟨cup, pairs, _, _, hdist, _, _, hnu, _, _⟩ :=
    update_airports_run_spec countries dir file sr ur fl dc an cfOut rep h
  have hsel : selectOutcome dc ur .notUpdated pairs = [] := by
    unfold selectOutcome
    rw [List.map_eq_nil_iff, List.filter_eq_nil_iff]
    intro p hp
    simp only [decide_eq_true_eq]
    intro hcl
    obtain ⟨arpt, dist, hpc, hgt⟩ := classify_notUpdated dc ur p.2 hcl
    obtain ⟨pts, e, he, hed⟩ := hdist p hp ⟨arpt, some dist⟩ hpc dist rfl
    exact hgt (le_of_lt (lt_of_le_of_lt (hcontract pts sr e he dist hed) hr))
  exact List.map_eq_nil_iff.mp (hnu.trans hsel)

/-- Counterexample to claim C5 as stated: with update radius 6000 >
search radius 5000 the engine raises nothing — the run succeeds, the
nearest-neighbour query is consumed (its match updates the airport) and
the collection is modified (waypoint A now carries the directory
coordinates `46.36, 14.17` instead of `46.6, 14.2833`). -/
theorem claim_C5_counterexample :
    (update_airports_in_cup ctSI dirOpen recFile 5000 6000 true false false).map
      (fun r => (r.2.updated.length, r.1.waypoints.map fun w => w.lat)) =
      .ok (1, [1159/25, 2797/60]) := by
  with_unfolding_all rfl

set_option maxHeartbeats 2000000 in
/-- Witness for the amended C5: a concrete run with update radius 6000
above the search radius 5000 against a no-match directory, whose
contract hypothesis holds vacuously. -/
theorem claim_C5_witness :
    (RecReport.mk [] [] [] [] [wptA]).not_updated = [] :=
  claim_C5_amended ctSI dirNone recFile 5000 6000 true false false
    ⟨[wptA, wptB], []⟩ ⟨[], [], [], [], [wptA]⟩ (by norm_num)
    (by
      intro pts r e he d hd
      unfold dirNone at he
      simp only [List.mem_map] at he
      obtain ⟨q, _, hq⟩ := he
      rw [← hq] at hd
      simp at hd)
    (by with_unfolding_all rfl)

/-! ## Round-trip toolkit (C2): digits -/

theorem digitChar_isDigit {d : ℕ} (hd : d < 10) : (digitChar d).isDigit = true := by
  interval_cases d <;> decide

theorem digitVal_digitChar {d : ℕ} (hd : d < 10) : digitVal (digitChar d) = d := by
  interval_cases d <;> decide

theorem digitChar_ne_special {d : ℕ} (hd : d < 10) :
    digitChar d ≠ ',' ∧ digitChar d ≠ '"' ∧ digitChar d ≠ '\r' ∧ digitChar d ≠ '\n' ∧
    digitChar d ≠ '_' ∧ pyIsSpace (digitChar d) = false := by
  interval_cases d <;> decide

theorem natDigits_all_digits (n : ℕ) : ∀ c ∈ natDigits n, c.isDigit = true := by
  induction n using Nat.strong_induction_on with
  | _ n ih =>
    rw [natDigits_eq]
    by_cases h : n < 10
    · rw [dif_pos h]
      intro c hc
      simp only [List.mem_singleton] at hc
      subst hc
      exact digitChar_isDigit h
    · rw [dif_neg h]
      intro c hc
      rcases List.mem_append.mp hc with hc | hc
      · exact ih (n / 10) (Nat.div_lt_self (by omega) (by omega)) c hc
      · simp only [List.mem_singleton] at hc
        subst hc
        exact digitChar_isDigit (Nat.mod_lt n (by omega))

theorem natDigits_ne_nil (n : ℕ) : natDigits n ≠ [] := by
  rw [natDigits_eq]
  by_cases h : n < 10
  · rw [dif_pos h]; simp
  · rw [dif_neg h]; simp

theorem digitsToNat_go (b : List Char) : ∀ m : ℕ,
    b.foldl (fun a c => a * 10 + digitVal c) m = m * 10 ^ b.length + digitsToNat b := by
  induction b with
  | nil => intro m; simp [digitsToNat]
  | cons c rest ih =>
    intro m
    show List.foldl _ (m * 10 + digitVal c) rest = _
    rw [ih (m * 10 + digitVal c)]
    have h2 : digitsToNat (c :: rest) =
        List.foldl (fun a c => a * 10 + digitVal c) (0 * 10 + digitVal c) rest := rfl
    rw [h2, ih (0 * 10 + digitVal c)]
    simp only [List.length_cons]
    ring

theorem digitsToNat_append (a b : List Char) :
    digitsToNat (a ++ b) = digitsToNat a * 10 ^ b.length + digitsToNat b := by
  show List.foldl (fun a c => a * 10 + digitVal c) 0 (a ++ b) = _
  rw [List.foldl_append]
  exact digitsToNat_go b (List.foldl (fun a c => a * 10 + digitVal c) 0 a)

theorem digitsToNat_natDigits (n : ℕ) : digitsToNat (natDigits n) = n := by
  induction n using Nat.strong_induction_on with
  | _ n ih =>
    rw [natDigits_eq]
    by_cases h : n < 10
    · rw [dif_pos h]
      simp [digitsToNat, digitVal_digitChar h]
    · rw [dif_neg h]
      rw [digitsToNat_append]
      rw [ih (n / 10) (Nat.div_lt_self (by omega) (by omega))]
      have h10 : n % 10 < 10 := Nat.mod_lt n (by omega)
      simp [digitsToNat, digitVal_digitChar h10]
      omega

theorem natDigits_length_le (k n : ℕ) (h : n < 10 ^ k) (hk : 0 < k) :
    (natDigits n).length ≤ k := by
  induction k generalizing n with
  | zero => omega
  | succ k ih =>
    rw [natDigits_eq]
    by_cases hn : n < 10
    · rw [dif_pos hn]
      simp only [List.length_cons, List.length_nil]
      omega
    · rw [dif_neg hn]
      have hk0 : 0 < k := by
        rcases Nat.eq_zero_or_pos k with hz | hp
        · subst hz; simp at h; omega
        · exact hp
      have hdiv : n / 10 < 10 ^ k := by
        rw [Nat.div_lt_iff_lt_mul (by omega : (0:ℕ) < 10)]
        calc n < 10 ^ (k + 1) := h
          _ = 10 ^ k * 10 := by ring
      have := ih (n / 10) hdiv hk0
      simp only [List.length_append, List.length_cons, List.length_nil]
      omega

theorem padZeros_length (w : ℕ) (cs : List Char) (h : cs.length ≤ w) :
    (padZeros w cs).length = w := by
  simp [padZeros]
  omega

theorem padZeros_all_digits (w : ℕ) (cs : List Char) (h : ∀ c ∈ cs, c.isDigit = true) :
    ∀ c ∈ padZeros w cs, c.isDigit = true := by
  intro c hc
  rcases List.mem_append.mp hc with hc | hc
  · rw [List.eq_of_mem_replicate hc]; decide
  · exact h c hc

theorem digitsToNat_replicate_zero (k : ℕ) : digitsToNat (List.replicate k '0') = 0 := by
  induction k with
  | zero => rfl
  | succ k ih =>
    rw [List.replicate_succ]
    have h1 : digitsToNat ('0' :: List.replicate k '0') =
        digitsToNat (['0'] ++ List.replicate k '0') := rfl
    rw [h1, digitsToNat_append, ih]
    have h0 : digitsToNat ['0'] = 0 := by decide
    rw [h0]
    simp

theorem digitsToNat_padZeros (w : ℕ) (cs : List Char) :
    digitsToNat (padZeros w cs) = digitsToNat cs := by
  unfold padZeros
  rw [digitsToNat_append, digitsToNat_replicate_zero]
  simp

theorem digitsToNat_cons (c : Char) (ds : List Char) :
    digitsToNat (c :: ds) = digitVal c * 10 ^ ds.length + digitsToNat ds := by
  have h : digitsToNat (c :: ds) = digitsToNat ([c] ++ ds) := rfl
  rw [h, digitsToNat_append]
  simp [digitsToNat]

theorem takeNDigits_exact (ds : List Char) (hds : ∀ c ∈ ds, c.isDigit = true) :
    ∀ rest, takeNDigits ds.length (ds ++ rest) = some (digitsToNat ds, rest) := by
  induction ds with
  | nil => intro rest; rfl
  | cons c ds ih =>
    intro rest
    show takeNDigits (ds.length + 1) (c :: (ds ++ rest)) = _
    have hc : c.isDigit = true := hds c (List.mem_cons_self c ds)
    simp only [takeNDigits, hc, if_true]
    rw [ih (fun x hx => hds x (List.mem_cons_of_mem c hx)) rest]
    rw [digitsToNat_cons]
    rfl

theorem takeNDigits_pad (k n : ℕ) (rest : List Char) (h : n < 10 ^ k) (hk : 0 < k) :
    takeNDigits k (padZeros k (natDigits n) ++ rest) = some (n, rest) := by
  have hlen : (padZeros k (natDigits n)).length = k :=
    padZeros_length k _ (natDigits_length_le k n h hk)
  have hdig : ∀ c ∈ padZeros k (natDigits n), c.isDigit = true :=
    padZeros_all_digits k _ (natDigits_all_digits n)
  have hx := takeNDigits_exact (padZeros k (natDigits n)) hdig rest
  rw [hlen] at hx
  rw [hx, digitsToNat_padZeros, digitsToNat_natDigits]

theorem stripBoth_id (p : Char → Bool) (l : List Char) (h : ∀ c ∈ l, p c = false) :
    stripBoth p l = l := by
  unfold stripBoth dropTrailing
  have h1 : l.dropWhile p = l := by
    cases l with
    | nil => rfl
    | cons c rest =>
      rw [List.dropWhile_cons_of_neg]
      simp [h c (List.mem_cons_self c rest)]
  rw [h1]
  have h2 : l.reverse.dropWhile p = l.reverse := by
    cases hr : l.reverse with
    | nil => rfl
    | cons c rest =>
      have hm : c ∈ l := by
        rw [← List.mem_reverse, hr]
        exact List.mem_cons_self c rest
      rw [List.dropWhile_cons_of_neg]
      simp [h c hm]
  rw [h2, List.reverse_reverse]

theorem pyStrip_id (s : String) (h : ∀ c ∈ s.data, pyIsSpace c = false) :
    pyStrip s = s := by
  unfold pyStrip
  rw [stripBoth_id _ _ h]

theorem stripQuotes_id (s : String) (h : ∀ c ∈ s.data, (c == '"') = false) :
    stripQuotes s = s := by
  unfold stripQuotes
  rw [stripBoth_id _ _ h]

theorem isDigit_not_space {c : Char} (h : c.isDigit = true) : pyIsSpace c = false := by
  cases hps : pyIsSpace c with
  | false => rfl
  | true =>
    exfalso
    simp only [pyIsSpace, Bool.or_eq_true, beq_iff_eq] at hps
    rcases hps with ((((rfl | rfl) | rfl) | rfl) | rfl) | rfl <;>
      exact absurd h (by decide)

theorem digit_char_facts {c : Char} (h : c.isDigit = true) :
    c ≠ '+' ∧ c ≠ '-' ∧ c ≠ '_' ∧ c ≠ ',' ∧ c ≠ '"' ∧ c ≠ '\r' ∧ c ≠ '\n' ∧
    c ≠ '.' ∧ c ≠ '#' ∧ pyIsSpace c = false := by
  refine ⟨?_, ?_, ?_, ?_, ?_, ?_, ?_, ?_, ?_, isDigit_not_space h⟩ <;>
    (intro hc; rw [hc] at h; exact absurd h (by decide))

theorem parseUDigitsGo_digits (ds : List Char) (hds : ∀ c ∈ ds, c.isDigit = true) :
    ∀ acc, parseUDigitsGo ds acc =
      some (ds.foldl (fun a c => a * 10 + digitVal c) acc) := by
  induction ds with
  | nil => intro acc; rfl
  | cons c ds ih =>
    intro acc
    have hc : c.isDigit = true := hds c (List.mem_cons_self c ds)
    have hne : c ≠ '_' := (digit_char_facts hc).2.2.1
    rw [parseUDigitsGo.eq_def]
    split
    · rename_i heq
      exact absurd heq (by simp)
    · rename_i heq
      exfalso
      rw [List.cons.injEq] at heq
      exact hne heq.1
    · rename_i heq
      rw [List.cons.injEq] at heq
      obtain ⟨rfl, rfl⟩ := heq
      rw [if_pos hc]
      rw [ih (fun x hx => hds x (List.mem_cons_of_mem c hx))]
      rfl

theorem pyInt_digits (c : Char) (rest : List Char)
    (hc : c.isDigit = true) (hrest : ∀ x ∈ rest, x.isDigit = true) :
    pyInt ⟨c :: rest⟩ = some ((digitsToNat (c :: rest) : ℕ) : ℤ) := by
  have hall : ∀ x ∈ c :: rest, x.isDigit = true := by
    intro x hx
    rcases List.mem_cons.mp hx with rfl | hx
    · exact hc
    · exact hrest x hx
  have hstrip : stripBoth pyIsSpace (c :: rest) = c :: rest :=
    stripBoth_id _ _ (fun x hx => isDigit_not_space (hall x hx))
  have hfacts := digit_char_facts hc
  rw [pyInt.eq_def]
  simp only [hstrip]
  split
  · rename_i heq
    split at heq
    · rename_i h2
      exfalso
      rw [List.cons.injEq] at h2
      exact hfacts.1 h2.1
    · rename_i h2
      exfalso
      rw [List.cons.injEq] at h2
      exact hfacts.2.1 h2.1
    · exact absurd heq (by simp)
  · rename_i d tail heq
    split at heq
    · rename_i h2
      exfalso
      rw [List.cons.injEq] at h2
      exact hfacts.1 h2.1
    · rename_i h2
      exfalso
      rw [List.cons.injEq] at h2
      exact hfacts.2.1 h2.1
    · simp only at heq
      rw [List.cons.injEq] at heq
      obtain ⟨rfl, rfl⟩ := heq
      rw [if_pos hc]
      rw [parseUDigitsGo_digits rest hrest (digitVal c)]
      have hval : rest.foldl (fun a c => a * 10 + digitVal c) (digitVal c) =
          digitsToNat (c :: rest) := by
        rw [digitsToNat_go rest (digitVal c), digitsToNat_cons]
      rw [hval]
      simp

theorem pyInt_natStr (n : ℕ) : pyInt (natStr n) = some (n : ℤ) := by
  obtain ⟨c, rest, hcons⟩ := List.exists_cons_of_ne_nil (natDigits_ne_nil n)
  have h1 : natStr n = ⟨c :: rest⟩ := by rw [natStr, hcons]
  have hall := natDigits_all_digits n
  rw [hcons] at hall
  rw [h1, pyInt_digits c rest (hall c (List.mem_cons_self c rest))
    (fun x hx => hall x (List.mem_cons_of_mem c hx))]
  rw [← hcons, digitsToNat_natDigits]

theorem pyInt_intStr (z : ℤ) : pyInt (intStr z) = some z := by
  unfold intStr
  by_cases hz : z < 0
  · rw [if_pos hz]
    obtain ⟨c, rest, hcons⟩ := List.exists_cons_of_ne_nil (natDigits_ne_nil z.natAbs)
    have hall := natDigits_all_digits z.natAbs
    rw [hcons] at hall
    have hdata : ("-" ++ natStr z.natAbs).data = '-' :: c :: rest := by
      show ('-' :: (natStr z.natAbs).data) = _
      rw [natStr, hcons]
    have hstrip : stripBoth pyIsSpace ('-' :: c :: rest) = '-' :: c :: rest := by
      refine stripBoth_id _ _ ?_
      intro x hx
      rcases List.mem_cons.mp hx with rfl | hx
      · decide
      · exact isDigit_not_space (hall x hx)
    rw [pyInt.eq_def]
    rw [show ("-" ++ natStr z.natAbs).data = '-' :: c :: rest from hdata, hstrip]
    dsimp only
    rw [show (match '-' :: c :: rest with
        | '+' :: r => ((1:ℤ), r)
        | '-' :: r => ((-1:ℤ), r)
        | x => ((1:ℤ), '-' :: c :: rest)) = ((-1:ℤ), c :: rest) from rfl]
    dsimp only
    rw [if_pos (hall c (List.mem_cons_self c rest))]
    rw [parseUDigitsGo_digits rest
      (fun x hx => hall x (List.mem_cons_of_mem c hx)) (digitVal c)]
    have hval : rest.foldl (fun a c => a * 10 + digitVal c) (digitVal c) =
        digitsToNat (c :: rest) := by
      rw [digitsToNat_go rest (digitVal c), digitsToNat_cons]
    rw [hval, ← hcons, digitsToNat_natDigits]
    show some ((-1 : ℤ) * ((z.natAbs : ℕ) : ℤ)) = some z
    congr 1
    omega
  · rw [if_neg hz]
    rw [pyInt_natStr]
    congr 1
    omega

theorem style_int_nonneg (z : ℤ) (hz : is_valid_style_int z = true) : 0 ≤ z := by
  simp [is_valid_style_int, styleKeys] at hz
  rcases hz with rfl|rfl|rfl|rfl|rfl|rfl|rfl|rfl|rfl|rfl|rfl|rfl|rfl|rfl|rfl|rfl|rfl|rfl|rfl|rfl|rfl|rfl <;> omega

theorem pyIsDigitStr_natStr (n : ℕ) : pyIsDigitStr (natStr n) = true := by
  unfold pyIsDigitStr natStr
  have h1 := natDigits_ne_nil n
  have h2 := natDigits_all_digits n
  simp only [Bool.and_eq_true, Bool.not_eq_true, List.all_eq_true]
  constructor
  · cases hd : natDigits n with
    | nil => exact absurd hd h1
    | cons c rest => rfl
  · intro c hc
    exact h2 c hc

/-- Reparsing the serialized style integer revalidates it. -/
theorem style_str_revalidates (z : ℤ) (hz : is_valid_style_int z = true) :
    is_valid_style_str (intStr z) = true := by
  have hz0 : 0 ≤ z := style_int_nonneg z hz
  rw [intStr, if_neg (by omega)]
  unfold is_valid_style_str
  rw [pyIsDigitStr_natStr]
  have hd : digitsToNat (natStr z.natAbs).data = z.natAbs := by
    show digitsToNat (natDigits z.natAbs) = _
    exact digitsToNat_natDigits _
  rw [hd]
  have hcast : ((z.natAbs : ℕ) : ℤ) = z := by omega
  rw [hcast]
  unfold is_valid_style_int at hz
  rw [hz]
  rfl

/-- Exactly `w` decimal digits of `n % 10^w`, most significant first:
the normal form of a zero-padded fixed-width numeral. -/
def natDigitsW : ℕ → ℕ → List Char
  | 0, _ => []
  | w + 1, n => natDigitsW w (n / 10) ++ [digitChar (n % 10)]

theorem natDigitsW_length (w n : ℕ) : (natDigitsW w n).length = w := by
  induction w generalizing n with
  | zero => rfl
  | succ w ih =>
    show (natDigitsW w (n / 10) ++ [digitChar (n % 10)]).length = w + 1
    rw [List.length_append, ih]
    rfl

theorem natDigitsW_all_digits (w n : ℕ) : ∀ c ∈ natDigitsW w n, c.isDigit = true := by
  induction w generalizing n with
  | zero => intro c hc; exact absurd hc (List.not_mem_nil c)
  | succ w ih =>
    intro c hc
    rcases List.mem_append.mp hc with hc | hc
    · exact ih (n / 10) c hc
    · rw [List.mem_singleton.mp hc]
      exact digitChar_isDigit (Nat.mod_lt n (by omega))

theorem digitsToNat_natDigitsW (w n : ℕ) :
    digitsToNat (natDigitsW w n) = n % 10 ^ w := by
  induction w generalizing n with
  | zero =>
    simp [natDigitsW, digitsToNat]
    omega
  | succ w ih =>
    show digitsToNat (natDigitsW w (n / 10) ++ [digitChar (n % 10)]) = _
    rw [digitsToNat_append, ih]
    have h1 : digitsToNat [digitChar (n % 10)] = n % 10 := by
      simp [digitsToNat, digitVal_digitChar (Nat.mod_lt n (by omega : (0:ℕ) < 10))]
    rw [h1]
    simp only [List.length_cons, List.length_nil, pow_one]
    have h2 : n % 10 ^ (w + 1) % 10 = n % 10 := Nat.mod_mod_of_dvd n (dvd_pow_self 10 (by omega))
    have h3 : n % 10 ^ (w + 1) / 10 = n / 10 % 10 ^ w := by
      rw [pow_succ, mul_comm]
      exact Nat.mod_mul_right_div_self n 10 (10 ^ w)
    calc n / 10 % 10 ^ w * 10 ^ 1 + n % 10
        = (n % 10 ^ (w + 1) / 10) * 10 + n % 10 ^ (w + 1) % 10 := by
          rw [h2, h3]; ring
      _ = n % 10 ^ (w + 1) := by omega

theorem natDigitsW_split (a b hi lo : ℕ) (hlo : lo < 10 ^ b) :
    natDigitsW (a + b) (hi * 10 ^ b + lo) = natDigitsW a hi ++ natDigitsW b lo := by
  induction b generalizing lo with
  | zero =>
    have : lo = 0 := by omega
    subst this
    simp [natDigitsW]
  | succ b ih =>
    show natDigitsW (a + b + 1) (hi * 10 ^ (b + 1) + lo) = _
    show natDigitsW (a + b) ((hi * 10 ^ (b + 1) + lo) / 10) ++
      [digitChar ((hi * 10 ^ (b + 1) + lo) % 10)] = _
    have hdiv : (hi * 10 ^ (b + 1) + lo) / 10 = hi * 10 ^ b + lo / 10 := by
      rw [pow_succ]
      rw [show hi * (10 ^ b * 10) + lo = (hi * 10 ^ b) * 10 + lo by ring]
      generalize hi * 10 ^ b = A
      omega
    have hmod : (hi * 10 ^ (b + 1) + lo) % 10 = lo % 10 := by
      have : 10 ∣ hi * 10 ^ (b + 1) := Dvd.dvd.mul_left (dvd_pow_self 10 (by omega)) hi
      omega
    rw [hdiv, hmod]
    have hlo10 : lo / 10 < 10 ^ b := by
      rw [Nat.div_lt_iff_lt_mul (by omega : (0:ℕ) < 10)]
      calc lo < 10 ^ (b + 1) := hlo
        _ = 10 ^ b * 10 := by rw [pow_succ]
    rw [ih (lo / 10) hlo10]
    show _ = natDigitsW a hi ++ (natDigitsW b (lo / 10) ++ [digitChar (lo % 10)])
    rw [List.append_assoc]

theorem natDigits_length_ge (w n : ℕ) (h : 10 ^ w ≤ n) :
    w + 1 ≤ (natDigits n).length := by
  induction w generalizing n with
  | zero =>
    have := natDigits_ne_nil n
    cases hd : natDigits n with
    | nil => exact absurd hd this
    | cons c rest => simp
  | succ w ih =>
    have hn : ¬ n < 10 := by
      intro hc
      have : (10:ℕ) ≤ 10 ^ (w + 1) := by
        calc (10:ℕ) = 10 ^ 1 := by ring
          _ ≤ 10 ^ (w + 1) := Nat.pow_le_pow_right (by omega) (by omega)
      omega
    rw [natDigits_eq, dif_neg hn]
    have hdiv : 10 ^ w ≤ n / 10 := by
      rw [Nat.le_div_iff_mul_le (by omega : (0:ℕ) < 10)]
      calc 10 ^ w * 10 = 10 ^ (w + 1) := by rw [pow_succ]
        _ ≤ n := h
    have := ih (n / 10) hdiv
    simp only [List.length_append, List.length_cons, List.length_nil]
    omega

theorem natDigits_exactW (w n : ℕ) (h1 : 10 ^ w ≤ n) (h2 : n < 10 ^ (w + 1)) :
    natDigits n = natDigitsW (w + 1) n := by
  induction w generalizing n with
  | zero =>
    rw [natDigits_eq, dif_pos (by simpa using h2)]
    show _ = natDigitsW 0 (n / 10) ++ [digitChar (n % 10)]
    rw [show natDigitsW 0 (n / 10) = [] from rfl]
    rw [Nat.mod_eq_of_lt (by simpa using h2)]
    rfl
  | succ w ih =>
    have hn : ¬ n < 10 := by
      intro hc
      have : (10:ℕ) ≤ 10 ^ (w + 1) := by
        calc (10:ℕ) = 10 ^ 1 := by ring
          _ ≤ 10 ^ (w + 1) := Nat.pow_le_pow_right (by omega) (by omega)
      omega
    rw [natDigits_eq, dif_neg hn]
    show _ = natDigitsW (w + 1) (n / 10) ++ [digitChar (n % 10)]
    congr 1
    refine ih (n / 10) ?_ ?_
    · rw [Nat.le_div_iff_mul_le (by omega : (0:ℕ) < 10)]
      calc 10 ^ w * 10 = 10 ^ (w + 1) := by rw [pow_succ]
        _ ≤ n := h1
    · rw [Nat.div_lt_iff_lt_mul (by omega : (0:ℕ) < 10)]
      calc n < 10 ^ (w + 2) := h2
        _ = 10 ^ (w + 1) * 10 := by rw [pow_succ]

theorem padZeros_natDigits_eq_W (w n : ℕ) (hw : 0 < w) (h : n < 10 ^ w) :
    padZeros w (natDigits n) = natDigitsW w n := by
  induction w generalizing n with
  | zero => omega
  | succ w ih =>
    by_cases hcase : n < 10 ^ w
    · rcases Nat.eq_zero_or_pos w with rfl | hw0
      · rw [natDigits_eq, dif_pos (by simpa using h)]
        have : n = 0 := by omega
        subst this
        rfl
      · have hlen : (natDigits n).length ≤ w := natDigits_length_le w n hcase hw0
        have hpad : padZeros (w + 1) (natDigits n) = '0' :: padZeros w (natDigits n) := by
          unfold padZeros
          rw [show w + 1 - (natDigits n).length = (w - (natDigits n).length) + 1 by omega]
          rw [List.replicate_succ]
          rfl
        rw [hpad, ih n hw0 hcase]
        have hsplit := natDigitsW_split 1 w 0 n hcase
        rw [show (0 : ℕ) * 10 ^ w + n = n by ring] at hsplit
        rw [show (1 : ℕ) + w = w + 1 by ring] at hsplit
        rw [hsplit]
        rfl
    · have hlen : w + 1 ≤ (natDigits n).length :=
        natDigits_length_ge w n (by omega)
      have hpad : padZeros (w + 1) (natDigits n) = natDigits n := by
        unfold padZeros
        rw [show w + 1 - (natDigits n).length = 0 by omega]
        rfl
      rw [hpad]
      exact natDigits_exactW w n (by omega) h

theorem natDigits_splitE (p n : ℕ) (h : 10 ^ p ≤ n) :
    natDigits n = natDigits (n / 10 ^ p) ++ natDigitsW p (n % 10 ^ p) := by
  induction p generalizing n with
  | zero => simp [natDigitsW]
  | succ p ih =>
    have hn : ¬ n < 10 := by
      intro hc
      have h10 : (10:ℕ) ≤ 10 ^ (p + 1) := by
        calc (10:ℕ) = 10 ^ 1 := by ring
          _ ≤ 10 ^ (p + 1) := Nat.pow_le_pow_right (by omega) (by omega)
      omega
    rw [natDigits_eq, dif_neg hn]
    have hdivp : 10 ^ p ≤ n / 10 := by
      rw [Nat.le_div_iff_mul_le (by omega : (0:ℕ) < 10)]
      calc 10 ^ p * 10 = 10 ^ (p + 1) := by rw [pow_succ]
        _ ≤ n := h
    rw [ih (n / 10) hdivp]
    have e1 : n / 10 / 10 ^ p = n / 10 ^ (p + 1) := by
      rw [Nat.div_div_eq_div_mul]
      congr 1
      rw [pow_succ]
      ring
    have e2 : n % 10 ^ (p + 1) / 10 = n / 10 % 10 ^ p := by
      rw [pow_succ, mul_comm]
      exact Nat.mod_mul_right_div_self n 10 (10 ^ p)
    have e3 : n % 10 ^ (p + 1) % 10 = n % 10 :=
      Nat.mod_mod_of_dvd n (dvd_pow_self 10 (by omega))
    rw [e1]
    show _ = natDigits (n / 10 ^ (p + 1)) ++
      (natDigitsW p (n % 10 ^ (p + 1) / 10) ++ [digitChar (n % 10 ^ (p + 1) % 10)])
    rw [e2, e3, List.append_assoc]

theorem roundHalfEven_intCast (z : ℤ) : roundHalfEven ((z : ℤ) : ℚ) = z := by
  unfold roundHalfEven
  rw [Int.floor_intCast]
  rw [if_pos]
  rw [sub_self]
  norm_num

theorem formatFixed_div_pow (n p : ℕ) (hp : 0 < p) :
    formatFixed ((n : ℚ) / 10 ^ p) p =
      ⟨natDigits (n / 10 ^ p) ++ '.' :: natDigitsW p (n % 10 ^ p)⟩ := by
  unfold formatFixed
  have hm : roundHalfEven ((n : ℚ) / 10 ^ p * 10 ^ p) = (n : ℤ) := by
    rw [div_mul_cancel₀]
    · rw [show ((n : ℕ) : ℚ) = ((n : ℤ) : ℚ) by push_cast; ring]
      exact roundHalfEven_intCast n
    · positivity
  dsimp only
  rw [hm]
  simp only [Int.natAbs_ofNat]
  rw [if_neg (by omega : ¬ p = 0)]
  rw [if_neg (by push_neg; positivity : ¬ ((n : ℚ) / 10 ^ p < 0))]
  have hds : padZeros (p + 1) (natDigits n) =
      natDigits (n / 10 ^ p) ++ natDigitsW p (n % 10 ^ p) := by
    by_cases hc : n < 10 ^ (p + 1)
    · rw [padZeros_natDigits_eq_W (p + 1) n (by omega) hc]
      have hmodlt : n % 10 ^ p < 10 ^ p := Nat.mod_lt n (pow_pos (by omega) p)
      have hsplit := natDigitsW_split 1 p (n / 10 ^ p) (n % 10 ^ p) hmodlt
      have hrepr : n / 10 ^ p * 10 ^ p + n % 10 ^ p = n := by
        rw [mul_comm]
        exact Nat.div_add_mod n (10 ^ p)
      rw [hrepr, show (1 : ℕ) + p = p + 1 by ring] at hsplit
      rw [hsplit]
      have hlt : n / 10 ^ p < 10 := by
        rw [Nat.div_lt_iff_lt_mul (pow_pos (by omega) p)]
        calc n < 10 ^ (p + 1) := hc
          _ = 10 ^ p * 10 := by rw [pow_succ]
          _ = 10 * 10 ^ p := by ring
      congr 1
      show natDigitsW 0 (n / 10 ^ p / 10) ++ [digitChar (n / 10 ^ p % 10)] = _
      rw [show natDigitsW 0 (n / 10 ^ p / 10) = [] from rfl]
      rw [Nat.mod_eq_of_lt hlt]
      rw [natDigits_eq, dif_pos hlt]
      rfl
    · push_neg at hc
      have hlen : p + 2 ≤ (natDigits n).length := natDigits_length_ge (p + 1) n hc
      have hpadid : padZeros (p + 1) (natDigits n) = natDigits n := by
        unfold padZeros
        rw [show p + 1 - (natDigits n).length = 0 by omega]
        rfl
      rw [hpadid]
      refine natDigits_splitE p n ?_
      calc 10 ^ p ≤ 10 ^ (p + 1) := Nat.pow_le_pow_right (by omega) (by omega)
        _ ≤ n := hc
  rw [hds]
  rw [List.length_append, natDigitsW_length]
  rw [show (natDigits (n / 10 ^ p)).length + p - p = (natDigits (n / 10 ^ p)).length by omega]
  rw [List.take_left, List.drop_left]

theorem format063_frac (k : ℕ) (hk : k < 60000) :
    (format063 ((k : ℚ) / 1000)).data =
      natDigitsW 2 (k / 1000) ++ '.' :: natDigitsW 3 (k % 1000) := by
  unfold format063
  rw [show ((1000 : ℚ)) = 10 ^ 3 by norm_num]
  rw [formatFixed_div_pow k 3 (by omega)]
  rw [show (10:ℕ) ^ 3 = 1000 by norm_num]
  show padZeros 6 (natDigits (k / 1000) ++ '.' :: natDigitsW 3 (k % 1000)) = _
  have hA : (natDigits (k / 1000)).length ≤ 2 :=
    natDigits_length_le 2 _ (by omega) (by omega)
  unfold padZeros
  rw [List.length_append]
  simp only [List.length_cons, natDigitsW_length]
  rw [show 6 - ((natDigits (k / 1000)).length + (3 + 1)) =
    2 - (natDigits (k / 1000)).length by omega]
  rw [← List.append_assoc]
  have hpad2 : List.replicate (2 - (natDigits (k / 1000)).length) '0' ++
      natDigits (k / 1000) = natDigitsW 2 (k / 1000) := by
    show padZeros 2 (natDigits (k / 1000)) = _
    exact padZeros_natDigits_eq_W 2 _ (by omega) (by omega)
  rw [hpad2]

theorem floor_abs_div (q : ℚ) (K : ℕ) (hK : |q| = (K : ℚ) / 60000) :
    ⌊|q|⌋.toNat = K / 60000 := by
  rw [Int.floor_toNat, hK]
  rw [show ((60000 : ℚ)) = ((60000 : ℕ) : ℚ) by norm_num]
  rw [Nat.floor_div_nat ((K : ℕ) : ℚ) 60000]
  rw [Nat.floor_natCast]

theorem dec_min_eq (q : ℚ) (K : ℕ) (hK : |q| = (K : ℚ) / 60000) :
    (|q| - ((K / 60000 : ℕ) : ℚ)) * 60 = ((K % 60000 : ℕ) : ℚ) / 1000 := by
  have h1 : (K : ℚ) = 60000 * ((K / 60000 : ℕ) : ℚ) + ((K % 60000 : ℕ) : ℚ) := by
    have h := Nat.div_add_mod K 60000
    exact_mod_cast h.symm
  rw [hK, h1]
  field_simp
  ring

theorem coord_format_lat (q : ℚ) (K : ℕ)
    (hK : |q| = (K : ℚ) / 60000) (hrange : K ≤ 5400000) :
    (format_decimal_degrees_to_cup q true).data =
      natDigitsW 2 (K / 60000) ++ natDigitsW 2 (K % 60000 / 1000) ++
      '.' :: natDigitsW 3 (K % 60000 % 1000) ++ [if 0 ≤ q then 'N' else 'S'] := by
  unfold format_decimal_degrees_to_cup
  dsimp only
  rw [show (if (true = true) then 2 else 3) = 2 from rfl]
  rw [show (if (true = true) then (if 0 ≤ q then 'N' else 'S')
    else (if 0 ≤ q then 'E' else 'W')) = (if 0 ≤ q then 'N' else 'S') from rfl]
  rw [floor_abs_div q K hK, dec_min_eq q K hK]
  rw [String.data_append, String.data_append]
  rw [format063_frac (K % 60000) (Nat.mod_lt K (by omega))]
  rw [show (String.mk (padZeros 2 (natDigits (K / 60000)))).data =
    padZeros 2 (natDigits (K / 60000)) from rfl]
  rw [padZeros_natDigits_eq_W 2 (K / 60000) (by omega) (by omega : K / 60000 < 10 ^ 2)]
  rw [show (String.mk [if 0 ≤ q then 'N' else 'S']).data =
    [if 0 ≤ q then 'N' else 'S'] from rfl]
  simp only [List.append_assoc, List.cons_append]

theorem coord_format_lon (q : ℚ) (K : ℕ)
    (hK : |q| = (K : ℚ) / 60000) (hrange : K ≤ 10800000) :
    (format_decimal_degrees_to_cup q false).data =
      natDigitsW 3 (K / 60000) ++ natDigitsW 2 (K % 60000 / 1000) ++
      '.' :: natDigitsW 3 (K % 60000 % 1000) ++ [if 0 ≤ q then 'E' else 'W'] := by
  unfold format_decimal_degrees_to_cup
  dsimp only
  rw [show (if (false = true) then 2 else 3) = 3 from rfl]
  rw [show (if (false = true) then (if 0 ≤ q then 'N' else 'S')
    else (if 0 ≤ q then 'E' else 'W')) = (if 0 ≤ q then 'E' else 'W') from rfl]
  rw [floor_abs_div q K hK, dec_min_eq q K hK]
  rw [String.data_append, String.data_append]
  rw [format063_frac (K % 60000) (Nat.mod_lt K (by omega))]
  rw [show (String.mk (padZeros 3 (natDigits (K / 60000)))).data =
    padZeros 3 (natDigits (K / 60000)) from rfl]
  rw [padZeros_natDigits_eq_W 3 (K / 60000) (by omega) (by omega : K / 60000 < 10 ^ 3)]
  rw [show (String.mk [if 0 ≤ q then 'E' else 'W']).data =
    [if 0 ≤ q then 'E' else 'W'] from rfl]
  simp only [List.append_assoc, List.cons_append]

theorem takeNDigits_W (w n : ℕ) (rest : List Char) (h : n < 10 ^ w) :
    takeNDigits w (natDigitsW w n ++ rest) = some (n, rest) := by
  have hx := takeNDigits_exact (natDigitsW w n) (natDigitsW_all_digits w n) rest
  rw [natDigitsW_length] at hx
  rw [hx, digitsToNat_natDigitsW, Nat.mod_eq_of_lt h]

theorem fracDir_not_dot (dirs : List Char) (c : Char) (cs : List Char) (hc : c ≠ '.') :
    fracDir dirs (c :: cs) = none := by
  rw [fracDir.eq_def]
  split
  · rename_i heq
    exfalso
    rw [List.cons.injEq] at heq
    exact hc heq.1
  · rfl

theorem matchCupLat_format (deg m2 f3 : ℕ) (d : Char)
    (hdeg : deg < 100) (hm2 : m2 < 100) (hf3 : f3 < 1000)
    (hdir : (['n', 's', 'N', 'S'].contains d) = true) :
    matchCupLat (natDigitsW 2 deg ++ (natDigitsW 2 m2 ++
        ('.' :: (natDigitsW 3 f3 ++ [d])))) =
      some (deg, (m2 : ℚ) + (f3 : ℚ) / 10 ^ 3, d) := by
  unfold matchCupLat
  rw [takeNDigits_W 2 deg _ (by omega)]
  dsimp only
  rw [takeNDigits_W 2 m2 _ (by omega)]
  dsimp only
  rw [show fracDir ['n', 's', 'N', 'S'] ('.' :: (natDigitsW 3 f3 ++ [d])) =
      (fracThenDir ['n', 's', 'N', 'S'] 3 (natDigitsW 3 f3 ++ [d])).orElse
        (fun _ => (fracThenDir ['n', 's', 'N', 'S'] 2 (natDigitsW 3 f3 ++ [d])).orElse
          fun _ => fracThenDir ['n', 's', 'N', 'S'] 1 (natDigitsW 3 f3 ++ [d])) from rfl]
  rw [show fracThenDir ['n', 's', 'N', 'S'] 3 (natDigitsW 3 f3 ++ [d]) =
      match takeNDigits 3 (natDigitsW 3 f3 ++ [d]) with
      | none => none
      | some (v, rest) =>
        match rest with
        | [] => none
        | dd :: _ => if ['n', 's', 'N', 'S'].contains dd then some (v, 3, dd) else none
      from rfl]
  rw [takeNDigits_W 3 f3 [d] (by omega)]
  dsimp only
  rw [if_pos hdir]
  rfl

theorem matchCupLon_format (deg m2 f3 : ℕ) (d : Char)
    (hdeg : deg < 1000) (hm2 : m2 < 100) (hf3 : f3 < 1000)
    (hdir : (['e', 'w', 'E', 'W'].contains d) = true) :
    matchCupLon (natDigitsW 3 deg ++ (natDigitsW 2 m2 ++
        ('.' :: (natDigitsW 3 f3 ++ [d])))) =
      some (deg, (m2 : ℚ) + (f3 : ℚ) / 10 ^ 3, d) := by
  unfold matchCupLon
  rw [takeNDigits_W 3 deg _ (by omega)]
  dsimp only
  rw [takeNDigits_W 2 m2 _ (by omega)]
  dsimp only
  rw [show fracDir ['e', 'w', 'E', 'W'] ('.' :: (natDigitsW 3 f3 ++ [d])) =
      (fracThenDir ['e', 'w', 'E', 'W'] 3 (natDigitsW 3 f3 ++ [d])).orElse
        (fun _ => (fracThenDir ['e', 'w', 'E', 'W'] 2 (natDigitsW 3 f3 ++ [d])).orElse
          fun _ => fracThenDir ['e', 'w', 'E', 'W'] 1 (natDigitsW 3 f3 ++ [d])) from rfl]
  rw [show fracThenDir ['e', 'w', 'E', 'W'] 3 (natDigitsW 3 f3 ++ [d]) =
      match takeNDigits 3 (natDigitsW 3 f3 ++ [d]) with
      | none => none
      | some (v, rest) =>
        match rest with
        | [] => none
        | dd :: _ => if ['e', 'w', 'E', 'W'].contains dd then some (v, 3, dd) else none
      from rfl]
  rw [takeNDigits_W 3 f3 [d] (by omega)]
  dsimp only
  rw [if_pos hdir]
  rfl

theorem matchCupLat_lon_none (deg m2 f3 : ℕ) (d : Char)
    (hdeg : deg < 1000) (hm2 : m2 < 100) (hf3 : f3 < 1000) :
    matchCupLat (natDigitsW 3 deg ++ (natDigitsW 2 m2 ++
      ('.' :: (natDigitsW 3 f3 ++ [d])))) = none := by
  have h3 : natDigitsW 3 deg = natDigitsW 2 (deg / 10) ++ [digitChar (deg % 10)] := rfl
  unfold matchCupLat
  rw [h3, List.append_assoc]
  rw [takeNDigits_W 2 (deg / 10) _ (by omega)]
  dsimp only
  have hre : [digitChar (deg % 10)] ++ (natDigitsW 2 m2 ++
      ('.' :: (natDigitsW 3 f3 ++ [d]))) =
      [digitChar (deg % 10), digitChar (m2 / 10 % 10)] ++
        (digitChar (m2 % 10) :: ('.' :: (natDigitsW 3 f3 ++ [d]))) := by
    rw [show natDigitsW 2 m2 =
      [digitChar (m2 / 10 % 10), digitChar (m2 % 10)] from rfl]
    rfl
  rw [hre]
  have hdigs : ∀ c ∈ [digitChar (deg % 10), digitChar (m2 / 10 % 10)],
      c.isDigit = true := by
    intro c hc
    rcases List.mem_cons.mp hc with rfl | hc
    · exact digitChar_isDigit (Nat.mod_lt _ (by omega))
    · rw [List.mem_singleton.mp hc]
      exact digitChar_isDigit (Nat.mod_lt _ (by omega))
  have htake := takeNDigits_exact [digitChar (deg % 10), digitChar (m2 / 10 % 10)]
    hdigs (digitChar (m2 % 10) :: ('.' :: (natDigitsW 3 f3 ++ [d])))
  rw [show ([digitChar (deg % 10), digitChar (m2 / 10 % 10)] : List Char).length = 2
    from rfl] at htake
  rw [htake]
  dsimp only
  rw [fracDir_not_dot _ _ _
    (digit_char_facts (digitChar_isDigit (Nat.mod_lt m2 (by omega) : m2 % 10 < 10))).2.2.2.2.2.2.2.1]

/-- The stored coordinates reachable from a successful CUP parse: the
value times 60000 is an integer (the regex precision: whole
thousandths-of-minutes) and lies in range. -/
def CoordOK (is_lat : Bool) (q : ℚ) : Prop :=
  (60000 * |q|).den = 1 ∧ |q| ≤ (if is_lat then 90 else 180)

theorem coordOK_K (is_lat : Bool) (q : ℚ) (h : CoordOK is_lat q) :
    ∃ K : ℕ, |q| = (K : ℚ) / 60000 ∧
      (K : ℚ) ≤ 60000 * (if is_lat then 90 else 180) := by
  obtain ⟨hden, hle⟩ := h
  have h0 : 0 ≤ 60000 * |q| := by positivity
  have hnum : (((60000 * |q|).num : ℤ) : ℚ) = 60000 * |q| := by
    have hd := Rat.num_div_den (60000 * |q|)
    rw [hden] at hd
    simpa using hd
  have hnn : 0 ≤ (60000 * |q|).num := Rat.num_nonneg.mpr h0
  have htn : (((60000 * |q|).num.toNat : ℕ) : ℚ) = (((60000 * |q|).num : ℤ) : ℚ) := by
    exact_mod_cast Int.toNat_of_nonneg hnn
  have hc : (((60000 * |q|).num.toNat : ℕ) : ℚ) = 60000 * |q| := htn.trans hnum
  refine ⟨(60000 * |q|).num.toNat, ?_, ?_⟩
  · rw [hc]
    field_simp
  · rw [hc]
    have h60 : (0:ℚ) < 60000 := by norm_num
    by_cases hl : is_lat
    · rw [if_pos hl] at hle ⊢
      nlinarith [abs_nonneg q]
    · rw [if_neg hl] at hle ⊢
      nlinarith [abs_nonneg q]

theorem convert_format_lat (q : ℚ) (h : CoordOK true q) :
    convert_lat_lon_to_dd (format_decimal_degrees_to_cup q true) = .ok q := by
  obtain ⟨K, hK, hKle⟩ := coordOK_K true q h
  have hKb : K ≤ 5400000 := by
    norm_num at hKle
    exact_mod_cast hKle
  have hdata := coord_format_lat q K hK hKb
  have hKdecomp : 60000 * (K / 60000) + 1000 * (K % 60000 / 1000) + K % 60000 % 1000 = K := by
    omega
  have hval : ((K / 60000 : ℕ) : ℚ) +
      (((K % 60000 / 1000 : ℕ) : ℚ) + ((K % 60000 % 1000 : ℕ) : ℚ) / 10 ^ 3) / 60 =
      (K : ℚ) / 60000 := by
    have hcast : 60000 * ((K / 60000 : ℕ) : ℚ) + 1000 * ((K % 60000 / 1000 : ℕ) : ℚ) +
        ((K % 60000 % 1000 : ℕ) : ℚ) = (K : ℚ) := by
      exact_mod_cast hKdecomp
    field_simp
    linarith [hcast]
  have hnospace : ∀ c ∈ (format_decimal_degrees_to_cup q true).data,
      pyIsSpace c = false := by
    rw [hdata]
    intro c hc
    simp only [List.mem_append, List.mem_cons] at hc
    rcases hc with ((hc | hc) | hc) | hc
    · exact isDigit_not_space (natDigitsW_all_digits 2 _ c hc)
    · exact isDigit_not_space (natDigitsW_all_digits 2 _ c hc)
    · rcases hc with rfl | hc
      · decide
      · exact isDigit_not_space (natDigitsW_all_digits 3 _ c hc)
    · rcases hc with hc | hc
      · rw [hc]
        by_cases h0 : 0 ≤ q
        · rw [if_pos h0]; decide
        · rw [if_neg h0]; decide
      · exact absurd hc (List.not_mem_nil c)
  unfold convert_lat_lon_to_dd
  rw [pyStrip_id _ hnospace, hdata]
  simp only [List.append_assoc, List.cons_append]
  by_cases h0 : 0 ≤ q
  · rw [show (if 0 ≤ q then 'N' else 'S') = 'N' from if_pos h0]
    rw [matchCupLat_format (K / 60000) (K % 60000 / 1000) (K % 60000 % 1000) 'N'
      (by omega) (by omega) (by omega) (by decide)]
    show Except.ok ((1 : ℚ) * (((K / 60000 : ℕ) : ℚ) +
      (((K % 60000 / 1000 : ℕ) : ℚ) + ((K % 60000 % 1000 : ℕ) : ℚ) / 10 ^ 3) / 60)) =
      Except.ok q
    rw [one_mul, hval, ← hK]
    exact congrArg Except.ok (abs_of_nonneg h0)
  · rw [show (if 0 ≤ q then 'N' else 'S') = 'S' from if_neg h0]
    rw [matchCupLat_format (K / 60000) (K % 60000 / 1000) (K % 60000 % 1000) 'S'
      (by omega) (by omega) (by omega) (by decide)]
    show Except.ok ((-1 : ℚ) * (((K / 60000 : ℕ) : ℚ) +
      (((K % 60000 / 1000 : ℕ) : ℚ) + ((K % 60000 % 1000 : ℕ) : ℚ) / 10 ^ 3) / 60)) =
      Except.ok q
    rw [hval, ← hK]
    congr 1
    rw [abs_of_neg (by linarith [not_le.mp h0])]
    ring

theorem convert_format_lon (q : ℚ) (h : CoordOK false q) :
    convert_lat_lon_to_dd (format_decimal_degrees_to_cup q false) = .ok q := by
  obtain ⟨K, hK, hKle⟩ := coordOK_K false q h
  have hKb : K ≤ 10800000 := by
    norm_num at hKle
    exact_mod_cast hKle
  have hdata := coord_format_lon q K hK hKb
  have hKdecomp : 60000 * (K / 60000) + 1000 * (K % 60000 / 1000) + K % 60000 % 1000 = K := by
    omega
  have hval : ((K / 60000 : ℕ) : ℚ) +
      (((K % 60000 / 1000 : ℕ) : ℚ) + ((K % 60000 % 1000 : ℕ) : ℚ) / 10 ^ 3) / 60 =
      (K : ℚ) / 60000 := by
    have hcast : 60000 * ((K / 60000 : ℕ) : ℚ) + 1000 * ((K % 60000 / 1000 : ℕ) : ℚ) +
        ((K % 60000 % 1000 : ℕ) : ℚ) = (K : ℚ) := by
      exact_mod_cast hKdecomp
    field_simp
    linarith [hcast]
  have hnospace : ∀ c ∈ (format_decimal_degrees_to_cup q false).data,
      pyIsSpace c = false := by
    rw [hdata]
    intro c hc
    simp only [List.mem_append, List.mem_cons] at hc
    rcases hc with ((hc | hc) | hc) | hc
    · exact isDigit_not_space (natDigitsW_all_digits 3 _ c hc)
    · exact isDigit_not_space (natDigitsW_all_digits 2 _ c hc)
    · rcases hc with rfl | hc
      · decide
      · exact isDigit_not_space (natDigitsW_all_digits 3 _ c hc)
    · rcases hc with hc | hc
      · rw [hc]
        by_cases h0 : 0 ≤ q
        · rw [if_pos h0]; decide
        · rw [if_neg h0]; decide
      · exact absurd hc (List.not_mem_nil c)
  unfold convert_lat_lon_to_dd
  rw [pyStrip_id _ hnospace, hdata]
  simp only [List.append_assoc, List.cons_append]
  by_cases h0 : 0 ≤ q
  · rw [show (if 0 ≤ q then 'E' else 'W') = 'E' from if_pos h0]
    rw [matchCupLat_lon_none (K / 60000) (K % 60000 / 1000) (K % 60000 % 1000) 'E'
      (by omega) (by omega) (by omega)]
    rw [matchCupLon_format (K / 60000) (K % 60000 / 1000) (K % 60000 % 1000) 'E'
      (by omega) (by omega) (by omega) (by decide)]
    show Except.ok ((1 : ℚ) * (((K / 60000 : ℕ) : ℚ) +
      (((K % 60000 / 1000 : ℕ) : ℚ) + ((K % 60000 % 1000 : ℕ) : ℚ) / 10 ^ 3) / 60)) =
      Except.ok q
    rw [one_mul, hval, ← hK]
    exact congrArg Except.ok (abs_of_nonneg h0)
  · rw [show (if 0 ≤ q then 'E' else 'W') = 'W' from if_neg h0]
    rw [matchCupLat_lon_none (K / 60000) (K % 60000 / 1000) (K % 60000 % 1000) 'W'
      (by omega) (by omega) (by omega)]
    rw [matchCupLon_format (K / 60000) (K % 60000 / 1000) (K % 60000 % 1000) 'W'
      (by omega) (by omega) (by omega) (by decide)]
    show Except.ok ((-1 : ℚ) * (((K / 60000 : ℕ) : ℚ) +
      (((K % 60000 / 1000 : ℕ) : ℚ) + ((K % 60000 % 1000 : ℕ) : ℚ) / 10 ^ 3) / 60)) =
      Except.ok q
    rw [hval, ← hK]
    congr 1
    rw [abs_of_neg (by linarith [not_le.mp h0])]
    ring

theorem formatFixed_chars (q : ℚ) (p : ℕ) (hq : 0 ≤ q) (c : Char)
    (hc : c ∈ (formatFixed q p).data) : c.isDigit = true ∨ c = '.' := by
  unfold formatFixed at hc
  dsimp only at hc
  rw [if_neg (not_lt.mpr hq)] at hc
  have hds : ∀ x ∈ padZeros (p + 1) (natDigits (roundHalfEven (q * 10 ^ p)).natAbs),
      x.isDigit = true :=
    padZeros_all_digits _ _ (natDigits_all_digits _)
  by_cases hp : p = 0
  · rw [if_pos hp] at hc
    exact Or.inl (hds c hc)
  · rw [if_neg hp] at hc
    rcases List.mem_append.mp hc with hc | hc
    · exact Or.inl (hds c (List.mem_of_mem_take hc))
    · rcases List.mem_cons.mp hc with rfl | hc
      · exact Or.inr rfl
      · exact Or.inl (hds c (List.mem_of_mem_drop hc))

theorem format063_chars (q : ℚ) (hq : 0 ≤ q) (c : Char)
    (hc : c ∈ (format063 q).data) : c.isDigit = true ∨ c = '.' := by
  unfold format063 at hc
  rcases List.mem_append.mp hc with hc | hc
  · exact Or.inl (by rw [List.eq_of_mem_replicate hc]; decide)
  · exact formatFixed_chars q 3 hq c hc

theorem coord_format_chars (q : ℚ) (is_lat : Bool) (c : Char)
    (hc : c ∈ (format_decimal_degrees_to_cup q is_lat).data) :
    c.isDigit = true ∨ c = '.' ∨ c = 'N' ∨ c = 'S' ∨ c = 'E' ∨ c = 'W' := by
  unfold format_decimal_degrees_to_cup at hc
  dsimp only at hc
  rw [String.data_append, String.data_append] at hc
  have hdm : (0 : ℚ) ≤ (|q| - ((⌊|q|⌋.toNat : ℕ) : ℚ)) * 60 := by
    have h1 : ((⌊|q|⌋.toNat : ℕ) : ℚ) = ((⌊|q|⌋ : ℤ) : ℚ) := by
      exact_mod_cast Int.toNat_of_nonneg (Int.floor_nonneg.mpr (abs_nonneg q))
    have h2 : ((⌊|q|⌋ : ℤ) : ℚ) ≤ |q| := Int.floor_le |q|
    nlinarith
  rcases List.mem_append.mp hc with hc | hc
  · rcases List.mem_append.mp hc with hc | hc
    · exact Or.inl (padZeros_all_digits _ _ (natDigits_all_digits _) c hc)
    · rcases format063_chars _ hdm c hc with h | h
      · exact Or.inl h
      · exact Or.inr (Or.inl h)
  · rcases List.mem_cons.mp hc with rfl | hc
    · by_cases hl : is_lat = true
      · rw [if_pos hl]
        by_cases h0 : 0 ≤ q
        · rw [if_pos h0]; right; right; left; rfl
        · rw [if_neg h0]; right; right; right; left; rfl
      · rw [if_neg hl]
        by_cases h0 : 0 ≤ q
        · rw [if_pos h0]; right; right; right; right; left; rfl
        · rw [if_neg h0]; right; right; right; right; right; rfl
    · exact absurd hc (List.not_mem_nil c)

theorem intStr_chars (z : ℤ) (c : Char) (hc : c ∈ (intStr z).data) :
    c.isDigit = true ∨ c = '-' := by
  unfold intStr at hc
  by_cases hz : z < 0
  · rw [if_pos hz] at hc
    rcases List.mem_cons.mp hc with rfl | hc
    · exact Or.inr rfl
    · exact Or.inl (natDigits_all_digits _ c hc)
  · rw [if_neg hz] at hc
    exact Or.inl (natDigits_all_digits _ c hc)

/-- The character classes occurring in numeric CUP fields are inert for
CSV quoting, whitespace stripping and line splitting. -/
theorem char_class_clean (c : Char)
    (h : c.isDigit = true ∨ c = '.' ∨ c = 'N' ∨ c = 'S' ∨ c = 'E' ∨ c = 'W' ∨ c = '-') :
    (c == '"') = false ∧ pyIsSpace c = false ∧ (c == ',') = false ∧
    (c == '\r') = false ∧ (c == '\n') = false := by
  rcases h with h | h
  · have hf := digit_char_facts h
    refine ⟨?_, hf.2.2.2.2.2.2.2.2.2, ?_, ?_, ?_⟩
    · simp [hf.2.2.2.2.1]
    · simp [hf.2.2.2.1]
    · simp [hf.2.2.2.2.2.1]
    · simp [hf.2.2.2.2.2.2.1]
  · rcases h with rfl | rfl | rfl | rfl | rfl | rfl <;> exact ⟨rfl, rfl, rfl, rfl, rfl⟩

/-- The inner quote-doubling of `csvQuote`, with empty initial
accumulator. -/
def doubledChars (cs : List Char) : List Char :=
  cs.foldr (fun c acc => if c == '"' then '"' :: '"' :: acc else c :: acc) []

theorem foldr_quote_init (cs : List Char) (init : List Char) :
    cs.foldr (fun c acc => if c == '"' then '"' :: '"' :: acc else c :: acc) init =
      doubledChars cs ++ init := by
  induction cs with
  | nil => rfl
  | cons c cs ih =>
    show (if c == '"' then '"' :: '"' :: cs.foldr _ init else c :: cs.foldr _ init) = _
    rw [ih]
    by_cases hc : (c == '"') = true
    · rw [if_pos hc]
      rw [show doubledChars (c :: cs) = '"' :: '"' :: doubledChars cs from by
        unfold doubledChars
        rw [List.foldr_cons, if_pos hc]]
      rfl
    · rw [if_neg hc]
      rw [show doubledChars (c :: cs) = c :: doubledChars cs from by
        unfold doubledChars
        rw [List.foldr_cons, if_neg hc]]
      rfl

theorem csvQuote_data (f : String) :
    (csvQuote f).data = '"' :: (doubledChars f.data ++ ['"']) := by
  unfold csvQuote
  rw [show (String.mk ('"' :: f.data.foldr
    (fun c acc => if c == '"' then '"' :: '"' :: acc else c :: acc) ['"'])).data =
    '"' :: f.data.foldr
      (fun c acc => if c == '"' then '"' :: '"' :: acc else c :: acc) ['"'] from rfl]
  rw [foldr_quote_init]

theorem csvReadAux_plain (F : List Char)
    (hF : ∀ c ∈ F, (c == '"') = false ∧ (c == ',') = false) :
    ∀ (rest : List Char) (fields : List String) (curr : List Char),
      csvReadAux (F ++ rest) .inField curr fields =
        csvReadAux rest .inField (F.reverse ++ curr) fields := by
  induction F with
  | nil => intro rest fields curr; rfl
  | cons c F ih =>
    intro rest fields curr
    have hc := hF c (List.mem_cons_self c F)
    show (if (c == ',') = true then _ else
      csvReadAux (F ++ rest) .inField (c :: curr) fields) = _
    rw [if_neg (by rw [hc.2]; exact Bool.false_ne_true)]
    rw [ih (fun x hx => hF x (List.mem_cons_of_mem c hx)) rest fields (c :: curr)]
    rw [List.reverse_cons, List.append_assoc]
    rfl

theorem csvReadAux_quoted (F : List Char) :
    ∀ (rest : List Char) (fields : List String) (curr : List Char),
      csvReadAux (doubledChars F ++ rest) .inQuoted curr fields =
        csvReadAux rest .inQuoted (F.reverse ++ curr) fields := by
  induction F with
  | nil => intro rest fields curr; rfl
  | cons c F ih =>
    intro rest fields curr
    by_cases hc : (c == '"') = true
    · rw [show doubledChars (c :: F) = '"' :: '"' :: doubledChars F from by
        unfold doubledChars
        rw [List.foldr_cons, if_pos hc]]
      show csvReadAux ('"' :: '"' :: (doubledChars F ++ rest)) .inQuoted curr fields = _
      show csvReadAux ('"' :: (doubledChars F ++ rest)) .quoteInQuoted curr fields = _
      show csvReadAux (doubledChars F ++ rest) .inQuoted ('"' :: curr) fields = _
      rw [ih rest fields ('"' :: curr)]
      rw [show c = '"' from by simpa using hc]
      rw [List.reverse_cons, List.append_assoc]
      rfl
    · rw [show doubledChars (c :: F) = c :: doubledChars F from by
        unfold doubledChars
        rw [List.foldr_cons, if_neg hc]]
      show (if (c == '"') = true then _
        else csvReadAux (doubledChars F ++ rest) .inQuoted (c :: curr) fields) = _
      rw [if_neg hc]
      rw [ih rest fields (c :: curr)]
      rw [List.reverse_cons, List.append_assoc]
      rfl

theorem not_needsQuote_chars (f : String) (h : csvNeedsQuote f = false) :
    ∀ c ∈ f.data, (c == '"') = false ∧ (c == ',') = false := by
  intro c hc
  unfold csvNeedsQuote at h
  rw [List.any_eq_false] at h
  have hx := h c hc
  simp only [Bool.or_eq_true, not_or, Bool.not_eq_true] at hx
  exact ⟨hx.1.1.2, hx.1.1.1⟩

theorem csvReadAux_one_field_comma (f : String) (rest : List Char) (acc : List String) :
    csvReadAux ((csvWriteField f).data ++ ',' :: rest) .startField [] acc =
      csvReadAux rest .startField [] (acc ++ [f]) := by
  by_cases hq : csvNeedsQuote f = true
  · rw [show csvWriteField f = csvQuote f from by unfold csvWriteField; rw [hq]; rfl]
    rw [csvQuote_data]
    show csvReadAux ('"' :: ((doubledChars f.data ++ ['"']) ++ ',' :: rest))
      .startField [] acc = _
    show csvReadAux ((doubledChars f.data ++ ['"']) ++ ',' :: rest) .inQuoted [] acc = _
    rw [List.append_assoc]
    rw [csvReadAux_quoted f.data (['"'] ++ ',' :: rest) acc []]
    have hstep : csvReadAux (['"'] ++ ',' :: rest) .inQuoted (f.data.reverse ++ []) acc =
        csvReadAux rest .startField [] (acc ++ [⟨(f.data.reverse ++ []).reverse⟩]) := rfl
    rw [hstep, List.append_nil, List.reverse_reverse]
  · have hplain := not_needsQuote_chars f (by simpa using hq)
    rw [show csvWriteField f = f from by unfold csvWriteField; rw [if_neg hq]]
    cases hf : f.data with
    | nil =>
      have hfe : f = "" := congrArg String.mk hf
      show csvReadAux (',' :: rest) .startField [] acc = _
      show csvReadAux rest .startField [] (acc ++ [""]) = _
      rw [hfe]
    | cons c F =>
      have hc := hplain c (by rw [hf]; exact List.mem_cons_self c F)
      show csvReadAux (c :: (F ++ ',' :: rest)) .startField [] acc = _
      show (if (c == '"') = true then _
        else if (c == ',') = true then _
        else csvReadAux (F ++ ',' :: rest) .inField (c :: []) acc) = _
      rw [if_neg (by rw [hc.1]; exact Bool.false_ne_true),
        if_neg (by rw [hc.2]; exact Bool.false_ne_true)]
      rw [csvReadAux_plain F (fun x hx => hplain x (by rw [hf]; exact List.mem_cons_of_mem c hx))
        (',' :: rest) acc [c]]
      show csvReadAux rest .startField [] (acc ++ [⟨(F.reverse ++ [c]).reverse⟩]) = _
      rw [List.reverse_append, List.reverse_reverse]
      have hfc : f = ⟨c :: F⟩ := congrArg String.mk hf
      rw [hfc]
      rfl

theorem csvReadAux_one_field_end (f : String) (acc : List String) (hacc : acc ≠ []) :
    csvReadAux (csvWriteField f).data .startField [] acc = acc ++ [f] := by
  obtain ⟨a, as, rfl⟩ := List.exists_cons_of_ne_nil hacc
  by_cases hq : csvNeedsQuote f = true
  · rw [show csvWriteField f = csvQuote f from by unfold csvWriteField; rw [hq]; rfl]
    rw [csvQuote_data]
    show csvReadAux (doubledChars f.data ++ ['"']) .inQuoted [] (a :: as) = _
    rw [csvReadAux_quoted f.data ['"'] (a :: as) []]
    have hstep : csvReadAux ['"'] .inQuoted (f.data.reverse ++ []) (a :: as) =
        (a :: as) ++ [⟨(f.data.reverse ++ []).reverse⟩] := rfl
    rw [hstep, List.append_nil, List.reverse_reverse]
  · have hplain := not_needsQuote_chars f (by simpa using hq)
    rw [show csvWriteField f = f from by unfold csvWriteField; rw [if_neg hq]]
    cases hf : f.data with
    | nil =>
      have hfe : f = "" := congrArg String.mk hf
      show csvReadAux [] .startField [] (a :: as) = _
      show (a :: as) ++ [""] = _
      rw [hfe]
    | cons c F =>
      have hc := hplain c (by rw [hf]; exact List.mem_cons_self c F)
      show csvReadAux (c :: F) .startField [] (a :: as) = _
      show (if (c == '"') = true then _
        else if (c == ',') = true then _
        else csvReadAux F .inField (c :: []) (a :: as)) = _
      rw [if_neg (by rw [hc.1]; exact Bool.false_ne_true),
        if_neg (by rw [hc.2]; exact Bool.false_ne_true)]
      rw [show (F : List Char) = F ++ [] from (List.append_nil F).symm]
      rw [csvReadAux_plain F
        (fun x hx => hplain x (by rw [hf]; exact List.mem_cons_of_mem c hx)) [] (a :: as) [c]]
      show (a :: as) ++ [⟨(F.reverse ++ [c]).reverse⟩] = _
      rw [List.reverse_append, List.reverse_reverse]
      have hfc : f = ⟨c :: F⟩ := congrArg String.mk hf
      rw [hfc]
      rfl

theorem csvReadAux_fields_go (fs : List String) (hfs : fs ≠ []) :
    ∀ acc : List String, acc ≠ [] →
      csvReadAux (joinComma (fs.map csvWriteField)).data .startField [] acc =
        acc ++ fs := by
  induction fs with
  | nil => exact absurd rfl hfs
  | cons f rest ih =>
    intro acc hacc
    cases rest with
    | nil =>
      show csvReadAux (csvWriteField f).data .startField [] acc = acc ++ [f]
      exact csvReadAux_one_field_end f acc hacc
    | cons f2 rest2 =>
      show csvReadAux ((csvWriteField f ++ "," ++
        joinComma ((f2 :: rest2).map csvWriteField))).data .startField [] acc = _
      rw [String.data_append, String.data_append, List.append_assoc]
      rw [show (("," : String)).data ++
        (joinComma ((f2 :: rest2).map csvWriteField)).data =
        ',' :: (joinComma ((f2 :: rest2).map csvWriteField)).data from rfl]
      rw [csvReadAux_one_field_comma f _ acc]
      rw [ih (by simp) (acc ++ [f]) (by simp)]
      simp

theorem csvRead_writeRow (f1 f2 : String) (rest : List String) :
    csvRead (csvWriteRow (f1 :: f2 :: rest)) = f1 :: f2 :: rest := by
  unfold csvRead
  show csvReadAux ((csvWriteField f1 ++ "," ++
    joinComma ((f2 :: rest).map csvWriteField))).data .startField [] [] = _
  rw [String.data_append, String.data_append, List.append_assoc]
  rw [show (("," : String)).data ++
    (joinComma ((f2 :: rest).map csvWriteField)).data =
    ',' :: (joinComma ((f2 :: rest).map csvWriteField)).data from rfl]
  rw [csvReadAux_one_field_comma f1 _ []]
  rw [show ([] ++ [f1] : List String) = [f1] from rfl]
  rw [csvReadAux_fields_go (f2 :: rest) (by simp) [f1] (by simp)]
  rfl

theorem doubledChars_mem (cs : List Char) (c : Char) (hc : c ∈ doubledChars cs) :
    c ∈ cs := by
  induction cs with
  | nil => exact absurd hc (List.not_mem_nil c)
  | cons x cs ih =>
    by_cases hx : (x == '"') = true
    · rw [show doubledChars (x :: cs) = '"' :: '"' :: doubledChars cs from by
        unfold doubledChars
        rw [List.foldr_cons, if_pos hx]] at hc
      have hxq : x = '"' := by simpa using hx
      rcases List.mem_cons.mp hc with rfl | hc
      · rw [hxq]; exact List.mem_cons_self _ _
      · rcases List.mem_cons.mp hc with rfl | hc
        · rw [hxq]; exact List.mem_cons_self _ _
        · exact List.mem_cons_of_mem x (ih hc)
    · rw [show doubledChars (x :: cs) = x :: doubledChars cs from by
        unfold doubledChars
        rw [List.foldr_cons, if_neg hx]] at hc
      rcases List.mem_cons.mp hc with rfl | hc
      · exact List.mem_cons_self _ _
      · exact List.mem_cons_of_mem x (ih hc)

theorem csvWriteField_chars (f : String) (c : Char) (hc : c ∈ (csvWriteField f).data) :
    c = '"' ∨ c ∈ f.data := by
  by_cases hq : csvNeedsQuote f = true
  · rw [show csvWriteField f = csvQuote f from by
      unfold csvWriteField; rw [hq]; rfl] at hc
    rw [csvQuote_data] at hc
    rcases List.mem_cons.mp hc with rfl | hc
    · exact Or.inl rfl
    · rcases List.mem_append.mp hc with hc | hc
      · exact Or.inr (doubledChars_mem f.data c hc)
      · rcases List.mem_cons.mp hc with rfl | hc
        · exact Or.inl rfl
        · exact absurd hc (List.not_mem_nil c)
  · rw [show csvWriteField f = f from by unfold csvWriteField; rw [if_neg hq]] at hc
    exact Or.inr hc

theorem joinComma_chars (fs : List String) (c : Char) (hc : c ∈ (joinComma fs).data) :
    c = ',' ∨ ∃ f ∈ fs, c ∈ f.data := by
  induction fs with
  | nil => exact absurd hc (List.not_mem_nil c)
  | cons f rest ih =>
    cases rest with
    | nil => exact Or.inr ⟨f, List.mem_cons_self f [], hc⟩
    | cons f2 rest2 =>
      rw [show joinComma (f :: f2 :: rest2) =
        f ++ "," ++ joinComma (f2 :: rest2) from rfl] at hc
      rw [String.data_append, String.data_append] at hc
      rcases List.mem_append.mp hc with hc | hc
      · rcases List.mem_append.mp hc with hc | hc
        · exact Or.inr ⟨f, List.mem_cons_self f _, hc⟩
        · rcases List.mem_cons.mp hc with rfl | hc
          · exact Or.inl rfl
          · exact absurd hc (List.not_mem_nil c)
      · rcases ih hc with hc | ⟨g, hg, hcg⟩
        · exact Or.inl hc
        · exact Or.inr ⟨g, List.mem_cons_of_mem f hg, hcg⟩

theorem csvWriteRow_chars (f1 f2 : String) (rest : List String) (c : Char)
    (hc : c ∈ (csvWriteRow (f1 :: f2 :: rest)).data) :
    c = ',' ∨ c = '"' ∨ ∃ f ∈ f1 :: f2 :: rest, c ∈ f.data := by
  rw [show csvWriteRow (f1 :: f2 :: rest) =
    joinComma ((f1 :: f2 :: rest).map csvWriteField) from rfl] at hc
  rcases joinComma_chars _ c hc with hc | ⟨wf, hwf, hcw⟩
  · exact Or.inl hc
  · obtain ⟨g, hg, rfl⟩ := List.mem_map.mp hwf
    rcases csvWriteField_chars g c hcw with hc2 | hc2
    · exact Or.inr (Or.inl hc2)
    · exact Or.inr (Or.inr ⟨g, hg, hc2⟩)

theorem splitlinesAux_other (c : Char) (cs : List Char) (acc : List Char)
    (h1 : c ≠ '\n') (h2 : c ≠ '\r') :
    splitlinesAux (c :: cs) acc = splitlinesAux cs (c :: acc) := by
  rw [splitlinesAux.eq_def]
  split
  · rename_i heq
    exact absurd heq (by simp)
  · rename_i heq
    exfalso
    rw [List.cons.injEq] at heq
    exact h2 heq.1
  · rename_i heq
    exfalso
    rw [List.cons.injEq] at heq
    exact h2 heq.1
  · rename_i heq
    exfalso
    rw [List.cons.injEq] at heq
    exact h1 heq.1
  · rename_i heq
    rw [List.cons.injEq] at heq
    obtain ⟨rfl, rfl⟩ := heq
    rfl

theorem splitlinesAux_line (a : List Char) (rest : List Char)
    (ha : ∀ c ∈ a, c ≠ '\n' ∧ c ≠ '\r') :
    ∀ acc, splitlinesAux (a ++ '\n' :: rest) acc =
      ⟨acc.reverse ++ a⟩ :: splitlinesAux rest [] := by
  induction a with
  | nil =>
    intro acc
    show ⟨acc.reverse⟩ :: splitlinesAux rest [] = _
    rw [List.append_nil]
  | cons c a ih =>
    intro acc
    have hc := ha c (List.mem_cons_self c a)
    show splitlinesAux (c :: (a ++ '\n' :: rest)) acc = _
    rw [splitlinesAux_other c _ acc hc.1 hc.2]
    rw [ih (fun x hx => ha x (List.mem_cons_of_mem c hx)) (c :: acc)]
    rw [List.reverse_cons, List.append_assoc]
    rfl

theorem splitlines_append_line (a rest : String)
    (ha : ∀ c ∈ a.data, c ≠ '\n' ∧ c ≠ '\r') :
    splitlines (a ++ "\n" ++ rest) = a :: splitlines rest := by
  unfold splitlines
  rw [String.data_append, String.data_append]
  rw [show (("\n" : String)).data = ['\n'] from rfl]
  rw [List.append_assoc]
  rw [show (['\n'] ++ rest.data : List Char) = '\n' :: rest.data from rfl]
  rw [splitlinesAux_line a.data rest.data ha []]
  rfl

theorem splitlinesAux_noterm (cs : List Char)
    (h : ∀ c ∈ cs, c ≠ '\n' ∧ c ≠ '\r') :
    ∀ acc, splitlinesAux cs acc =
      if (acc.isEmpty && cs.isEmpty) = true then [] else [⟨acc.reverse ++ cs⟩] := by
  induction cs with
  | nil =>
    intro acc
    by_cases ha : acc.isEmpty = true
    · rw [show splitlinesAux [] acc = if acc.isEmpty then [] else [⟨acc.reverse⟩] from rfl]
      rw [ha]
      rfl
    · rw [show splitlinesAux [] acc = if acc.isEmpty then [] else [⟨acc.reverse⟩] from rfl]
      rw [show acc.isEmpty = false from by simpa using ha]
      show [(⟨acc.reverse⟩ : String)] = if (false && List.isEmpty []) = true then _
        else [⟨acc.reverse ++ []⟩]
      rw [List.append_nil]
      rfl
  | cons c cs ih =>
    intro acc
    have hc := h c (List.mem_cons_self c cs)
    rw [splitlinesAux_other c cs acc hc.1 hc.2]
    rw [ih (fun x hx => h x (List.mem_cons_of_mem c hx)) (c :: acc)]
    rw [show ((c :: acc).isEmpty && cs.isEmpty) = false from by simp]
    rw [show (acc.isEmpty && (c :: cs).isEmpty) = false from by simp]
    rw [List.reverse_cons, List.append_assoc]
    rfl

theorem splitlines_noterm (s : String) (hs : s ≠ "")
    (h : ∀ c ∈ s.data, c ≠ '\n' ∧ c ≠ '\r') :
    splitlines s = [s] := by
  unfold splitlines
  rw [splitlinesAux_noterm s.data h []]
  have hd : s.data ≠ [] := by
    intro h0
    exact hs (congrArg String.mk h0)
  rw [show (List.isEmpty ([] : List Char) && s.data.isEmpty) = false from by
    simp [List.isEmpty_iff, hd]]
  rfl

theorem splitlines_intercalate (ts : List String)
    (h : ∀ t ∈ ts, ∀ c ∈ t.data, c ≠ '\n' ∧ c ≠ '\r')
    (hlast : ts.getLast? ≠ some "") :
    splitlines (intercalateNL ts) = ts := by
  induction ts with
  | nil => rfl
  | cons t rest ih =>
    cases rest with
    | nil =>
      have ht : t ≠ "" := by
        intro h0
        apply hlast
        rw [h0]
        rfl
      show splitlines t = [t]
      exact splitlines_noterm t ht (h t (List.mem_cons_self t []))
    | cons t2 rest2 =>
      show splitlines (t ++ "\n" ++ intercalateNL (t2 :: rest2)) = t :: t2 :: rest2
      rw [splitlines_append_line t _ (h t (List.mem_cons_self t _))]
      rw [ih (fun x hx => h x (List.mem_cons_of_mem t hx))
        (by rw [← List.getLast?_cons_cons]; exact hlast)]

/-! ### Waypoints stable under serialize-then-parse (C2) -/

/-- A stored string field as produced by a successful parse and safe to
round-trip: nonempty, whitespace-stripped, not quote-edged, and free of
line terminators. -/
def StrOK (s : String) : Prop :=
  s ≠ "" ∧ pyStrip s = s ∧ stripQuotes s = s ∧
  ∀ c ∈ s.data, c ≠ '\n' ∧ c ≠ '\r'

def OptStrOK : Option String → Prop
  | .none => True
  | some s => StrOK s

def CountryOK (countries : String → Bool) : Option String → Prop
  | .none => True
  | some c => c.length = 2 ∧ c ≠ "--" ∧ pyUpper c = c ∧ countries c = true ∧ StrOK c

def StyleOK : Option ℤ → Prop
  | .none => True
  | some z => is_valid_style_int z = true

/-- The per-waypoint conditions under which the serialized CSV row
reparses to the identical stored waypoint.  The structural conditions
(stripped strings, coordinate shape, consistent `coordinates` pair,
`"m"` units on absent distances) hold for every waypoint produced by
`parse_waypoint_line`; the remaining ones (no quote-edged or
`#`-leading name, distance fields absent) mark the genuinely lossy
corners of the codec. -/
def WaypointOK (countries : String → Bool) (w : CupWaypoint) : Prop :=
  (∃ s, w.name = some s ∧ StrOK s ∧ s.startsWith ("#") = false) ∧
  OptStrOK w.code ∧ CountryOK countries w.country ∧
  CoordOK true w.lat ∧ CoordOK false w.lon ∧
  w.coordinates = (w.lon, w.lat) ∧
  w.elev = .none ∧ w.og_elev_unit = "m" ∧
  w.rwlen = .none ∧ w.og_rwlen_unit = "m" ∧
  w.rwwidth = .none ∧ w.og_rwwidth_unit = "m" ∧
  StyleOK w.style ∧
  OptStrOK w.freq ∧ OptStrOK w.desc ∧ OptStrOK w.userdata ∧ OptStrOK w.pics

theorem set_string_attr_ok (s attr : String) (hs : pyStrip s = s) (hne : s ≠ "") :
    set_string_attr (.str s) .none attr = .ok (some s) := by
  unfold set_string_attr
  have ht : Inp.truthy (.str s) = true := by simp [Inp.truthy, hne]
  rw [ht]
  show Except.ok (some (pyStrip s)) = _
  rw [hs]

theorem set_string_attr_empty (vali : Option (String → Bool)) (attr : String) :
    set_string_attr (.str "") vali attr = .ok .none := rfl

theorem set_string_attr_freq (s : String) (hs : pyStrip s = s) (hne : s ≠ "") :
    set_string_attr (.str s) (some is_valid_cup_freq) ("freq") = .ok (some s) := by
  unfold set_string_attr
  have ht : Inp.truthy (.str s) = true := by simp [Inp.truthy, hne]
  rw [ht]
  show (if is_valid_cup_freq s = true then Except.ok (some (pyStrip s)) else _) = _
  rw [if_pos (by simp [is_valid_cup_freq])]
  rw [hs]

theorem set_country_empty (countries : String → Bool) :
    set_country countries (.str "") = .ok .none := rfl

theorem set_country_ok (countries : String → Bool) (c : String)
    (h : CountryOK countries (some c)) :
    set_country countries (.str c) = .ok (some c) := by
  obtain ⟨hlen, hne2, hup, hctr, hok⟩ := h
  unfold set_country
  have ht : Inp.truthy (.str c) = true := by simp [Inp.truthy, hok.1]
  rw [ht]
  show (if c.length = 2 then _ else _) = _
  rw [if_pos hlen, if_neg hne2, hup, hctr]
  show set_string_attr (.str c) .none ("country") = _
  exact set_string_attr_ok c ("country") hok.2.1 hok.1

theorem set_distance_attr_empty (attr : String) :
    set_distance_attr (.str "") attr = .ok (.none, "m") := rfl

theorem set_integer_attr_empty (vali : Option ((ℤ → Bool) × (String → Bool)))
    (attr : String) :
    set_integer_attr (.str "") vali attr = .ok .none := rfl

theorem intStr_ne_empty (z : ℤ) : intStr z ≠ "" := by
  unfold intStr
  by_cases hz : z < 0
  · rw [if_pos hz]
    intro h0
    have : ("-" ++ natStr z.natAbs).data = [] := congrArg String.data h0
    rw [show ("-" ++ natStr z.natAbs).data = '-' :: (natStr z.natAbs).data from rfl] at this
    exact absurd this (by simp)
  · rw [if_neg hz]
    intro h0
    have : (natStr z.natAbs).data = [] := congrArg String.data h0
    exact natDigits_ne_nil _ this

theorem set_integer_attr_style (z : ℤ) (hz : is_valid_style_int z = true) :
    set_integer_attr (.str (intStr z)) (some styleVali) ("style") = .ok (some z) := by
  unfold set_integer_attr
  have ht : Inp.truthy (.str (intStr z)) = true := by
    simp [Inp.truthy, intStr_ne_empty z]
  rw [ht]
  show (if is_valid_style_str (intStr z) = true then _ else _) = _
  rw [if_pos (style_str_revalidates z hz)]
  rw [pyInt_intStr z]

theorem set_integer_attr_plain (z : ℤ) (attr : String) :
    set_integer_attr (.str (intStr z)) .none attr = .ok (some z) := by
  unfold set_integer_attr
  have ht : Inp.truthy (.str (intStr z)) = true := by
    simp [Inp.truthy, intStr_ne_empty z]
  rw [ht]
  show (match pyInt (intStr z) with
    | some z => Except.ok (some z)
    | .none => Except.error (("invalid literal for int(): ") ++ intStr z)) = _
  rw [pyInt_intStr z]

theorem set_string_attr_roundtrip (o : Option String) (attr : String)
    (ho : OptStrOK o) :
    set_string_attr (.str (o.getD "")) .none attr = .ok o := by
  cases o with
  | none => exact set_string_attr_empty .none attr
  | some s =>
    show set_string_attr (.str s) .none attr = .ok (some s)
    exact set_string_attr_ok s attr ho.2.1 ho.1

theorem set_string_attr_freq_roundtrip (o : Option String) (ho : OptStrOK o) :
    set_string_attr (.str (o.getD "")) (some is_valid_cup_freq) ("freq") = .ok o := by
  cases o with
  | none => exact set_string_attr_empty _ _
  | some s =>
    show set_string_attr (.str s) (some is_valid_cup_freq) ("freq") = .ok (some s)
    exact set_string_attr_freq s ho.2.1 ho.1

theorem set_country_roundtrip (countries : String → Bool) (o : Option String)
    (ho : CountryOK countries o) :
    set_country countries (.str (o.getD "")) = .ok o := by
  cases o with
  | none => exact set_country_empty countries
  | some c =>
    show set_country countries (.str c) = .ok (some c)
    exact set_country_ok countries c ho

theorem set_integer_attr_style_roundtrip (o : Option ℤ) (ho : StyleOK o) :
    set_integer_attr (.str ((o.map intStr).getD "")) (some styleVali) ("style") =
      .ok o := by
  cases o with
  | none => exact set_integer_attr_empty _ _
  | some z =>
    show set_integer_attr (.str (intStr z)) (some styleVali) ("style") = .ok (some z)
    exact set_integer_attr_style z ho

theorem set_integer_attr_rwdir_roundtrip (o : Option ℤ) :
    set_integer_attr (.str ((o.map intStr).getD "")) .none ("rwdir") = .ok o := by
  cases o with
  | none => exact set_integer_attr_empty _ _
  | some z =>
    show set_integer_attr (.str (intStr z)) .none ("rwdir") = .ok (some z)
    exact set_integer_attr_plain z ("rwdir")

theorem coord_format_ne (q : ℚ) (b : Bool) :
    format_decimal_degrees_to_cup q b ≠ "" := by
  intro h0
  have hd := congrArg String.data h0
  unfold format_decimal_degrees_to_cup at hd
  rw [String.data_append, String.data_append] at hd
  simp at hd

theorem update_coordinates_format (la lo : ℚ)
    (hla : CoordOK true la) (hlo : CoordOK false lo) :
    update_coordinates emptyWaypoint
      (.str (format_decimal_degrees_to_cup la true))
      (.str (format_decimal_degrees_to_cup lo false)) =
      ({ emptyWaypoint with lat := la, lon := lo, coordinates := (lo, la) }, .none) := by
  unfold update_coordinates
  rw [show (isCoordType (.str (format_decimal_degrees_to_cup la true)) &&
    isCoordType (.str (format_decimal_degrees_to_cup lo false))) = true from rfl]
  rw [if_pos rfl]
  rw [show coordValue (.str (format_decimal_degrees_to_cup la true)) =
    convert_lat_lon_to_dd (format_decimal_degrees_to_cup la true) from rfl]
  rw [convert_format_lat la hla]
  dsimp only
  rw [show coordValue (.str (format_decimal_degrees_to_cup lo false)) =
    convert_lat_lon_to_dd (format_decimal_degrees_to_cup lo false) from rfl]
  rw [convert_format_lon lo hlo]
  dsimp only
  have hlaR : |la| ≤ 90 := hla.2
  have hloR : |lo| ≤ 180 := hlo.2
  have h1 : (decide (-90 ≤ la) && decide (la ≤ 90)) = true := by
    have h := abs_le.mp hlaR
    simp [h.1, h.2]
  have h2 : (decide (-180 ≤ lo) && decide (lo ≤ 180)) = true := by
    have h := abs_le.mp hloR
    simp [h.1, h.2]
  rw [h1, h2]
  rfl

theorem waypoint_eta (w : CupWaypoint) (s : String) (hnm : w.name = some s)
    (hcoords : w.coordinates = (w.lon, w.lat))
    (hev : w.elev = .none) (heu : w.og_elev_unit = "m")
    (hrl : w.rwlen = .none) (hru : w.og_rwlen_unit = "m")
    (hrw : w.rwwidth = .none) (hwu : w.og_rwwidth_unit = "m") :
    ({ name := some s, code := w.code, country := w.country, lat := w.lat,
       lon := w.lon, coordinates := (w.lon, w.lat), elev := .none,
       og_elev_unit := "m", style := w.style, rwdir := w.rwdir, rwlen := .none,
       og_rwlen_unit := "m", rwwidth := .none, og_rwwidth_unit := "m",
       freq := w.freq, desc := w.desc, userdata := w.userdata,
       pics := w.pics } : CupWaypoint) = w := by
  obtain ⟨nm, cd, ct, la, lo, coords, ev, eu, st, rd, rl, ru, rww, wu, fq, dc, ud, pc⟩ := w
  dsimp only at hnm hcoords hev heu hrl hru hrw hwu ⊢
  rw [hnm, hcoords, hev, heu, hrl, hru, hrw, hwu]

theorem mkCupWaypoint_format (countries : String → Bool) (w : CupWaypoint)
    (hw : WaypointOK countries w) :
    mkCupWaypoint countries
      (.str (format_attr w .name)) (.str (format_attr w .lat))
      (.str (format_attr w .lon)) (.str (format_attr w .code))
      (.str (format_attr w .country)) (.str (format_attr w .elev))
      (.str (format_attr w .style)) (.str (format_attr w .rwdir))
      (.str (format_attr w .rwlen)) (.str (format_attr w .rwwidth))
      (.str (format_attr w .freq)) (.str (format_attr w .userdata))
      (.str (format_attr w .desc)) (.str (format_attr w .pics)) = .ok w := by
  obtain ⟨hname, hcode, hctry, hlat, hlon, hcoords, hev, heu, hrl, hru, hrw, hwu,
    hstyle, hfq, hdc, hud, hpc⟩ := hw
  obtain ⟨s, hnm, hsOK, hsharp⟩ := hname
  have hfaN : format_attr w .name = s := by
    show (w.name.map id).getD "" = s
    rw [hnm]
    rfl
  unfold mkCupWaypoint
  rw [hfaN]
  have hg1 : (!(Inp.str s).truthy) = false := by simp [Inp.truthy, hsOK.1]
  rw [hg1, if_neg Bool.false_ne_true]
  have hg2 : (!(Inp.str (format_attr w .lat)).truthy ||
      !(Inp.str (format_attr w .lon)).truthy) = false := by
    show (!(Inp.str (format_decimal_degrees_to_cup w.lat true)).truthy ||
      !(Inp.str (format_decimal_degrees_to_cup w.lon false)).truthy) = false
    simp [Inp.truthy, coord_format_ne w.lat true, coord_format_ne w.lon false]
  rw [hg2, if_neg Bool.false_ne_true]
  rw [show (Inp.str (format_attr w .lat)) =
    (Inp.str (format_decimal_degrees_to_cup w.lat true)) from rfl]
  rw [show (Inp.str (format_attr w .lon)) =
    (Inp.str (format_decimal_degrees_to_cup w.lon false)) from rfl]
  rw [update_coordinates_format w.lat w.lon hlat hlon]
  dsimp only
  rw [set_string_attr_ok s ("name") hsOK.2.1 hsOK.1]
  rw [show (Inp.str (format_attr w .code)) = (Inp.str (w.code.getD "")) from rfl]
  rw [set_string_attr_roundtrip w.code ("code") hcode]
  rw [show (Inp.str (format_attr w .country)) = (Inp.str (w.country.getD "")) from rfl]
  rw [set_country_roundtrip countries w.country hctry]
  rw [show (Inp.str (format_attr w .elev)) = (Inp.str "") from by
    show (Inp.str (format_distance w.elev w.og_elev_unit)) = _
    rw [hev]
    rfl]
  rw [set_distance_attr_empty ("elev")]
  rw [show (Inp.str (format_attr w .style)) =
    (Inp.str ((w.style.map intStr).getD "")) from rfl]
  rw [set_integer_attr_style_roundtrip w.style hstyle]
  rw [show (Inp.str (format_attr w .rwdir)) =
    (Inp.str ((w.rwdir.map intStr).getD "")) from rfl]
  rw [set_integer_attr_rwdir_roundtrip w.rwdir]
  rw [show (Inp.str (format_attr w .rwlen)) = (Inp.str "") from by
    show (Inp.str (format_distance w.rwlen w.og_rwlen_unit)) = _
    rw [hrl]
    rfl]
  rw [set_distance_attr_empty ("rwlen")]
  rw [show (Inp.str (format_attr w .rwwidth)) = (Inp.str "") from by
    show (Inp.str (format_distance w.rwwidth w.og_rwwidth_unit)) = _
    rw [hrw]
    rfl]
  rw [set_distance_attr_empty ("rwwidth")]
  rw [show (Inp.str (format_attr w .freq)) = (Inp.str (w.freq.getD "")) from rfl]
  rw [set_string_attr_freq_roundtrip w.freq hfq]
  rw [show (Inp.str (format_attr w .desc)) = (Inp.str (w.desc.getD "")) from rfl]
  rw [set_string_attr_roundtrip w.desc ("desc") hdc]
  rw [show (Inp.str (format_attr w .userdata)) = (Inp.str (w.userdata.getD "")) from rfl]
  rw [set_string_attr_roundtrip w.userdata ("userdata") hud]
  rw [show (Inp.str (format_attr w .pics)) = (Inp.str (w.pics.getD "")) from rfl]
  rw [set_string_attr_roundtrip w.pics ("pics") hpc]
  simp only [Bind.bind, Except.bind]
  simp only [Pure.pure, Except.pure]
  exact congrArg Except.ok
    (waypoint_eta w s hnm hcoords hev heu hrl hru hrw hwu)

/-- The column position each canonical field takes in a serialized
header row. -/
def fieldIndex : CupField → ℕ
  | .name => 0 | .code => 1 | .country => 2 | .lat => 3 | .lon => 4
  | .elev => 5 | .style => 6 | .rwdir => 7 | .rwlen => 8 | .rwwidth => 9
  | .freq => 10 | .desc => 11 | .userdata => 12 | .pics => 13

def serHeader : String := joinComma (CUP_FIELDS.map CupField.fieldName)

set_option maxHeartbeats 1000000 in
theorem serHeader_cols :
    find_column_indices (csvRead serHeader) = fun f => some (fieldIndex f) := by
  funext f
  cases f <;> with_unfolding_all rfl

theorem strok_token_id (s : String) (h : StrOK s) :
    pyStrip (stripQuotes s) = s := by
  rw [h.2.2.1, h.2.1]

theorem optstr_token_id (o : Option String) (ho : OptStrOK o) :
    pyStrip (stripQuotes (o.getD "")) = o.getD "" := by
  cases o with
  | none => rfl
  | some s => exact strok_token_id s ho

theorem coord_token_id (q : ℚ) (b : Bool) :
    pyStrip (stripQuotes (format_decimal_degrees_to_cup q b)) =
      format_decimal_degrees_to_cup q b := by
  have hch : ∀ c ∈ (format_decimal_degrees_to_cup q b).data,
      (c == '"') = false ∧ pyIsSpace c = false := by
    intro c hc
    have h6 := coord_format_chars q b c hc
    have h7 := char_class_clean c (by tauto)
    exact ⟨h7.1, h7.2.1⟩
  rw [stripQuotes_id _ (fun c hc => (hch c hc).1),
    pyStrip_id _ (fun c hc => (hch c hc).2)]

theorem intStr_token_id (z : ℤ) :
    pyStrip (stripQuotes (intStr z)) = intStr z := by
  have hch : ∀ c ∈ (intStr z).data, (c == '"') = false ∧ pyIsSpace c = false := by
    intro c hc
    have h6 := intStr_chars z c hc
    have h7 := char_class_clean c (by tauto)
    exact ⟨h7.1, h7.2.1⟩
  rw [stripQuotes_id _ (fun c hc => (hch c hc).1),
    pyStrip_id _ (fun c hc => (hch c hc).2)]

theorem optint_token_id (o : Option ℤ) :
    pyStrip (stripQuotes ((o.map intStr).getD "")) = (o.map intStr).getD "" := by
  cases o with
  | none => rfl
  | some z => exact intStr_token_id z

theorem format_attr_token_id (countries : String → Bool) (w : CupWaypoint)
    (hw : WaypointOK countries w) (f : CupField) :
    pyStrip (stripQuotes (format_attr w f)) = format_attr w f := by
  obtain ⟨hname, hcode, hctry, hlat, hlon, hcoords, hev, heu, hrl, hru, hrw, hwu,
    hstyle, hfq, hdc, hud, hpc⟩ := hw
  cases f with
  | name =>
    obtain ⟨s, hnm, hsOK, -⟩ := hname
    show pyStrip (stripQuotes ((w.name.map id).getD "")) = (w.name.map id).getD ""
    rw [hnm]
    exact strok_token_id s hsOK
  | code => exact optstr_token_id w.code hcode
  | country =>
    show pyStrip (stripQuotes (w.country.getD "")) = w.country.getD ""
    cases hc : w.country with
    | none => rfl
    | some c =>
      rw [hc] at hctry
      exact strok_token_id c hctry.2.2.2.2
  | lat => exact coord_token_id w.lat true
  | lon => exact coord_token_id w.lon false
  | elev =>
    show pyStrip (stripQuotes (format_distance w.elev w.og_elev_unit)) =
      format_distance w.elev w.og_elev_unit
    rw [hev]
    rfl
  | rwlen =>
    show pyStrip (stripQuotes (format_distance w.rwlen w.og_rwlen_unit)) =
      format_distance w.rwlen w.og_rwlen_unit
    rw [hrl]
    rfl
  | rwwidth =>
    show pyStrip (stripQuotes (format_distance w.rwwidth w.og_rwwidth_unit)) =
      format_distance w.rwwidth w.og_rwwidth_unit
    rw [hrw]
    rfl
  | style => exact optint_token_id w.style
  | rwdir => exact optint_token_id w.rwdir
  | freq => exact optstr_token_id w.freq hfq
  | desc => exact optstr_token_id w.desc hdc
  | userdata => exact optstr_token_id w.userdata hud
  | pics => exact optstr_token_id w.pics hpc

theorem parse_format_row (countries : String → Bool) (w : CupWaypoint)
    (hw : WaypointOK countries w) :
    parse_waypoint_line countries (CUP_FIELDS.map (format_attr w))
      (fun f => some (fieldIndex f)) = .ok w := by
  unfold parse_waypoint_line
  simp only [CUP_FIELDS, List.map, List.get?, fieldIndex, Bind.bind, Except.bind]
  rw [format_attr_token_id countries w hw .name, format_attr_token_id countries w hw .lat,
    format_attr_token_id countries w hw .lon, format_attr_token_id countries w hw .code,
    format_attr_token_id countries w hw .country, format_attr_token_id countries w hw .elev,
    format_attr_token_id countries w hw .style, format_attr_token_id countries w hw .rwdir,
    format_attr_token_id countries w hw .rwlen, format_attr_token_id countries w hw .rwwidth,
    format_attr_token_id countries w hw .freq, format_attr_token_id countries w hw .userdata,
    format_attr_token_id countries w hw .desc, format_attr_token_id countries w hw .pics]
  exact mkCupWaypoint_format countries w hw

theorem format_attr_no_crlf (countries : String → Bool) (w : CupWaypoint)
    (hw : WaypointOK countries w) (f : CupField) :
    ∀ c ∈ (format_attr w f).data, c ≠ '\n' ∧ c ≠ '\r' := by
  obtain ⟨hname, hcode, hctry, hlat, hlon, hcoords, hev, heu, hrl, hru, hrw, hwu,
    hstyle, hfq, hdc, hud, hpc⟩ := hw
  have hopt : ∀ (o : Option String), OptStrOK o →
      ∀ c ∈ (o.getD "").data, c ≠ '\n' ∧ c ≠ '\r' := by
    intro o ho c hc
    cases o with
    | none => exact absurd hc (List.not_mem_nil c)
    | some s => exact ⟨(ho.2.2.2 c hc).1, (ho.2.2.2 c hc).2⟩
  have hcoord : ∀ (q : ℚ) (b : Bool),
      ∀ c ∈ (format_decimal_degrees_to_cup q b).data, c ≠ '\n' ∧ c ≠ '\r' := by
    intro q b c hc
    have h7 := char_class_clean c (by rcases coord_format_chars q b c hc with h|h|h|h|h|h <;> tauto)
    exact ⟨by simpa using h7.2.2.2.2, by simpa using h7.2.2.2.1⟩
  have hint : ∀ (o : Option ℤ), ∀ c ∈ ((o.map intStr).getD "").data, c ≠ '\n' ∧ c ≠ '\r' := by
    intro o c hc
    cases o with
    | none => exact absurd hc (List.not_mem_nil c)
    | some z =>
      have h7 := char_class_clean c (by rcases intStr_chars z c hc with h|h <;> tauto)
      exact ⟨by simpa using h7.2.2.2.2, by simpa using h7.2.2.2.1⟩
  cases f with
  | name =>
    obtain ⟨s, hnm, hsOK, -⟩ := hname
    show ∀ c ∈ ((w.name.map id).getD "").data, _
    rw [hnm]
    intro c hc
    exact ⟨(hsOK.2.2.2 c hc).1, (hsOK.2.2.2 c hc).2⟩
  | code => exact hopt w.code hcode
  | country =>
    show ∀ c ∈ (w.country.getD "").data, _
    cases hc2 : w.country with
    | none => intro c hc; exact absurd hc (List.not_mem_nil c)
    | some cc =>
      rw [hc2] at hctry
      intro c hc
      exact ⟨(hctry.2.2.2.2.2.2.2 c hc).1, (hctry.2.2.2.2.2.2.2 c hc).2⟩
  | lat => exact hcoord w.lat true
  | lon => exact hcoord w.lon false
  | elev =>
    show ∀ c ∈ (format_distance w.elev w.og_elev_unit).data, _
    rw [hev]
    intro c hc
    exact absurd hc (List.not_mem_nil c)
  | rwlen =>
    show ∀ c ∈ (format_distance w.rwlen w.og_rwlen_unit).data, _
    rw [hrl]
    intro c hc
    exact absurd hc (List.not_mem_nil c)
  | rwwidth =>
    show ∀ c ∈ (format_distance w.rwwidth w.og_rwwidth_unit).data, _
    rw [hrw]
    intro c hc
    exact absurd hc (List.not_mem_nil c)
  | style => exact hint w.style
  | rwdir => exact hint w.rwdir
  | freq => exact hopt w.freq hfq
  | desc => exact hopt w.desc hdc
  | userdata => exact hopt w.userdata hud
  | pics => exact hopt w.pics hpc

theorem row_chars_clean (countries : String → Bool) (w : CupWaypoint)
    (hw : WaypointOK countries w) :
    ∀ c ∈ (csvWriteRow (CUP_FIELDS.map (format_attr w))).data,
      ((c == '\r' || c == '\n') = false) := by
  intro c hc
  rw [show CUP_FIELDS.map (format_attr w) =
    format_attr w .name :: format_attr w .code :: [format_attr w .country,
      format_attr w .lat, format_attr w .lon, format_attr w .elev,
      format_attr w .style, format_attr w .rwdir, format_attr w .rwlen,
      format_attr w .rwwidth, format_attr w .freq, format_attr w .desc,
      format_attr w .userdata, format_attr w .pics] from rfl] at hc
  rcases csvWriteRow_chars _ _ _ c hc with rfl | rfl | ⟨g, hg, hcg⟩
  · rfl
  · rfl
  · have hgf : ∃ f : CupField, g = format_attr w f := by
      simp only [List.mem_cons, List.not_mem_nil, or_false] at hg
      rcases hg with rfl|rfl|rfl|rfl|rfl|rfl|rfl|rfl|rfl|rfl|rfl|rfl|rfl|rfl
      · exact ⟨.name, rfl⟩
      · exact ⟨.code, rfl⟩
      · exact ⟨.country, rfl⟩
      · exact ⟨.lat, rfl⟩
      · exact ⟨.lon, rfl⟩
      · exact ⟨.elev, rfl⟩
      · exact ⟨.style, rfl⟩
      · exact ⟨.rwdir, rfl⟩
      · exact ⟨.rwlen, rfl⟩
      · exact ⟨.rwwidth, rfl⟩
      · exact ⟨.freq, rfl⟩
      · exact ⟨.desc, rfl⟩
      · exact ⟨.userdata, rfl⟩
      · exact ⟨.pics, rfl⟩
    obtain ⟨f, rfl⟩ := hgf
    have := format_attr_no_crlf countries w hw f c hcg
    simp [this.1, this.2]

theorem wpt_str_row (countries : String → Bool) (w : CupWaypoint)
    (hw : WaypointOK countries w) :
    wpt_str w = csvWriteRow (CUP_FIELDS.map (format_attr w)) := by
  unfold wpt_str
  rw [stripBoth_id _ _ (row_chars_clean countries w hw)]

theorem csvRead_wpt_str (countries : String → Bool) (w : CupWaypoint)
    (hw : WaypointOK countries w) :
    csvRead (wpt_str w) = CUP_FIELDS.map (format_attr w) := by
  rw [wpt_str_row countries w hw]
  rw [show CUP_FIELDS.map (format_attr w) =
    format_attr w .name :: format_attr w .code :: [format_attr w .country,
      format_attr w .lat, format_attr w .lon, format_attr w .elev,
      format_attr w .style, format_attr w .rwdir, format_attr w .rwlen,
      format_attr w .rwwidth, format_attr w .freq, format_attr w .desc,
      format_attr w .userdata, format_attr w .pics] from rfl]
  exact csvRead_writeRow _ _ _

theorem wpt_str_no_crlf (countries : String → Bool) (w : CupWaypoint)
    (hw : WaypointOK countries w) :
    ∀ c ∈ (wpt_str w).data, c ≠ '\n' ∧ c ≠ '\r' := by
  rw [wpt_str_row countries w hw]
  intro c hc
  have := row_chars_clean countries w hw c hc
  simp only [Bool.or_eq_false_iff] at this
  exact ⟨by simpa using this.2, by simpa using this.1⟩

/-- The dedup key of a serialized waypoint row: the comma-join of its
parsed CSV fields. -/
def wptKey (w : CupWaypoint) : String := joinComma (CUP_FIELDS.map (format_attr w))

/-- The serialized row must not trip the related-tasks marker scan;
automatic for parse outputs (their source line would have ended the
waypoint section). -/
def RowOK (w : CupWaypoint) : Prop :=
  strContains (pyLower (wptKey w)) ("--related tasks--") = false

/-- The collection-level conditions for a byte-stable round trip. -/
def FileOK (countries : String → Bool) (cf : CupFile) : Prop :=
  (∀ w ∈ cf.waypoints, WaypointOK countries w ∧ RowOK w) ∧
  (cf.waypoints.map wptKey).Nodup ∧
  (∀ t ∈ cf.tasks, ∀ c ∈ t.data, c ≠ '\n' ∧ c ≠ '\r') ∧
  cf.tasks.getLast? ≠ some ""

theorem splitlines_concatRows (countries : String → Bool)
    (ws : List CupWaypoint) (hws : ∀ w ∈ ws, WaypointOK countries w)
    (tail : String) :
    splitlines (concatRows ws ++ tail) = ws.map wpt_str ++ splitlines tail := by
  induction ws with
  | nil =>
    rw [show concatRows [] = "" from rfl]
    rw [show ("" ++ tail : String) = tail from by
      cases tail with
      | mk d => rfl]
    rfl
  | cons w ws ih =>
    rw [show concatRows (w :: ws) = wpt_str w ++ "\n" ++ concatRows ws from rfl]
    rw [String.append_assoc, String.append_assoc]
    rw [← String.append_assoc (wpt_str w) "\n" (concatRows ws ++ tail)]
    rw [splitlines_append_line (wpt_str w) (concatRows ws ++ tail)
      (wpt_str_no_crlf countries w (hws w (List.mem_cons_self w ws)))]
    rw [ih (fun x hx => hws x (List.mem_cons_of_mem w hx))]
    rfl

theorem splitlines_serialize (countries : String → Bool) (cf : CupFile)
    (hws : ∀ w ∈ cf.waypoints, WaypointOK countries w)
    (ht : ∀ t ∈ cf.tasks, ∀ c ∈ t.data, c ≠ '\n' ∧ c ≠ '\r')
    (hlast : cf.tasks.getLast? ≠ some "") :
    splitlines (serialize cf) =
      serHeader :: (cf.waypoints.map wpt_str ++
        "-----Related Tasks-----" :: cf.tasks) := by
  unfold serialize
  rw [show joinComma (CUP_FIELDS.map CupField.fieldName) = serHeader from rfl]
  rw [show ("-----Related Tasks-----\n" : String) =
    "-----Related Tasks-----" ++ "\n" from rfl]
  simp only [String.append_assoc]
  rw [← String.append_assoc serHeader "\n"]
  rw [splitlines_append_line serHeader _ (by decide)]
  rw [splitlines_concatRows countries cf.waypoints hws _]
  rw [← String.append_assoc ("-----Related Tasks-----" : String) "\n"]
  rw [splitlines_append_line ("-----Related Tasks-----" : String) _ (by decide)]
  congr 2
  by_cases he : cf.tasks.isEmpty = true
  · rw [if_pos he]
    rw [show cf.tasks = [] from by simpa [List.isEmpty_iff] using he]
    rfl
  · rw [if_neg he]
    exact congrArg (List.cons _) (splitlines_intercalate cf.tasks ht hlast)

theorem loadsGo_format (countries : String → Bool) (full : List String)
    (taskLines : List String) :
    ∀ (ws : List CupWaypoint) (n : ℕ) (seen : List String) (acc : List CupWaypoint),
      (∀ w ∈ ws, WaypointOK countries w ∧ RowOK w) →
      (ws.map wptKey).Nodup →
      (∀ w ∈ ws, wptKey w ∉ seen) →
      loadsGo countries full (fun f => some (fieldIndex f))
        (ws.map wpt_str ++ "-----Related Tasks-----" :: taskLines) n seen acc =
        .ok (acc.reverse ++ ws, full.drop (n + ws.length + 2)) := by
  intro ws
  induction ws with
  | nil =>
    intro n seen acc hok hnd hseen
    show loadsGo countries full (fun f => some (fieldIndex f))
      ("-----Related Tasks-----" :: taskLines) n seen acc = _
    rw [loadsGo]
    rw [show csvRead ("-----Related Tasks-----") = ["-----Related Tasks-----"] from by
      with_unfolding_all rfl]
    rw [show strContains (pyLower (joinComma ["-----Related Tasks-----"]))
      ("--related tasks--") = true from by with_unfolding_all rfl]
    rw [if_pos rfl]
    rw [List.append_nil]
    rfl
  | cons w ws ih =>
    intro n seen acc hok hnd hseen
    have hwOK := (hok w (List.mem_cons_self w ws)).1
    have hwRow := (hok w (List.mem_cons_self w ws)).2
    show loadsGo countries full (fun f => some (fieldIndex f))
      (wpt_str w :: (ws.map wpt_str ++ "-----Related Tasks-----" :: taskLines))
      n seen acc = _
    rw [loadsGo]
    rw [csvRead_wpt_str countries w hwOK]
    rw [show joinComma (CUP_FIELDS.map (format_attr w)) = wptKey w from rfl]
    rw [hwRow, if_neg Bool.false_ne_true]
    rw [show (CUP_FIELDS.map (format_attr w)).isEmpty = false from rfl]
    rw [if_neg Bool.false_ne_true]
    obtain ⟨s, hnm, hsOK, hsharp⟩ := hwOK.1
    rw [show (CUP_FIELDS.map (format_attr w)).headD "" = format_attr w .name from rfl]
    rw [show format_attr w .name = s from by
      show (w.name.map id).getD "" = s
      rw [hnm]
      rfl]
    rw [hsharp, if_neg Bool.false_ne_true]
    rw [show seen.contains (wptKey w) = false from by
      simpa using hseen w (List.mem_cons_self w ws)]
    rw [if_neg Bool.false_ne_true]
    rw [parse_format_row countries w hwOK]
    simp only [Bind.bind, Except.bind]
    have hnd2 : (ws.map wptKey).Nodup := (List.nodup_cons.mp hnd).2
    have hnotin : wptKey w ∉ ws.map wptKey := (List.nodup_cons.mp hnd).1
    have hseen2 : ∀ x ∈ ws, wptKey x ∉ wptKey w :: seen := by
      intro x hx
      rw [List.mem_cons, not_or]
      refine ⟨?_, hseen x (List.mem_cons_of_mem w hx)⟩
      intro he
      exact hnotin (he ▸ List.mem_map_of_mem wptKey hx)
    rw [ih (n + 1) (wptKey w :: seen) (w :: acc)
      (fun x hx => hok x (List.mem_cons_of_mem w hx)) hnd2 hseen2]
    have e1 : (w :: acc).reverse ++ ws = acc.reverse ++ w :: ws := by simp
    have e2 : n + 1 + ws.length + 2 = n + (w :: ws).length + 2 := by
      simp only [List.length_cons]
      omega
    rw [e1, e2]

theorem drop_after_append (A : List String) (x : String) (t : List String) :
    (A ++ x :: t).drop (A.length + 1) = t := by
  induction A with
  | nil => rfl
  | cons a A ih =>
    show (a :: (A ++ x :: t)).drop (A.length + 1 + 1) = t
    rw [List.drop_succ_cons]
    exact ih

theorem loads_serialize (countries : String → Bool) (cf : CupFile)
    (h : FileOK countries cf) :
    loads countries (serialize cf) = .ok cf := by
  obtain ⟨hws, hnd, ht, hlast⟩ := h
  unfold loads
  rw [splitlines_serialize countries cf (fun w hw => (hws w hw).1) ht hlast]
  rw [loadsLines]
  rw [serHeader_cols]
  rw [loadsGo_format countries
    (serHeader :: (cf.waypoints.map wpt_str ++ "-----Related Tasks-----" :: cf.tasks))
    cf.tasks cf.waypoints 0 [] [] hws hnd (fun w _ => List.not_mem_nil _)]
  have hdrop : (serHeader :: (cf.waypoints.map wpt_str ++
      "-----Related Tasks-----" :: cf.tasks)).drop (0 + cf.waypoints.length + 2) =
      cf.tasks := by
    rw [show (0 + cf.waypoints.length + 2) = (cf.waypoints.length + 1) + 1 by omega]
    rw [List.drop_succ_cons]
    rw [show cf.waypoints.length = (cf.waypoints.map wpt_str).length from
      (List.length_map _ _).symm]
    exact drop_after_append _ _ _
  rw [hdrop]
  rfl

def ctC2 : String → Bool := fun _ => false

def c2File : String :=
  "name,lat,lon\nA,4612.3N,01234.5E\nA,4612.300N,01234.500E\n"

def c2GoodFile : String :=
  "name,lat,lon,style\nA,4612.300N,01234.500E,2\n"

/-- The waypoint parsed from both data lines of `c2File` (46°12.3′N,
12°34.5′E). -/
def wC2 : CupWaypoint :=
  { name := some "A", code := .none, country := .none
    lat := 9241/200, lon := 503/40, coordinates := (503/40, 9241/200)
    elev := .none, og_elev_unit := "m"
    style := .none, rwdir := .none
    rwlen := .none, og_rwlen_unit := "m"
    rwwidth := .none, og_rwwidth_unit := "m"
    freq := .none, desc := .none, userdata := .none, pics := .none }

/-- `wC2` with the airport style used by the C2 witness file. -/
def wC2s : CupWaypoint := { wC2 with style := some 2 }

def c2Good : CupFile := ⟨[wC2s], []⟩

set_option maxRecDepth 2000 in
set_option maxHeartbeats 2000000 in
theorem claim_C2_counterexample :
    loads ctC2 c2File = .ok ⟨[wC2, wC2], []⟩ ∧
    loads ctC2 (serialize ⟨[wC2, wC2], []⟩) = .ok ⟨[wC2], []⟩ ∧
    serialize (⟨[wC2], []⟩ : CupFile) ≠ serialize (⟨[wC2, wC2], []⟩ : CupFile) := by
  refine ⟨by with_unfolding_all rfl, by with_unfolding_all rfl, ?_⟩
  have h1 : serialize (⟨[wC2], []⟩ : CupFile) =
      ("name,code,country,lat,lon,elev,style,rwdir,rwlen,rwwidth,freq,desc,userdata,pics\nA,,,4612.300N,01234.500E,,,,,,,,,\n-----Related Tasks-----\n") := by
    with_unfolding_all rfl
  have h2 : serialize (⟨[wC2, wC2], []⟩ : CupFile) =
      ("name,code,country,lat,lon,elev,style,rwdir,rwlen,rwwidth,freq,desc,userdata,pics\nA,,,4612.300N,01234.500E,,,,,,,,,\nA,,,4612.300N,01234.500E,,,,,,,,,\n-----Related Tasks-----\n") := by
    with_unfolding_all rfl
  rw [h1, h2]
  decide

/-- **C2** (amended).  The byte-stable round trip
`serialize (parse (serialize x)) = serialize x` fails in general for
parse outputs (`claim_C2_counterexample`: two quoting- or
precision-distinct raw lines can parse to dedup-distinct but
serialization-identical waypoints, so the reserialized file collapses
them), but holds — in the strong form `parse (serialize x) = .ok x` —
for every parsed collection satisfying `FileOK`: all the structural
invariants a parse guarantees, plus pairwise-distinct serialized row
keys, no quote-edged or `#`-leading stored fields, absent distance
fields (the intentionally one-way empty-distance sentinel), and no
trailing empty task line. -/
theorem claim_C2_amended (countries : String → Bool) (content : String)
    (cf : CupFile) (hparse : loads countries content = .ok cf)
    (h : FileOK countries cf) :
    loads countries (serialize cf) = .ok cf ∧
    (loads countries (serialize cf)).map serialize = .ok (serialize cf) := by
  have h1 := loads_serialize countries cf h
  exact ⟨h1, by rw [h1]; rfl⟩

set_option maxRecDepth 2000 in
set_option maxHeartbeats 2000000 in
theorem claim_C2_witness :
    loads ctC2 (serialize c2Good) = .ok c2Good ∧
    (loads ctC2 (serialize c2Good)).map serialize = .ok (serialize c2Good) := by
  refine claim_C2_amended ctC2 c2GoodFile c2Good (by with_unfolding_all rfl) ?_
  refine ⟨?_, by simp [c2Good], ?_, by simp [c2Good]⟩
  · intro w hw
    rw [show w = wC2s from by simpa [c2Good] using hw]
    constructor
    · refine ⟨⟨"A", rfl, ⟨by decide, by with_unfolding_all rfl,
        by with_unfolding_all rfl, by decide⟩, by with_unfolding_all rfl⟩,
        trivial, trivial, ⟨?_, ?_⟩, ⟨?_, ?_⟩, rfl, rfl, rfl, rfl, rfl, rfl, rfl,
        (by decide : is_valid_style_int 2 = true), trivial, trivial, trivial, trivial⟩
      · with_unfolding_all rfl
      · show |((9241 : ℚ)/200)| ≤ 90
        rw [abs_of_nonneg (by norm_num : (0:ℚ) ≤ 9241/200)]
        norm_num
      · with_unfolding_all rfl
      · show |((503 : ℚ)/40)| ≤ 180
        rw [abs_of_nonneg (by norm_num : (0:ℚ) ≤ 503/40)]
        norm_num
    · show strContains (pyLower (wptKey wC2s)) ("--related tasks--") = false
      with_unfolding_all rfl
  · intro t ht
    exact absurd ht (List.not_mem_nil t)

end AeroData
